import Mathlib

/-!
# Gopher Invaders: the simulation core (`game.go`)

A shallow embedding of the entity registry, the frame buffer compositor and the
collision test of `game.go`, followed by theorems about them.

Modelling conventions

* Go `int` is modelled by `Int`, which agrees with the program as long as no sum
  leaves the 64-bit range.  The statements that depend on it say so: the collision
  test is also given in 64-bit arithmetic (`IsCollide64`), the two tests agree where
  no edge sum overflows (`NoOverflow`), and the statement on the row of an enemy
  bounds that row.
* A `rune` is a `Char`, a `[]rune` is a `List Char`, a sprite is a list of rows.
* Entities live behind pointers in Go.  A pointer is a natural number, the objects live in
  `State.heap`, and the registry `Game.entities` is a list of pointers, so that moving
  an entity does not change the registry and identity of entities is pointer identity.
* `State.game` is the package-level variable `game`; `InitGame` is the only place
  that builds a `Game` and `GetGame` returns its address, so every method runs on it.
* Go's integer division truncates towards zero: `Int.tdiv`.
* A slice is its elements, the spare slots of its backing array and the name of that
  array (see `Game`): `append` and the removal by `append` work in place while the
  capacity allows, which the loop of `Game.Tick` observes.
* A run-time panic (index out of range, negative `make`/`strings.Repeat` count,
  a call through a dangling pointer) is the result `none`.
* The `GameDelta` argument of `Tick` is ignored by every implementation and is omitted.
* `rand.Intn(20)` is called at most once per enemy tick; its result is the argument
  `draw` of `EnemyEntity.Tick`.
-/

namespace GopherInvaders

/-! ## Data model -/

/-- The `GameEntityType` enumeration. -/
inductive GameEntityType
  | GUI
  | PLAYER
  | ENEMY
  | PROJECTILE
  deriving DecidableEq, Repr

/-- The struct `GameVariable` (the field `Type` is spelled `Type_`). -/
structure GameVariable where
  Type_ : String
  StringValue : String
  IntValue : Int
  deriving DecidableEq, Repr

/-- The type `GameSprite`, a slice of rows of runes. -/
abbrev GameSprite := List (List Char)

/-- The struct `GameEntityCoordinates`. -/
structure GameEntityCoordinates where
  Y : Int
  X : Int
  deriving DecidableEq, Repr

/-- The struct `GameEntityHitBox`. -/
structure GameEntityHitBox where
  Width : Int
  Height : Int
  deriving DecidableEq, Repr

/-- The struct `PlayerEntity`. -/
structure PlayerEntity where
  coords : GameEntityCoordinates
  sprite : GameSprite
  deriving DecidableEq, Repr

/-- The struct `ProjectileEntity` (the projectile fired by the player). -/
structure ProjectileEntity where
  coords : GameEntityCoordinates
  sprite : GameSprite
  deriving DecidableEq, Repr

/-- The struct `EnemyEntity`. -/
structure EnemyEntity where
  coords : GameEntityCoordinates
  sprite : GameSprite
  velocity : Int
  counter : Int
  deriving DecidableEq, Repr

/-- The struct `EnemyProjectileEntity`. -/
structure EnemyProjectileEntity where
  coords : GameEntityCoordinates
  sprite : GameSprite
  deriving DecidableEq, Repr

/-- The struct `ScoreBoardEntity`. -/
structure ScoreBoardEntity where
  sprite : GameSprite
  coords : GameEntityCoordinates
  deriving DecidableEq, Repr

/-- The dynamic types behind the interface `GameEntity`. -/
inductive GameEntity
  | Player (e : PlayerEntity)
  | Projectile (e : ProjectileEntity)
  | Enemy (e : EnemyEntity)
  | EnemyProjectile (e : EnemyProjectileEntity)
  | ScoreBoard (e : ScoreBoardEntity)
  deriving DecidableEq, Repr

/-- The struct `GameFrameBuffer`. -/
structure GameFrameBuffer where
  content : List (List Char)
  height : Int
  width : Int
  deriving DecidableEq, Repr

/-- The struct `Game`; `inputHandler` is the query `IsKeyPressed` of the handler and
`globals` is the map, a missing key reading as the zero `GameVariable`.

The slice `entities` is spread over three fields: `entities` holds its `len` elements,
`spare` holds the slots of its backing array from `len` up to `cap` (what a removal
left there, or `none` for a slot never written), and `array` names the backing array.
The last field is not part of the Go struct: `growCap cap` is the capacity `append`
gives to the new backing array of a slice that was full at capacity `cap`; Go leaves
it to its run time, the default here is doubling. -/
structure Game where
  frameRate : Int
  entities : List Nat
  frameBuffer : GameFrameBuffer
  inputHandler : String → Bool
  globals : String → GameVariable
  spare : List (Option Nat) := []
  array : Nat := 0
  growCap : Nat → Nat := fun cap => max (2 * cap) (cap + 1)

/-- The entity objects reachable through pointers (a pointer is a natural number). -/
abbrev Heap := Nat → Option GameEntity

/-- The program state: the entity objects, the next unused pointer, and the
package-level variable `game`. -/
structure State where
  heap : Heap
  next : Nat
  game : Game

/-- The assignment `*r = v`. -/
def Heap.set (h : Heap) (r : Nat) (v : GameEntity) : Heap :=
  fun k => if k = r then some v else h k

/-- The map assignment `globals[name] = v`. -/
def setGlobal (globals : String → GameVariable) (name : String) (v : GameVariable) :
    String → GameVariable :=
  fun k => if k = name then v else globals k

/-- The zero value of `GameVariable`. -/
def GameVariable.zero : GameVariable := ⟨"", "", 0⟩

/-- Allocation `&T{...}` of a new entity object. -/
def State.new (s : State) (v : GameEntity) : Nat × State :=
  (s.next, { s with heap := s.heap.set s.next v, next := s.next + 1 })

/-! ## Entity accessors -/

/-- The method `GetType` of each variant. -/
def GameEntity.GetType : GameEntity → GameEntityType
  | .Player _ => .PLAYER
  | .Projectile _ => .PROJECTILE
  | .Enemy _ => .ENEMY
  | .EnemyProjectile _ => .PROJECTILE
  | .ScoreBoard _ => .GUI

/-- The method `GetCoords` of each variant. -/
def GameEntity.GetCoords : GameEntity → GameEntityCoordinates
  | .Player e => e.coords
  | .Projectile e => e.coords
  | .Enemy e => e.coords
  | .EnemyProjectile e => e.coords
  | .ScoreBoard e => e.coords

/-- The hit box `{Height: len(sprite), Width: len(sprite[0])}` of the player and the
enemy; `sprite[0]` panics on an empty sprite. -/
def spriteHitBox (sprite : GameSprite) : Option GameEntityHitBox :=
  match sprite with
  | [] => none
  | row :: _ => some { Height := sprite.length, Width := row.length }

/-- The method `GetHitBox` of each variant. -/
def GameEntity.GetHitBox : GameEntity → Option GameEntityHitBox
  | .Player e => spriteHitBox e.sprite
  | .Projectile _ => some { Width := 1, Height := 1 }
  | .Enemy e => spriteHitBox e.sprite
  | .EnemyProjectile _ => some { Width := 1, Height := 1 }
  | .ScoreBoard _ => some { Height := 0, Width := 0 }

/-! ## Collision test -/

/-- The function `IsNumBetween`. -/
def IsNumBetween (num a b : Int) : Bool :=
  (decide (num < a) && decide (num > b)) || (decide (num > a) && decide (num < b))

/-- The boolean expression returned by `IsCollide`, on the coordinates and hit
boxes it has read from its two arguments. -/
def IsCollideBoxes (aCoords : GameEntityCoordinates) (aHitBox : GameEntityHitBox)
    (bCoords : GameEntityCoordinates) (bHitBox : GameEntityHitBox) : Bool :=
  (IsNumBetween aCoords.X bCoords.X (bCoords.X + bHitBox.Width)
    || IsNumBetween (aCoords.X + aHitBox.Width) bCoords.X (bCoords.X + bHitBox.Width))
  && (IsNumBetween aCoords.Y bCoords.Y (bCoords.Y + bHitBox.Height)
    || IsNumBetween (aCoords.Y + aHitBox.Height) bCoords.Y (bCoords.Y + bHitBox.Height))

/-- The function `IsCollide`: reads coordinates and hit box of `a`, then of `b`. -/
def IsCollide (a b : GameEntity) : Option Bool :=
  let aCoords := a.GetCoords
  match a.GetHitBox with
  | none => none
  | some aHitBox =>
    let bCoords := b.GetCoords
    match b.GetHitBox with
    | none => none
    | some bHitBox => some (IsCollideBoxes aCoords aHitBox bCoords bHitBox)

/-! ## Registry mutators -/

/-- The method `Game.AddEntity`, `entities = append(entities, e)`: while the backing
array has a spare slot, `e` is written into the first one; otherwise the elements
move, with `e`, to a new backing array. -/
def Game.AddEntity (g : Game) (e : Nat) : Game :=
  match g.spare with
  | _ :: rest => { g with entities := g.entities ++ [e], spare := rest }
  | [] =>
    { g with
      entities := g.entities ++ [e],
      spare := List.replicate (g.growCap g.entities.length - (g.entities.length + 1)) none,
      array := g.array + 1 }

/-- The method `Game.RemoveEntity`: `append(entities[:i], entities[i+1:]...)`; the
slice expressions panic unless `0 ≤ i` and `i + 1 ≤ len(entities)`.  The elements
after the index are copied one slot down inside the same backing array, whose slot
`len - 1` keeps what it held and becomes the first spare slot. -/
def Game.RemoveEntity (g : Game) (entityIndex : Int) : Option Game :=
  if 0 ≤ entityIndex ∧ entityIndex + 1 ≤ g.entities.length then
    some { g with
      entities :=
        g.entities.take entityIndex.toNat ++ g.entities.drop (entityIndex.toNat + 1),
      spare := g.entities.getLast? :: g.spare }
  else none

/-! ## Factories -/

/-- The factory `NewMyGameEntity`. -/
def NewMyGameEntity (y x : Int) : PlayerEntity :=
  { coords := { Y := y, X := x },
    sprite := ["  ^  ".toList, " |o| ".toList, "/ | \\".toList] }

/-- The factory `NewProjectileEntity`. -/
def NewProjectileEntity (y x : Int) : ProjectileEntity :=
  { coords := { Y := y, X := x }, sprite := ["|".toList] }

/-- The factory `NewEnemyEntity`. -/
def NewEnemyEntity (y x : Int) : EnemyEntity :=
  { coords := { Y := y, X := x },
    sprite := [" ^ ^ ".toList, "(000)".toList, "/! !\\".toList],
    velocity := 1,
    counter := 0 }

/-- The factory `NewEnemyProjectileEntity`. -/
def NewEnemyProjectileEntity (y x : Int) : EnemyProjectileEntity :=
  { coords := { Y := y, X := x }, sprite := ["$".toList] }

/-! ## Ticks -/

/-- The loop `for index, entity := range entities { if test(entity) { ...; break } }`
up to the first entity passing the test: its index and the entity, or nothing when
the loop runs to the end. -/
def rangeFind (test : Nat → Option Bool) : List Nat → Nat → Option (Option (Nat × Nat))
  | [], _ => some none
  | entity :: rest, index =>
    match test entity with
    | none => none
    | some true => some (some (index, entity))
    | some false => rangeFind test rest (index + 1)

/-- The loop condition `entity.GetType() == t && IsCollide(e, entity)`. -/
def hitTest (heap : Heap) (t : GameEntityType) (e : GameEntity) (entity : Nat) : Option Bool :=
  match heap entity with
  | none => none
  | some b => if b.GetType = t then IsCollide e b else some false

/-- The method `ProjectileEntity.Tick`. -/
def ProjectileEntity.Tick (e : Nat) (s : State) : Option State :=
  match s.heap e with
  | some (.Projectile p) =>
    let p1 : ProjectileEntity := { p with coords := { p.coords with Y := p.coords.Y - 1 } }
    let s1 : State := { s with heap := s.heap.set e (.Projectile p1) }
    match rangeFind (hitTest s1.heap .ENEMY (.Projectile p1)) s1.game.entities 0 with
    | none => none
    | some none => some s1
    | some (some (index, _)) =>
      match s1.game.RemoveEntity index with
      | none => none
      | some g1 =>
        let scoreVar := g1.globals "score"
        let scoreVar := { scoreVar with IntValue := scoreVar.IntValue + 1 }
        some { s1 with game := { g1 with globals := setGlobal g1.globals "score" scoreVar } }
  | _ => none

/-- The method `EnemyProjectileEntity.Tick`. -/
def EnemyProjectileEntity.Tick (e : Nat) (s : State) : Option State :=
  match s.heap e with
  | some (.EnemyProjectile p) =>
    let p1 : EnemyProjectileEntity :=
      { p with coords := { p.coords with Y := p.coords.Y + 1 } }
    let s1 : State := { s with heap := s.heap.set e (.EnemyProjectile p1) }
    match rangeFind (hitTest s1.heap .PLAYER (.EnemyProjectile p1)) s1.game.entities 0 with
    | none => none
    | some none => some s1
    | some (some (index, entity)) =>
      match s1.game.RemoveEntity index with
      | none => none
      | some g1 =>
        let livesVar := g1.globals "lives_left"
        if livesVar.IntValue ≠ 0 then
          let livesVar := { livesVar with IntValue := livesVar.IntValue - 1 }
          let g2 := { g1 with globals := setGlobal g1.globals "lives_left" livesVar }
          some { s1 with game := g2.AddEntity entity }
        else some { s1 with game := g1 }
  | _ => none

/-- The method `PlayerEntity.Tick`. -/
def PlayerEntity.Tick (e : Nat) (s : State) : Option State :=
  match s.heap e with
  | some (.Player p) =>
    let p1 : PlayerEntity :=
      if s.game.inputHandler "right" then { p with coords := { p.coords with X := p.coords.X + 2 } }
      else p
    let p2 : PlayerEntity :=
      if s.game.inputHandler "left" then
        { p1 with coords := { p1.coords with X := p1.coords.X + -2 } }
      else p1
    let s2 : State := { s with heap := s.heap.set e (.Player p2) }
    if s2.game.inputHandler " " then
      let (projectile, s3) :=
        s2.new (.Projectile (NewProjectileEntity (p2.coords.Y - 1) (p2.coords.X + 2)))
      some { s3 with game := s3.game.AddEntity projectile }
    else some s2
  | _ => none

/-- The expression `len(e.sprite[0])`, which panics on an empty sprite. -/
def firstRowLen (sprite : GameSprite) : Option Int :=
  match sprite with
  | [] => none
  | row :: _ => some row.length

/-- The method `EnemyEntity.Tick`; `draw` is the value of `rand.Intn(20)`. -/
def EnemyEntity.Tick (e : Nat) (draw : Int) (s : State) : Option State :=
  match s.heap e with
  | some (.Enemy en) =>
    let en1 : EnemyEntity := { en with counter := en.counter + 1 }
    let s1 : State := { s with heap := s.heap.set e (.Enemy en1) }
    if en1.counter < 10 then some s1
    else
      let fired : Option State :=
        if draw = 1 then
          match firstRowLen en1.sprite with
          | none => none
          | some w0 =>
            let (projectile, s2) := s1.new (.EnemyProjectile (NewEnemyProjectileEntity
              (en1.coords.Y + en1.sprite.length + 1) (en1.coords.X + Int.tdiv w0 2)))
            some { s2 with game := s2.game.AddEntity projectile }
        else some s1
      match fired with
      | none => none
      | some s2 =>
        let en2 : EnemyEntity :=
          { en1 with coords := { en1.coords with X := en1.coords.X + en1.velocity }, counter := 0 }
        match firstRowLen en2.sprite with
        | none => none
        | some w0 =>
          let en3 : EnemyEntity :=
            if en2.coords.X ≥ s2.game.frameBuffer.width - w0 then
              { en2 with velocity := -1,
                         coords := { en2.coords with Y := en2.coords.Y + (en2.sprite.length + 1) } }
            else en2
          let en4 : EnemyEntity :=
            if en3.coords.X ≤ 0 then
              { en3 with velocity := 1,
                         coords := { en3.coords with Y := en3.coords.Y + (en3.sprite.length + 1) } }
            else en3
          some { s2 with heap := s2.heap.set e (.Enemy en4) }
  | _ => none

/-- The method `ScoreBoardEntity.Tick`, which reads the package-level `game`. -/
def ScoreBoardEntity.Tick (e : Nat) (s : State) : Option State :=
  match s.heap e with
  | some (.ScoreBoard sb) =>
    let sb1 : ScoreBoardEntity :=
      { sb with coords := { sb.coords with Y := s.game.frameBuffer.height - sb.sprite.length } }
    some { s with heap := s.heap.set e (.ScoreBoard sb1) }
  | _ => none

/-- The interface call `entity.Tick(g, d)`, dispatching on the dynamic type. -/
def GameEntity.Tick (e : Nat) (draw : Int) (s : State) : Option State :=
  match s.heap e with
  | none => none
  | some (.Player _) => PlayerEntity.Tick e s
  | some (.Projectile _) => ProjectileEntity.Tick e s
  | some (.Enemy _) => EnemyEntity.Tick e draw s
  | some (.EnemyProjectile _) => EnemyProjectileEntity.Tick e s
  | some (.ScoreBoard _) => ScoreBoardEntity.Tick e s

/-- The direct-hit predicate of the two projectile loops, as a total test: the
entity behind `entity` exists, is classified `t`, and `IsCollide(e, entity)` is true. -/
def hits (heap : Heap) (t : GameEntityType) (e : GameEntity) (entity : Nat) : Bool :=
  match heap entity with
  | none => false
  | some b => decide (b.GetType = t) && decide (IsCollide e b = some true)

/-! ## Frame buffer -/

/-- The constructor `NewGameFrameBuffer`; the content is nil until `Clear`. -/
def NewGameFrameBuffer (height width : Int) : GameFrameBuffer :=
  { content := [], height := height, width := width }

/-- The method `GameFrameBuffer.Clear`: `make` panics on a negative height, and
`strings.Repeat` panics on a negative width as soon as there is a row to fill. -/
def GameFrameBuffer.Clear (gfb : GameFrameBuffer) : Option GameFrameBuffer :=
  if gfb.height < 0 then none
  else if 0 < gfb.height ∧ gfb.width < 0 then none
  else some { gfb with
    content := List.replicate gfb.height.toNat (List.replicate gfb.width.toNat ' ') }

/-- The assignment `content[y][x] = char`; an index out of range panics. -/
def setCell (content : List (List Char)) (y x : Int) (char : Char) :
    Option (List (List Char)) :=
  if y < 0 then none
  else
    match content[y.toNat]? with
    | none => none
    | some row =>
      if x < 0 then none
      else if x.toNat < row.length then some (content.set y.toNat (row.set x.toNat char))
      else none

/-- The loop of `addLine`, from index `ix` on. -/
def GameFrameBuffer.addLineFrom :
    GameFrameBuffer → Int → Int → List Char → Nat → Option GameFrameBuffer
  | gfb, _, _, [], _ => some gfb
  | gfb, y, x, char :: rest, ix =>
    if !(decide ((ix : Int) + x < 0) || decide ((ix : Int) + x ≥ gfb.width)) then
      match setCell gfb.content y ((ix : Int) + x) char with
      | none => none
      | some content => addLineFrom { gfb with content := content } y x rest (ix + 1)
    else addLineFrom gfb y x rest (ix + 1)

/-- The method `GameFrameBuffer.addLine`. -/
def GameFrameBuffer.addLine (gfb : GameFrameBuffer) (y x : Int) (line : List Char) :
    Option GameFrameBuffer :=
  gfb.addLineFrom y x line 0

/-- The loop of `Add`, from index `iy` on. -/
def GameFrameBuffer.AddFrom :
    GameFrameBuffer → Int → Int → List (List Char) → Nat → Option GameFrameBuffer
  | gfb, _, _, [], _ => some gfb
  | gfb, y, x, line :: rest, iy =>
    if !(decide ((iy : Int) + y < 0) || decide ((iy : Int) + y ≥ gfb.height)) then
      match gfb.addLine ((iy : Int) + y) x line with
      | none => none
      | some gfb1 => AddFrom gfb1 y x rest (iy + 1)
    else AddFrom gfb y x rest (iy + 1)

/-- The method `GameFrameBuffer.Add`. -/
def GameFrameBuffer.Add (gfb : GameFrameBuffer) (y x : Int) (content : List (List Char)) :
    Option GameFrameBuffer :=
  gfb.AddFrom y x content 0

/-- The method `GameFrameBuffer.ToString`. -/
def GameFrameBuffer.ToString (gfb : GameFrameBuffer) : String :=
  gfb.content.foldl (fun s line => s ++ (String.mk line ++ "\n")) ""

/-! ## Drawing -/

/-- The call `strings.Repeat(c, count)` read back as runes; a negative count panics. -/
def repeatRune (c : Char) (count : Int) : Option (List Char) :=
  if count < 0 then none else some (List.replicate count.toNat c)

/-- The method `ScoreBoardEntity.Draw`: rebuilds the sprite from the globals of the
package-level `game`, stores it in the entity and returns it. -/
def ScoreBoardEntity.Draw (e : Nat) (s : State) : Option ((Int × Int × GameSprite) × State) :=
  match s.heap e with
  | some (.ScoreBoard sb) =>
    let score := (s.game.globals "score").IntValue
    let livesLeft := (s.game.globals "lives_left").IntValue
    match repeatRune '#' s.game.frameBuffer.width with
    | none => none
    | some border =>
      let sprite : GameSprite :=
        [border,
         ("# Score: " ++ toString score).toList,
         ("# Lives Remaining: " ++ toString livesLeft).toList,
         border]
      some ((sb.coords.Y, sb.coords.X, sprite),
        { s with heap := s.heap.set e (.ScoreBoard { sb with sprite := sprite }) })
  | _ => none

/-- The interface call `entity.Draw()`. -/
def GameEntity.Draw (e : Nat) (s : State) : Option ((Int × Int × GameSprite) × State) :=
  match s.heap e with
  | none => none
  | some (.Player p) => some ((p.coords.Y, p.coords.X, p.sprite), s)
  | some (.Projectile p) => some ((p.coords.Y, p.coords.X, p.sprite), s)
  | some (.Enemy p) => some ((p.coords.Y, p.coords.X, p.sprite), s)
  | some (.EnemyProjectile p) => some ((p.coords.Y, p.coords.X, p.sprite), s)
  | some (.ScoreBoard _) => ScoreBoardEntity.Draw e s

/-- The loop of `Game.Draw` over the entities. -/
def Game.drawEntities : List Nat → State → Option State
  | [], s => some s
  | entity :: rest, s =>
    match GameEntity.Draw entity s with
    | none => none
    | some ((y, x, sprite), s1) =>
      match s1.game.frameBuffer.Add y x sprite with
      | none => none
      | some fb => drawEntities rest { s1 with game := { s1.game with frameBuffer := fb } }

/-- The method `Game.Draw`. -/
def Game.Draw (s : State) : Option (String × State) :=
  match s.game.frameBuffer.Clear with
  | none => none
  | some fb =>
    match Game.drawEntities s.game.entities
        { s with game := { s.game with frameBuffer := fb } } with
    | none => none
    | some s1 => some (s1.game.frameBuffer.ToString, s1)

/-! ## Initial state -/

/-- The statement `game.AddEntity(&T{...})`: allocate the object and append it. -/
def State.spawn (s : State) (v : GameEntity) : State :=
  let (r, s1) := s.new v
  { s1 with game := s1.game.AddEntity r }

/-- The function `InitGame`, run at program start (no entity object exists yet). -/
def InitGame (inputHandler : String → Bool) : State :=
  let game : Game :=
    { frameRate := 60,
      entities := [],
      frameBuffer := NewGameFrameBuffer 40 80,
      inputHandler := inputHandler,
      globals := setGlobal (setGlobal (fun _ => GameVariable.zero)
        "score" { Type_ := "integer", StringValue := "", IntValue := 0 })
        "lives_left" { Type_ := "integer", StringValue := "", IntValue := 3 } }
  let s0 : State := { heap := fun _ => none, next := 0, game := game }
  let s1 := s0.spawn (.Player (NewMyGameEntity
    (s0.game.frameBuffer.height - 7) (Int.tdiv s0.game.frameBuffer.width 2)))
  let s2 := s1.spawn (.ScoreBoard { sprite := [], coords := { Y := 0, X := 0 } })
  let s3 := s2.spawn (.Enemy (NewEnemyEntity 0 0))
  let s4 := s3.spawn (.Enemy (NewEnemyEntity 0 7))
  let s5 := s4.spawn (.Enemy (NewEnemyEntity 0 14))
  (List.range 10).foldl
    (fun (s : State) (i : Nat) => s.spawn (.Enemy (NewEnemyEntity 0 ((i : Int) * 7)))) s5

/-- The states the program can be in: after `InitGame`, after an entity's tick
(whatever the random draw), after a frame is drawn, and after the input handler
has recorded another key. -/
inductive Reachable : State → Prop
  | init (inputHandler : String → Bool) : Reachable (InitGame inputHandler)
  | tick {s s1 : State} (e : Nat) (draw : Int) :
      Reachable s → GameEntity.Tick e draw s = some s1 → Reachable s1
  | draw {s s1 : State} (txt : String) :
      Reachable s → Game.Draw s = some (txt, s1) → Reachable s1
  | input {s : State} (inputHandler : String → Bool) :
      Reachable s → Reachable { s with game := { s.game with inputHandler := inputHandler } }

/-! ## Vocabulary of the statements -/

/-- The element of a list at an integer index, if any. -/
def getI {α : Type} (l : List α) (n : Int) : Option α :=
  if n < 0 then none else l[n.toNat]?

/-- The rune at row `i`, column `j` of a grid or sprite, if there is one. -/
def cellAt (rows : List (List Char)) (i j : Int) : Option Char :=
  (getI rows i).bind (fun row => getI row j)

/-- The content is `height` rows of `width` runes each. -/
def GameFrameBuffer.IsGrid (gfb : GameFrameBuffer) : Prop :=
  0 ≤ gfb.height ∧ 0 ≤ gfb.width ∧ gfb.content.length = gfb.height.toNat ∧
    ∀ row ∈ gfb.content, row.length = gfb.width.toNat

instance (gfb : GameFrameBuffer) : Decidable gfb.IsGrid := by
  unfold GameFrameBuffer.IsGrid
  infer_instance

/-- The value of the global `score`. -/
def State.score (s : State) : Int := (s.game.globals "score").IntValue

/-- The value of the global `lives_left`. -/
def State.livesLeft (s : State) : Int := (s.game.globals "lives_left").IntValue

/-- The projectile after `e.coords.Y -= 1`. -/
def ProjectileEntity.moved (p : ProjectileEntity) : ProjectileEntity :=
  { p with coords := { p.coords with Y := p.coords.Y - 1 } }

/-- The enemy projectile after `e.coords.Y += 1`. -/
def EnemyProjectileEntity.moved (p : EnemyProjectileEntity) : EnemyProjectileEntity :=
  { p with coords := { p.coords with Y := p.coords.Y + 1 } }

/-- The text of a frame: every row followed by a line terminator. -/
def frameText : List (List Char) → List Char
  | [] => []
  | row :: rest => row ++ '\n' :: frameText rest

/-- The state is well formed: every pointer below `next` holds an entity whose hit
box can be read (a player or enemy has a sprite with a first row), no pointer from
`next` on holds anything, and the registry holds pointers below `next`. -/
def State.WellFormed (s : State) : Prop :=
  (∀ r, r < s.next → ∃ b, s.heap r = some b ∧ b.GetHitBox ≠ none)
  ∧ (∀ r, s.next ≤ r → s.heap r = none)
  ∧ (∀ r ∈ s.game.entities, r < s.next)

/-! ## The end-to-end scenarios and sample data -/

/-- A game on a 40 by 80 buffer with no entity yet, `score` 0 and `lives_left` as given. -/
def emptyGame (lives : Int) : State :=
  { heap := fun _ => none,
    next := 0,
    game :=
      { frameRate := 60,
        entities := [],
        frameBuffer := NewGameFrameBuffer 40 80,
        inputHandler := fun _ => false,
        globals := setGlobal (setGlobal (fun _ => GameVariable.zero)
          "score" { Type_ := "integer", StringValue := "", IntValue := 0 })
          "lives_left" { Type_ := "integer", StringValue := "", IntValue := lives } } }

/-- Scenario 1: a player projectile (pointer 0) at row `y`, column `x`, and the enemy
(pointer 1) made by `NewEnemyEntity(10, 9)`, whose sprite covers rows 10 to 12 and
columns 9 to 13. -/
def scenario1 (y x : Int) : State :=
  ((emptyGame 3).spawn (.Projectile (NewProjectileEntity y x))).spawn
    (.Enemy (NewEnemyEntity 10 9))

/-- Scenarios 2 and 3: an enemy projectile (pointer 0) at row 33, column 41, which
its move takes onto the middle row of the player (pointer 1) made by
`NewMyGameEntity(33, 40)`, whose sprite covers rows 33 to 35 and columns 40 to 44. -/
def scenario2 (lives : Int) : State :=
  ((emptyGame lives).spawn (.EnemyProjectile (NewEnemyProjectileEntity 33 41))).spawn
    (.Player (NewMyGameEntity 33 40))

/-- A 3 by 4 buffer, cleared, with the runes `xy` put in the middle row. -/
def sampleBuffer : GameFrameBuffer :=
  { content := ["    ".toList, " xy ".toList, "    ".toList], height := 3, width := 4 }

/-- The decimal form of an integer, as `%v` prints it: its digits, after a minus sign
when it is negative. -/
def decimal (n : Int) : List Char :=
  if n < 0 then '-' :: Nat.toDigits 10 n.natAbs else Nat.toDigits 10 n.toNat

/-- A game on a 40 by 80 buffer whose only entity (pointer 0) is a scoreboard as
`InitGame` creates it, never drawn, with the given `score` and `lives_left`. -/
def scoreboardState (score lives : Int) : State :=
  let s := (emptyGame lives).spawn (.ScoreBoard { sprite := [], coords := { Y := 0, X := 0 } })
  let scoreVar : GameVariable := { Type_ := "integer", StringValue := "", IntValue := score }
  { s with game := { s.game with globals := setGlobal s.game.globals "score" scoreVar } }

/-- What `EnemyEntity.Tick` does to the enemy itself, in a buffer of the given width:
it counts a call, and at the tenth it steps by `velocity`, resets the counter, and
turns and drops at either edge. -/
def EnemyEntity.advanced (width : Int) (en : EnemyEntity) : EnemyEntity :=
  if en.counter + 1 < 10 then { en with counter := en.counter + 1 }
  else
    let w0 : Int := (en.sprite.headD []).length
    let en2 : EnemyEntity :=
      { en with coords := { en.coords with X := en.coords.X + en.velocity }, counter := 0 }
    let en3 : EnemyEntity :=
      if en2.coords.X ≥ width - w0 then
        { en2 with velocity := -1,
                   coords := { en2.coords with Y := en2.coords.Y + (en2.sprite.length + 1) } }
      else en2
    if en3.coords.X ≤ 0 then
      { en3 with velocity := 1,
                 coords := { en3.coords with Y := en3.coords.Y + (en3.sprite.length + 1) } }
    else en3

/-- Successive calls of `EnemyEntity.Tick` on one enemy, one for each random draw of
the list. -/
def EnemyEntity.Ticks (e : Nat) : List Int → State → Option State
  | [], s => some s
  | draw :: rest, s =>
    match EnemyEntity.Tick e draw s with
    | none => none
    | some s1 => EnemyEntity.Ticks e rest s1

/-- The enemy has the sprite of `NewEnemyEntity` (3 rows of 5 runes), a velocity of
1 or -1, and a column from 0 to `W - 5`, heading right at column 0 and left at
column `W - 5`. -/
def EnemyEntity.InBounds (W : Int) (en : EnemyEntity) : Prop :=
  en.sprite = (NewEnemyEntity 0 0).sprite
  ∧ (en.velocity = 1 ∨ en.velocity = -1)
  ∧ 0 ≤ en.coords.X ∧ en.coords.X ≤ W - 5
  ∧ (en.coords.X = 0 → en.velocity = 1)
  ∧ (en.coords.X = W - 5 → en.velocity = -1)

instance (W : Int) (en : EnemyEntity) : Decidable (en.InBounds W) := by
  unfold EnemyEntity.InBounds
  infer_instance

/-- The bounce scenario: an enemy (pointer 0) at row 8, column 0, heading left, whose
counter is 9, alone in a game on a 40 by 80 buffer. -/
def bounceState : State :=
  (emptyGame 3).spawn (.Enemy { NewEnemyEntity 8 0 with velocity := -1, counter := 9 })

/-- The player after the two movement tests of `PlayerEntity.Tick`: two columns to
the right when `right` is held, two columns to the left when `left` is held. -/
def PlayerEntity.moved (right left : Bool) (p : PlayerEntity) : PlayerEntity :=
  { p with coords :=
      { p.coords with X := p.coords.X + (if right then 2 else 0) - (if left then 2 else 0) } }

/-- The game after `InitGame` while the fire key is the key held, as the handler of
the program reports it. -/
def fireState : State := InitGame (fun key => key == " ")

/-- Scenario 2 with one life left and the fire key held. -/
def scenario2Fire : State :=
  let s := scenario2 1
  { s with game := { s.game with inputHandler := fun key => key == " " } }

/-- Scenario 2 with three lives left, an enemy after the player in the registry, and
the fire key held. -/
def respawnState : State :=
  let s := (scenario2 3).spawn (.Enemy (NewEnemyEntity 0 0))
  { s with game := { s.game with inputHandler := fun key => key == " " } }

/-! ## The loop of `Game.Tick`

`for _, entity := range g.entities` evaluates `g.entities` once: the loop keeps the
backing array and the length `n` the slice had at that moment, and its step number
`index` reads slot `index` of that array when it gets there.  A removal or an append
in place by an advance call writes into that same array; an append that reallocates
moves `g.entities` to a new array and leaves the iterated one as it was (in this
program a reallocating append is the only registry mutation of its advance call). -/

/-- The slots of the backing array of `g.entities`, from 0 to its capacity. -/
def Game.slots (g : Game) : List (Option Nat) := g.entities.map some ++ g.spare

/-- The loop of `Game.Tick` over the array `array` with contents `slots`: `todo` steps
are left, the next reads slot `index`.  The result is the final state, with the
record of the advance calls made: the entity of each call and the state it returned.
The call number `index` of the loop gets the random draw `draws index`. -/
def Game.tickLoop (array : Nat) (draws : Nat → Int) :
    Nat → Nat → List (Option Nat) → State → Option (List (Nat × State) × State)
  | 0, _, _, s => some ([], s)
  | todo + 1, index, slots, s =>
    match slots[index]? with
    | some (some entity) =>
      match GameEntity.Tick entity (draws index) s with
      | none => none
      | some s1 =>
        let slots1 := if s1.game.array = array then s1.game.slots else slots
        match tickLoop array draws todo (index + 1) slots1 s1 with
        | none => none
        | some (calls, s2) => some ((entity, s1) :: calls, s2)
    | _ => none

/-- The method `Game.Tick`, with the record of its advance calls. -/
def Game.TickCalls (draws : Nat → Int) (s : State) : Option (List (Nat × State) × State) :=
  Game.tickLoop s.game.array draws s.game.entities.length 0 s.game.slots s

/-- The method `Game.Tick`. -/
def Game.Tick (draws : Nat → Int) (s : State) : Option State :=
  (Game.TickCalls draws s).map Prod.snd

/-- The entities that `Game.Tick` advances, in the order of the calls. -/
def Game.TickVisits (draws : Nat → Int) (s : State) : Option (List Nat) :=
  (Game.TickCalls draws s).map fun out => out.1.map Prod.fst

/-- Every advance call of the record left the registry it found as the start of the
registry it returned: it removed nothing. -/
def OnlyAppends : State → List (Nat × State) → Prop
  | _, [] => True
  | s, (_, s1) :: calls => s.game.entities <+: s1.game.entities ∧ OnlyAppends s1 calls

instance OnlyAppends.decidable :
    ∀ (s : State) (calls : List (Nat × State)), Decidable (OnlyAppends s calls)
  | _, [] => isTrue trivial
  | s, (_, s1) :: calls =>
    have := OnlyAppends.decidable s1 calls
    inferInstanceAs (Decidable (s.game.entities <+: s1.game.entities ∧ OnlyAppends s1 calls))

/-- Scenario 1 with the projectile at row 12, column 11, under the enemy, followed by
a player (pointer 2) with the fire key held. -/
def visitState : State :=
  let s := (scenario1 12 11).spawn (.Player (NewMyGameEntity 33 40))
  { s with game := { s.game with inputHandler := fun key => key == " " } }

/-! ## The 64-bit range

An `int` of the program has 64 bits, and a sum that leaves the range wraps around.
The collision test is given a second time with the sums it forms wrapped, to state
where the test over `Int` and the test of the program agree. -/

/-- The largest value of an `int`. -/
def MaxInt64 : Int := 9223372036854775807

/-- The smallest value of an `int`. -/
def MinInt64 : Int := -9223372036854775808

/-- The integer is a value of an `int`. -/
def InInt64 (z : Int) : Prop := MinInt64 ≤ z ∧ z ≤ MaxInt64

instance (z : Int) : Decidable (InInt64 z) := by
  unfold InInt64
  infer_instance

/-- The `int` that an addition of the program yields when the exact sum is `z`. -/
def wrap64 (z : Int) : Int := (z - MinInt64) % 18446744073709551616 + MinInt64

/-- The boolean expression returned by `IsCollide`, its sums `X + Width` and
`Y + Height` being those of 64-bit arithmetic. -/
def IsCollideBoxes64 (aCoords : GameEntityCoordinates) (aHitBox : GameEntityHitBox)
    (bCoords : GameEntityCoordinates) (bHitBox : GameEntityHitBox) : Bool :=
  (IsNumBetween aCoords.X bCoords.X (wrap64 (bCoords.X + bHitBox.Width))
    || IsNumBetween (wrap64 (aCoords.X + aHitBox.Width)) bCoords.X
        (wrap64 (bCoords.X + bHitBox.Width)))
  && (IsNumBetween aCoords.Y bCoords.Y (wrap64 (bCoords.Y + bHitBox.Height))
    || IsNumBetween (wrap64 (aCoords.Y + aHitBox.Height)) bCoords.Y
        (wrap64 (bCoords.Y + bHitBox.Height)))

/-- The function `IsCollide` in 64-bit arithmetic. -/
def IsCollide64 (a b : GameEntity) : Option Bool :=
  let aCoords := a.GetCoords
  match a.GetHitBox with
  | none => none
  | some aHitBox =>
    let bCoords := b.GetCoords
    match b.GetHitBox with
    | none => none
    | some bHitBox => some (IsCollideBoxes64 aCoords aHitBox bCoords bHitBox)

/-- The two sums that `IsCollide` forms from this position and hit box, `X + Width`
and `Y + Height`, do not overflow. -/
def NoOverflow (c : GameEntityCoordinates) (h : GameEntityHitBox) : Prop :=
  InInt64 (c.X + h.Width) ∧ InInt64 (c.Y + h.Height)

instance (c : GameEntityCoordinates) (h : GameEntityHitBox) : Decidable (NoOverflow c h) := by
  unfold NoOverflow
  infer_instance

/-! ## Collision test: lemmas -/

theorem IsNumBetween_iff (num a b : Int) :
    IsNumBetween num a b = true ↔ (num < a ∧ b < num) ∨ (a < num ∧ num < b) := by
  simp [IsNumBetween]

theorem IsCollideBoxes_iff (aC : GameEntityCoordinates) (aH : GameEntityHitBox)
    (bC : GameEntityCoordinates) (bH : GameEntityHitBox) :
    IsCollideBoxes aC aH bC bH = true ↔
      (IsNumBetween aC.X bC.X (bC.X + bH.Width) = true
        ∨ IsNumBetween (aC.X + aH.Width) bC.X (bC.X + bH.Width) = true)
      ∧ (IsNumBetween aC.Y bC.Y (bC.Y + bH.Height) = true
        ∨ IsNumBetween (aC.Y + aH.Height) bC.Y (bC.Y + bH.Height) = true) := by
  simp [IsCollideBoxes]

theorem IsCollide_eq_boxes (a b : GameEntity) (aH bH : GameEntityHitBox)
    (ha : a.GetHitBox = some aH) (hb : b.GetHitBox = some bH) :
    IsCollide a b = some (IsCollideBoxes a.GetCoords aH b.GetCoords bH) := by
  simp [IsCollide, ha, hb]

theorem IsCollideBoxes_inside_false (aC : GameEntityCoordinates) (aH : GameEntityHitBox)
    (bC : GameEntityCoordinates) (bH : GameEntityHitBox)
    (hbw : 0 ≤ bH.Width) (hbh : 0 ≤ bH.Height)
    (h : (aC.X < bC.X ∧ bC.X + bH.Width < aC.X + aH.Width)
      ∨ (aC.Y < bC.Y ∧ bC.Y + bH.Height < aC.Y + aH.Height)) :
    IsCollideBoxes aC aH bC bH = false := by
  rw [Bool.eq_false_iff]
  intro hc
  rw [IsCollideBoxes_iff] at hc
  simp only [IsNumBetween_iff] at hc
  omega

theorem IsCollideBoxes_touch_false (aC : GameEntityCoordinates) (aH : GameEntityHitBox)
    (bC : GameEntityCoordinates) (bH : GameEntityHitBox)
    (haw : 0 ≤ aH.Width) (hah : 0 ≤ aH.Height) (hbw : 0 ≤ bH.Width) (hbh : 0 ≤ bH.Height)
    (h : aC.X + aH.Width = bC.X ∨ bC.X + bH.Width = aC.X
      ∨ aC.Y + aH.Height = bC.Y ∨ bC.Y + bH.Height = aC.Y) :
    IsCollideBoxes aC aH bC bH = false := by
  rw [Bool.eq_false_iff]
  intro hc
  rw [IsCollideBoxes_iff] at hc
  simp only [IsNumBetween_iff] at hc
  omega

/-! ## The collision test in 64-bit arithmetic -/

theorem wrap64_of_in (z : Int) (h : InInt64 z) : wrap64 z = z := by
  unfold InInt64 MinInt64 MaxInt64 at h
  unfold wrap64 MinInt64
  omega

/-- Where no edge sum overflows, the test of the program is the test over `Int`. -/
theorem IsCollideBoxes64_eq (aC : GameEntityCoordinates) (aH : GameEntityHitBox)
    (bC : GameEntityCoordinates) (bH : GameEntityHitBox)
    (ha : NoOverflow aC aH) (hb : NoOverflow bC bH) :
    IsCollideBoxes64 aC aH bC bH = IsCollideBoxes aC aH bC bH := by
  unfold IsCollideBoxes64 IsCollideBoxes
  rw [wrap64_of_in _ ha.1, wrap64_of_in _ ha.2, wrap64_of_in _ hb.1, wrap64_of_in _ hb.2]

theorem IsCollide64_eq (a b : GameEntity) (aH bH : GameEntityHitBox)
    (ha : a.GetHitBox = some aH) (hb : b.GetHitBox = some bH)
    (hna : NoOverflow a.GetCoords aH) (hnb : NoOverflow b.GetCoords bH) :
    IsCollide64 a b = IsCollide a b := by
  simp only [IsCollide64, IsCollide, ha, hb, IsCollideBoxes64_eq _ _ _ _ hna hnb]

/-- Where an edge sum overflows the two tests can differ: a player projectile in the
last column of the 64-bit range, on the middle row of an enemy two columns to its
left, is inside the span of the enemy over `Int`, but the right edge of the enemy
wraps around in the program, and its test is false. -/
theorem IsCollide64_wraps :
    IsCollide (.Projectile (NewProjectileEntity 1 MaxInt64))
        (.Enemy (NewEnemyEntity 0 (MaxInt64 - 2))) = some true
    ∧ IsCollide64 (.Projectile (NewProjectileEntity 1 MaxInt64))
        (.Enemy (NewEnemyEntity 0 (MaxInt64 - 2))) = some false := by
  constructor <;> decide

theorem hitBox_nonneg (a : GameEntity) (aH : GameEntityHitBox) (ha : a.GetHitBox = some aH) :
    0 ≤ aH.Width ∧ 0 ≤ aH.Height := by
  cases a with
  | Player e =>
    cases hs : e.sprite with
    | nil => simp [GameEntity.GetHitBox, spriteHitBox, hs] at ha
    | cons row rest =>
      simp [GameEntity.GetHitBox, spriteHitBox, hs] at ha
      subst ha
      constructor
      · simp
      · simp; omega
  | Enemy e =>
    cases hs : e.sprite with
    | nil => simp [GameEntity.GetHitBox, spriteHitBox, hs] at ha
    | cons row rest =>
      simp [GameEntity.GetHitBox, spriteHitBox, hs] at ha
      subst ha
      constructor
      · simp
      · simp; omega
  | Projectile e => simp [GameEntity.GetHitBox] at ha; subst ha; simp
  | EnemyProjectile e => simp [GameEntity.GetHitBox] at ha; subst ha; simp
  | ScoreBoard e => simp [GameEntity.GetHitBox] at ha; subst ha; simp

/-! ## The scanning loop -/

theorem rangeFind_spec (test : Nat → Option Bool) (f : Nat → Bool) :
    ∀ (l : List Nat) (k : Nat), (∀ r ∈ l, test r = some (f r)) →
      (rangeFind test l k = some none ∧ ∀ r ∈ l, f r = false)
      ∨ ∃ i r, l[i]? = some r ∧ f r = true
          ∧ (∀ j r1, j < i → l[j]? = some r1 → f r1 = false)
          ∧ rangeFind test l k = some (some (k + i, r)) := by
  intro l
  induction l with
  | nil => intro k _; left; simp [rangeFind]
  | cons a l ih =>
    intro k h
    have ha : test a = some (f a) := h a (List.mem_cons_self _ _)
    have hl : ∀ r ∈ l, test r = some (f r) := fun r hr => h r (List.mem_cons_of_mem _ hr)
    cases hfa : f a with
    | true =>
      right
      refine ⟨0, a, by simp, hfa, ?_, ?_⟩
      · intro j r1 hj; omega
      · simp [rangeFind, ha, hfa]
    | false =>
      rcases ih (k + 1) hl with ⟨h1, h2⟩ | ⟨i, r, h1, h2, h3, h4⟩
      · left
        refine ⟨by simp [rangeFind, ha, hfa, h1], ?_⟩
        intro r hr
        rcases List.mem_cons.mp hr with rfl | hr
        · exact hfa
        · exact h2 r hr
      · right
        refine ⟨i + 1, r, by simpa using h1, h2, ?_, ?_⟩
        · intro j r1 hj hj1
          cases j with
          | zero => simp at hj1; subst hj1; exact hfa
          | succ j => exact h3 j r1 (by omega) (by simpa using hj1)
        · simp [rangeFind, ha, hfa, h4]; omega

theorem RemoveEntity_index (g : Game) (i : Nat) (hi : i < g.entities.length) :
    g.RemoveEntity (i : Int) = some { g with
      entities := g.entities.eraseIdx i,
      spare := g.entities.getLast? :: g.spare } := by
  have h : (0 : Int) ≤ (i : Int) ∧ (i : Int) + 1 ≤ (g.entities.length : Int) := by omega
  simp [Game.RemoveEntity, h, List.eraseIdx_eq_take_drop_succ]

theorem AddEntity_entities (g : Game) (e : Nat) :
    (g.AddEntity e).entities = g.entities ++ [e] := by
  unfold Game.AddEntity
  split <;> rfl

theorem AddEntity_globals (g : Game) (e : Nat) : (g.AddEntity e).globals = g.globals := by
  unfold Game.AddEntity
  split <;> rfl

theorem AddEntity_frameBuffer (g : Game) (e : Nat) :
    (g.AddEntity e).frameBuffer = g.frameBuffer := by
  unfold Game.AddEntity
  split <;> rfl

theorem AddEntity_inputHandler (g : Game) (e : Nat) :
    (g.AddEntity e).inputHandler = g.inputHandler := by
  unfold Game.AddEntity
  split <;> rfl

theorem Heap_set_same (h : Heap) (r : Nat) (v : GameEntity) : h.set r v r = some v := by
  simp [Heap.set]

theorem Heap_set_other (h : Heap) (r k : Nat) (v : GameEntity) (hk : k ≠ r) :
    h.set r v k = h k := by
  simp [Heap.set, hk]

theorem hitTest_eq_hits (heap : Heap) (t : GameEntityType) (e : GameEntity) (r : Nat)
    (he : e.GetHitBox ≠ none)
    (hr : ∃ b, heap r = some b ∧ (b.GetType = t → b.GetHitBox ≠ none)) :
    hitTest heap t e r = some (hits heap t e r) := by
  obtain ⟨b, hb, hbox⟩ := hr
  by_cases ht : b.GetType = t
  · obtain ⟨aH, haH⟩ := Option.ne_none_iff_exists'.mp he
    obtain ⟨bH, hbH⟩ := Option.ne_none_iff_exists'.mp (hbox ht)
    simp [hitTest, hits, hb, ht, IsCollide_eq_boxes _ _ _ _ haH hbH]
  · simp [hitTest, hits, hb, ht]

theorem eraseIdx_append_perm {α : Type} :
    ∀ (l : List α) (i : Nat) (x : α), l[i]? = some x → (l.eraseIdx i ++ [x]).Perm l := by
  intro l
  induction l with
  | nil => intro i x h; simp at h
  | cons a t ih =>
    intro i x h
    cases i with
    | zero =>
      simp only [List.getElem?_cons_zero, Option.some.injEq] at h
      subst h
      simp [List.perm_append_singleton a t]
    | succ j =>
      simp only [List.getElem?_cons_succ] at h
      simp [ih j x h]

theorem mem_eraseIdx_of_ne {α : Type} (l : List α) (i : Nat) (x y : α)
    (hy : l[i]? = some y) (hxy : x ≠ y) (hx : x ∈ l) : x ∈ l.eraseIdx i := by
  rw [List.mem_eraseIdx_iff_getElem?]
  obtain ⟨j, hj⟩ := List.mem_iff_getElem?.mp hx
  refine ⟨j, ?_, hj⟩
  rintro rfl
  rw [hj] at hy
  exact hxy (Option.some.inj hy)

theorem hits_set_of_type (heap : Heap) (t : GameEntityType) (a : GameEntity) (e r : Nat)
    (old new : GameEntity) (he : heap e = some old)
    (hold : old.GetType ≠ t) (hnew : new.GetType ≠ t) :
    hits (heap.set e new) t a r = hits heap t a r := by
  by_cases hre : r = e
  · subst hre
    simp [hits, Heap_set_same, he, hold, hnew]
  · simp [hits, Heap_set_other _ _ _ _ hre]

theorem hits_iff (heap : Heap) (t : GameEntityType) (a : GameEntity) (r : Nat) :
    hits heap t a r = true ↔
      ∃ b, heap r = some b ∧ b.GetType = t ∧ IsCollide a b = some true := by
  unfold hits
  cases h : heap r with
  | none => simp
  | some b => simp

/-- The tick of the player's projectile, in full: the state after the tick. -/
theorem ProjectileEntity_Tick_core (s : State) (e : Nat) (p : ProjectileEntity)
    (he : s.heap e = some (.Projectile p))
    (hwf : ∀ r ∈ s.game.entities,
      ∃ b, s.heap r = some b ∧ (b.GetType = .ENEMY → b.GetHitBox ≠ none)) :
    ∃ s1, ProjectileEntity.Tick e s = some s1
      ∧ s1.heap = s.heap.set e (.Projectile p.moved)
      ∧ s1.next = s.next
      ∧ (((∀ r ∈ s.game.entities, hits s.heap .ENEMY (.Projectile p.moved) r = false)
            ∧ s1.game = s.game)
        ∨ ∃ i r, s.game.entities[i]? = some r
            ∧ hits s.heap .ENEMY (.Projectile p.moved) r = true
            ∧ (∀ j r1, j < i → s.game.entities[j]? = some r1 →
                hits s.heap .ENEMY (.Projectile p.moved) r1 = false)
            ∧ s1.game = { s.game with
                entities := s.game.entities.eraseIdx i,
                spare := s.game.entities.getLast? :: s.game.spare,
                globals := setGlobal s.game.globals "score"
                  { s.game.globals "score" with
                    IntValue := (s.game.globals "score").IntValue + 1 } }) := by
  have hsame : ∀ r, hits (s.heap.set e (.Projectile p.moved)) .ENEMY (.Projectile p.moved) r
      = hits s.heap .ENEMY (.Projectile p.moved) r := fun r =>
    hits_set_of_type _ _ _ _ _ _ _ he (by simp [GameEntity.GetType]) (by simp [GameEntity.GetType])
  have htest : ∀ r ∈ s.game.entities,
      hitTest (s.heap.set e (.Projectile p.moved)) .ENEMY (.Projectile p.moved) r
        = some (hits s.heap .ENEMY (.Projectile p.moved) r) := by
    intro r hr
    rw [← hsame]
    apply hitTest_eq_hits
    · simp [GameEntity.GetHitBox]
    · by_cases hre : r = e
      · subst hre
        exact ⟨_, Heap_set_same _ _ _, by simp [GameEntity.GetType]⟩
      · obtain ⟨b, hb, hbox⟩ := hwf r hr
        exact ⟨b, by rw [Heap_set_other _ _ _ _ hre]; exact hb, hbox⟩
  rcases rangeFind_spec _ _ s.game.entities 0 htest with ⟨h1, h2⟩ | ⟨i0, r0, h1, h2, h3, h4⟩
  · refine ⟨{ s with heap := s.heap.set e (.Projectile p.moved) }, ?_, rfl, rfl, Or.inl ⟨h2, rfl⟩⟩
    unfold ProjectileEntity.Tick
    simp only [he]
    simp only [ProjectileEntity.moved] at h1
    rw [h1]
    rfl
  · have hi0 : i0 < s.game.entities.length := (List.getElem?_eq_some.mp h1).1
    refine ⟨{ s with
        heap := s.heap.set e (.Projectile p.moved),
        game := { s.game with
          entities := s.game.entities.eraseIdx i0,
          spare := s.game.entities.getLast? :: s.game.spare,
          globals := setGlobal s.game.globals "score"
            { s.game.globals "score" with
              IntValue := (s.game.globals "score").IntValue + 1 } } },
      ?_, rfl, rfl, Or.inr ⟨i0, r0, h1, h2, h3, rfl⟩⟩
    unfold ProjectileEntity.Tick
    simp only [he]
    simp only [ProjectileEntity.moved, Nat.zero_add] at h4
    rw [h4]
    simp only []
    rw [RemoveEntity_index _ _ hi0]
    rfl

/-- The tick of the enemy's projectile, in full: the state after the tick. -/
theorem EnemyProjectileEntity_Tick_core (s : State) (e : Nat) (p : EnemyProjectileEntity)
    (he : s.heap e = some (.EnemyProjectile p))
    (hwf : ∀ r ∈ s.game.entities,
      ∃ b, s.heap r = some b ∧ (b.GetType = .PLAYER → b.GetHitBox ≠ none)) :
    ∃ s1, EnemyProjectileEntity.Tick e s = some s1
      ∧ s1.heap = s.heap.set e (.EnemyProjectile p.moved)
      ∧ s1.next = s.next
      ∧ (((∀ r ∈ s.game.entities, hits s.heap .PLAYER (.EnemyProjectile p.moved) r = false)
            ∧ s1.game = s.game)
        ∨ ∃ i r, s.game.entities[i]? = some r
            ∧ hits s.heap .PLAYER (.EnemyProjectile p.moved) r = true
            ∧ (∀ j r1, j < i → s.game.entities[j]? = some r1 →
                hits s.heap .PLAYER (.EnemyProjectile p.moved) r1 = false)
            ∧ s1.game =
                if (s.game.globals "lives_left").IntValue ≠ 0 then
                  { s.game with
                    entities := s.game.entities.eraseIdx i ++ [r],
                    globals := setGlobal s.game.globals "lives_left"
                      { s.game.globals "lives_left" with
                        IntValue := (s.game.globals "lives_left").IntValue - 1 } }
                else { s.game with
                  entities := s.game.entities.eraseIdx i,
                  spare := s.game.entities.getLast? :: s.game.spare }) := by
  have hsame : ∀ r,
      hits (s.heap.set e (.EnemyProjectile p.moved)) .PLAYER (.EnemyProjectile p.moved) r
      = hits s.heap .PLAYER (.EnemyProjectile p.moved) r := fun r =>
    hits_set_of_type _ _ _ _ _ _ _ he (by simp [GameEntity.GetType]) (by simp [GameEntity.GetType])
  have htest : ∀ r ∈ s.game.entities,
      hitTest (s.heap.set e (.EnemyProjectile p.moved)) .PLAYER (.EnemyProjectile p.moved) r
        = some (hits s.heap .PLAYER (.EnemyProjectile p.moved) r) := by
    intro r hr
    rw [← hsame]
    apply hitTest_eq_hits
    · simp [GameEntity.GetHitBox]
    · by_cases hre : r = e
      · subst hre
        exact ⟨_, Heap_set_same _ _ _, by simp [GameEntity.GetType]⟩
      · obtain ⟨b, hb, hbox⟩ := hwf r hr
        exact ⟨b, by rw [Heap_set_other _ _ _ _ hre]; exact hb, hbox⟩
  rcases rangeFind_spec _ _ s.game.entities 0 htest with ⟨h1, h2⟩ | ⟨i0, r0, h1, h2, h3, h4⟩
  · refine ⟨{ s with heap := s.heap.set e (.EnemyProjectile p.moved) }, ?_, rfl, rfl,
      Or.inl ⟨h2, rfl⟩⟩
    unfold EnemyProjectileEntity.Tick
    simp only [he]
    simp only [EnemyProjectileEntity.moved] at h1
    rw [h1]
    rfl
  · have hi0 : i0 < s.game.entities.length := (List.getElem?_eq_some.mp h1).1
    refine ⟨{ s with
        heap := s.heap.set e (.EnemyProjectile p.moved),
        game := if (s.game.globals "lives_left").IntValue ≠ 0 then
                  { s.game with
                    entities := s.game.entities.eraseIdx i0 ++ [r0],
                    globals := setGlobal s.game.globals "lives_left"
                      { s.game.globals "lives_left" with
                        IntValue := (s.game.globals "lives_left").IntValue - 1 } }
                else { s.game with
                  entities := s.game.entities.eraseIdx i0,
                  spare := s.game.entities.getLast? :: s.game.spare } },
      ?_, rfl, rfl, Or.inr ⟨i0, r0, h1, h2, h3, rfl⟩⟩
    unfold EnemyProjectileEntity.Tick
    simp only [he]
    simp only [EnemyProjectileEntity.moved, Nat.zero_add] at h4
    rw [h4]
    simp only []
    rw [RemoveEntity_index _ _ hi0]
    by_cases hl : (s.game.globals "lives_left").IntValue = 0
    · simp [hl, EnemyProjectileEntity.moved]
    · simp [hl, EnemyProjectileEntity.moved, Game.AddEntity]

/-! ## Frame buffer: lemmas -/

theorem getI_nil {α : Type} (n : Int) : getI ([] : List α) n = none := by
  unfold getI
  split <;> simp

theorem getI_cons {α : Type} (a : α) (l : List α) (n : Int) :
    getI (a :: l) n = if n = 0 then some a else getI l (n - 1) := by
  unfold getI
  by_cases h0 : n = 0
  · subst h0; simp
  · by_cases hneg : n < 0
    · have h1 : n - 1 < 0 := by omega
      simp [h0, hneg, h1]
    · have h1 : ¬ n - 1 < 0 := by omega
      have h2 : n.toNat = (n - 1).toNat + 1 := by omega
      rw [if_neg hneg, if_neg h0, if_neg h1, h2, List.getElem?_cons_succ]

theorem getI_eq_some_lt {α : Type} (l : List α) (n : Int) (a : α) (h : getI l n = some a) :
    0 ≤ n ∧ n < l.length := by
  unfold getI at h
  split at h
  · cases h
  · have := (List.getElem?_eq_some.mp h).1
    omega

theorem getI_of_lt {α : Type} (l : List α) (n : Int) (h0 : 0 ≤ n) (h1 : n < l.length) :
    ∃ a, getI l n = some a ∧ a ∈ l := by
  have hlt : n.toNat < l.length := by omega
  refine ⟨l[n.toNat], ?_, List.getElem_mem _⟩
  unfold getI
  rw [if_neg (by omega)]
  exact List.getElem?_eq_getElem hlt

/-- The content is `H` rows of `W` runes. -/
theorem cellAt_rect_some (content : List (List Char)) (H W : Nat)
    (hlen : content.length = H) (hrow : ∀ row ∈ content, row.length = W)
    (i j : Int) (hi0 : 0 ≤ i) (hi : i < H) (hj0 : 0 ≤ j) (hj : j < W) :
    ∃ ch, cellAt content i j = some ch := by
  obtain ⟨row, hr, hmem⟩ := getI_of_lt content i hi0 (by omega)
  obtain ⟨ch, hc, _⟩ := getI_of_lt row j hj0 (by rw [hrow row hmem]; exact hj)
  exact ⟨ch, by simp [cellAt, hr, hc]⟩

theorem cellAt_rect_none (content : List (List Char)) (H W : Nat)
    (hlen : content.length = H) (hrow : ∀ row ∈ content, row.length = W)
    (i j : Int) (hout : i < 0 ∨ (H : Int) ≤ i ∨ j < 0 ∨ (W : Int) ≤ j) :
    cellAt content i j = none := by
  cases hc : cellAt content i j with
  | none => rfl
  | some ch =>
    exfalso
    unfold cellAt at hc
    cases hr : getI content i with
    | none => simp [hr] at hc
    | some row =>
      simp only [hr, Option.some_bind] at hc
      have h1 := getI_eq_some_lt _ _ _ hr
      have h2 := getI_eq_some_lt _ _ _ hc
      have hmem : row ∈ content := by
        unfold getI at hr
        split at hr
        · cases hr
        · exact List.mem_iff_getElem?.mpr ⟨_, hr⟩
      have := hrow row hmem
      omega

theorem setCell_rect (content : List (List Char)) (H W : Nat)
    (hlen : content.length = H) (hrow : ∀ row ∈ content, row.length = W)
    (y x : Int) (ch : Char) (hy0 : 0 ≤ y) (hy : y < H) (hx0 : 0 ≤ x) (hx : x < W) :
    ∃ c1, setCell content y x ch = some c1 ∧ c1.length = H
      ∧ (∀ row ∈ c1, row.length = W)
      ∧ ∀ i j, cellAt c1 i j = if i = y ∧ j = x then some ch else cellAt content i j := by
  have hylt : y.toNat < content.length := by omega
  have hrow0 : content[y.toNat].length = W := hrow _ (List.getElem_mem _)
  have hxlt : x.toNat < content[y.toNat].length := by omega
  refine ⟨content.set y.toNat (content[y.toNat].set x.toNat ch), ?_, ?_, ?_, ?_⟩
  · unfold setCell
    rw [if_neg (by omega), List.getElem?_eq_getElem hylt]
    simp only []
    rw [if_neg (by omega), if_pos hxlt]
  · simp [hlen]
  · intro row hmem
    rcases List.mem_or_eq_of_mem_set hmem with h | h
    · exact hrow row h
    · rw [h, List.length_set]; exact hrow0
  · intro i j
    unfold cellAt getI
    by_cases hi : i < 0
    · have : ¬ (i = y ∧ j = x) := by omega
      simp [hi, this]
    · by_cases hj : j < 0
      · have : ¬ (i = y ∧ j = x) := by omega
        simp [hi, hj, this]
      · simp only [hi, hj, if_false]
        rw [List.getElem?_set]
        by_cases hiy : i = y
        · subst hiy
          simp only [true_and, if_true, hylt]
          simp only [Option.some_bind, List.getElem?_eq_getElem hylt]
          rw [List.getElem?_set]
          by_cases hjx : j = x
          · subst hjx
            simp [hxlt]
          · have : x.toNat ≠ j.toNat := by omega
            simp [hjx, this]
        · have : y.toNat ≠ i.toNat := by omega
          simp [hiy, this]

theorem addLineFrom_spec : ∀ (line : List Char) (gfb : GameFrameBuffer) (k H W : Nat)
    (y x : Int), gfb.width = (W : Int) → gfb.content.length = H →
    (∀ row ∈ gfb.content, row.length = W) → 0 ≤ y → y < (H : Int) →
    ∃ g1, gfb.addLineFrom y x line k = some g1 ∧ g1.height = gfb.height
      ∧ g1.width = gfb.width ∧ g1.content.length = H
      ∧ (∀ row ∈ g1.content, row.length = W)
      ∧ ∀ i j, cellAt g1.content i j = (cellAt gfb.content i j).map
          (fun old => if i = y then (getI line (j - x - (k : Int))).getD old else old) := by
  intro line
  induction line with
  | nil =>
    intro gfb k H W y x _ hlen hrow _ _
    refine ⟨gfb, rfl, rfl, rfl, hlen, hrow, ?_⟩
    intro i j
    cases cellAt gfb.content i j <;> simp [getI_nil]
  | cons ch rest ih =>
    intro gfb k H W y x hw hlen hrow hy0 hy
    by_cases hin : 0 ≤ (k : Int) + x ∧ (k : Int) + x < (W : Int)
    · obtain ⟨c1, hset, hlen1, hrow1, hcell1⟩ :=
        setCell_rect gfb.content H W hlen hrow y ((k : Int) + x) ch hy0 hy hin.1 hin.2
      obtain ⟨g1, hg1, hh, hww, hl, hr, hc⟩ :=
        ih { gfb with content := c1 } (k + 1) H W y x hw hlen1 hrow1 hy0 hy
      refine ⟨g1, ?_, hh, hww, hl, hr, ?_⟩
      · have hcond : (!(decide ((k : Int) + x < 0) || decide ((k : Int) + x ≥ gfb.width)))
            = true := by
          rw [hw]
          simp only [Bool.not_eq_true', Bool.or_eq_false_iff, decide_eq_false_iff_not]
          omega
        simp only [GameFrameBuffer.addLineFrom]
        rw [if_pos hcond, hset]
        exact hg1
      · intro i j
        rw [hc, hcell1, getI_cons]
        by_cases hij : i = y ∧ j = (k : Int) + x
        · obtain ⟨old, hold⟩ := cellAt_rect_some gfb.content H W hlen hrow i j
            (by omega) (by omega) (by omega) (by omega)
          have h1 : getI rest (j - x - ((k + 1 : Nat) : Int)) = none := by
            unfold getI
            rw [if_pos (by push_cast; omega)]
          have h2 : j - x - (k : Int) = 0 := by omega
          simp only [hij, and_self, if_true, Option.map_some', Option.some.injEq]
          rw [← hij.2, ← hij.1, hold, h1, if_pos h2]
          rfl
        · rw [if_neg hij]
          by_cases hiy : i = y
          · have h2 : ¬ (j - x - (k : Int) = 0) := by omega
            have h3 : j - x - ((k + 1 : Nat) : Int) = j - x - (k : Int) - 1 := by
              push_cast; omega
            rw [if_neg h2, h3]
          · simp [hiy]
    · obtain ⟨g1, hg1, hh, hww, hl, hr, hc⟩ := ih gfb (k + 1) H W y x hw hlen hrow hy0 hy
      refine ⟨g1, ?_, hh, hww, hl, hr, ?_⟩
      · have hcond : ¬ ((!(decide ((k : Int) + x < 0) || decide ((k : Int) + x ≥ gfb.width)))
            = true) := by
          rw [hw]
          simp only [Bool.not_eq_true', Bool.or_eq_false_iff, decide_eq_false_iff_not]
          omega
        simp only [GameFrameBuffer.addLineFrom]
        rw [if_neg hcond]
        exact hg1
      · intro i j
        rw [hc, getI_cons]
        by_cases hiy : i = y
        · by_cases h2 : j - x - (k : Int) = 0
          · have hnone : cellAt gfb.content i j = none :=
              cellAt_rect_none gfb.content H W hlen hrow i j (by omega)
            simp [hnone]
          · have h3 : j - x - ((k + 1 : Nat) : Int) = j - x - (k : Int) - 1 := by
              push_cast; omega
            rw [if_neg h2, h3]
        · simp [hiy]

theorem getI_neg {α : Type} (l : List α) (n : Int) (h : n < 0) : getI l n = none := by
  unfold getI
  rw [if_pos h]

theorem AddFrom_spec : ∀ (sprite : List (List Char)) (gfb : GameFrameBuffer) (k H W : Nat)
    (y x : Int), gfb.height = (H : Int) → gfb.width = (W : Int) → gfb.content.length = H →
    (∀ row ∈ gfb.content, row.length = W) →
    ∃ g1, gfb.AddFrom y x sprite k = some g1 ∧ g1.height = gfb.height
      ∧ g1.width = gfb.width ∧ g1.content.length = H
      ∧ (∀ row ∈ g1.content, row.length = W)
      ∧ ∀ i j, cellAt g1.content i j = (cellAt gfb.content i j).map
          (fun old => ((getI sprite (i - y - (k : Int))).bind
            (fun line => getI line (j - x))).getD old) := by
  intro sprite
  induction sprite with
  | nil =>
    intro gfb k H W y x _ _ hlen hrow
    refine ⟨gfb, rfl, rfl, rfl, hlen, hrow, ?_⟩
    intro i j
    cases cellAt gfb.content i j <;> simp [getI_nil]
  | cons line rest ih =>
    intro gfb k H W y x hh hw hlen hrow
    by_cases hin : 0 ≤ (k : Int) + y ∧ (k : Int) + y < (H : Int)
    · obtain ⟨g0, hg0, hh0, hw0, hl0, hr0, hc0⟩ :=
        addLineFrom_spec line gfb 0 H W ((k : Int) + y) x hw hlen hrow hin.1 hin.2
      obtain ⟨g1, hg1, hh1, hw1, hl1, hr1, hc1⟩ :=
        ih g0 (k + 1) H W y x (by rw [hh0, hh]) (by rw [hw0, hw]) hl0 hr0
      refine ⟨g1, ?_, by rw [hh1, hh0], by rw [hw1, hw0], hl1, hr1, ?_⟩
      · have hcond : (!(decide ((k : Int) + y < 0) || decide ((k : Int) + y ≥ gfb.height)))
            = true := by
          rw [hh]
          simp only [Bool.not_eq_true', Bool.or_eq_false_iff, decide_eq_false_iff_not]
          omega
        simp only [GameFrameBuffer.AddFrom]
        rw [if_pos hcond]
        simp only [GameFrameBuffer.addLine]
        rw [hg0]
        exact hg1
      · intro i j
        rw [hc1, hc0, getI_cons]
        cases hold : cellAt gfb.content i j with
        | none => rfl
        | some old =>
          simp only [Option.map_some', Option.some.injEq]
          by_cases hiy : i = (k : Int) + y
          · have h1 : getI rest (i - y - ((k + 1 : Nat) : Int)) = none :=
              getI_neg _ _ (by push_cast; omega)
            have h2 : i - y - (k : Int) = 0 := by omega
            rw [h1, if_pos h2, if_pos hiy]
            simp
          · have h2 : ¬ (i - y - (k : Int) = 0) := by omega
            have h3 : i - y - ((k + 1 : Nat) : Int) = i - y - (k : Int) - 1 := by
              push_cast; omega
            rw [if_neg hiy, if_neg h2, h3]
    · obtain ⟨g1, hg1, hh1, hw1, hl1, hr1, hc1⟩ := ih gfb (k + 1) H W y x hh hw hlen hrow
      refine ⟨g1, ?_, hh1, hw1, hl1, hr1, ?_⟩
      · have hcond : ¬ ((!(decide ((k : Int) + y < 0) || decide ((k : Int) + y ≥ gfb.height)))
            = true) := by
          rw [hh]
          simp only [Bool.not_eq_true', Bool.or_eq_false_iff, decide_eq_false_iff_not]
          omega
        simp only [GameFrameBuffer.AddFrom]
        rw [if_neg hcond]
        exact hg1
      · intro i j
        rw [hc1, getI_cons]
        by_cases h2 : i - y - (k : Int) = 0
        · have hnone : cellAt gfb.content i j = none :=
            cellAt_rect_none gfb.content H W hlen hrow i j (by omega)
          simp [hnone]
        · have h3 : i - y - ((k + 1 : Nat) : Int) = i - y - (k : Int) - 1 := by
            push_cast; omega
          rw [if_neg h2, h3]

/-- Compositing on a grid, in full: `Add` succeeds, keeps the dimensions, and a cell
of the grid holds the sprite rune aimed at it if there is one, its old rune otherwise. -/
theorem Add_spec (gfb : GameFrameBuffer) (hg : gfb.IsGrid) (y x : Int)
    (sprite : List (List Char)) :
    ∃ g1, gfb.Add y x sprite = some g1 ∧ g1.height = gfb.height ∧ g1.width = gfb.width
      ∧ g1.IsGrid
      ∧ ∀ i j, cellAt g1.content i j = (cellAt gfb.content i j).map
          (fun old => (cellAt sprite (i - y) (j - x)).getD old) := by
  obtain ⟨hh0, hw0, hlen, hrow⟩ := hg
  obtain ⟨g1, hg1, hh1, hw1, hl1, hr1, hc1⟩ :=
    AddFrom_spec sprite gfb 0 gfb.height.toNat gfb.width.toNat y x
      (by omega) (by omega) hlen hrow
  refine ⟨g1, hg1, hh1, hw1, ⟨by omega, by omega, by rw [hl1, hh1], ?_⟩, ?_⟩
  · intro row hmem
    rw [hr1 row hmem, hw1]
  · intro i j
    rw [hc1]
    simp [cellAt]

theorem cellAt_some_bounds (rows : List (List Char)) (r c : Int) (ch : Char)
    (h : cellAt rows r c = some ch) :
    0 ≤ r ∧ r < rows.length ∧ 0 ≤ c ∧ ∃ row ∈ rows, c < row.length := by
  unfold cellAt at h
  cases hr : getI rows r with
  | none => simp [hr] at h
  | some row =>
    simp only [hr, Option.some_bind] at h
    have h1 := getI_eq_some_lt _ _ _ hr
    have h2 := getI_eq_some_lt _ _ _ h
    have hmem : row ∈ rows := by
      unfold getI at hr
      split at hr
      · cases hr
      · exact List.mem_iff_getElem?.mpr ⟨_, hr⟩
    exact ⟨h1.1, h1.2, h2.1, row, hmem, h2.2⟩

theorem cellAt_nat (rows : List (List Char)) (i j : Nat) :
    cellAt rows (i : Int) (j : Int) = (rows[i]?).bind (fun row => row[j]?) := by
  have hi : ¬ ((i : Int) < 0) := by omega
  have hj : ¬ ((j : Int) < 0) := by omega
  simp [cellAt, getI, hi, hj]

theorem content_ext (c1 c2 : List (List Char)) (H W : Nat)
    (hl1 : c1.length = H) (hr1 : ∀ row ∈ c1, row.length = W)
    (hl2 : c2.length = H) (hr2 : ∀ row ∈ c2, row.length = W)
    (h : ∀ i j, cellAt c1 i j = cellAt c2 i j) : c1 = c2 := by
  apply List.ext_getElem (by rw [hl1, hl2])
  intro n h1 h2
  have hw1 : c1[n].length = W := hr1 _ (List.getElem_mem _)
  have hw2 : c2[n].length = W := hr2 _ (List.getElem_mem _)
  apply List.ext_getElem (by rw [hw1, hw2])
  intro m hm1 hm2
  have := h (n : Int) (m : Int)
  rw [cellAt_nat, cellAt_nat, List.getElem?_eq_getElem h1, List.getElem?_eq_getElem h2] at this
  simp only [Option.some_bind] at this
  rw [List.getElem?_eq_getElem hm1, List.getElem?_eq_getElem hm2] at this
  exact Option.some.inj this

theorem Clear_spec (gfb : GameFrameBuffer) (hh : 0 ≤ gfb.height) (hw : 0 ≤ gfb.width) :
    ∃ g0, gfb.Clear = some g0 ∧ g0.height = gfb.height ∧ g0.width = gfb.width ∧ g0.IsGrid
      ∧ ∀ i j, 0 ≤ i → i < gfb.height → 0 ≤ j → j < gfb.width →
          cellAt g0.content i j = some ' ' := by
  refine ⟨{ gfb with
    content := List.replicate gfb.height.toNat (List.replicate gfb.width.toNat ' ') },
    ?_, rfl, rfl, ?_, ?_⟩
  · unfold GameFrameBuffer.Clear
    rw [if_neg (by omega), if_neg (by omega)]
  · refine ⟨hh, hw, by simp, ?_⟩
    intro row hmem
    rw [List.eq_of_mem_replicate hmem]
    simp
  · intro i j hi0 hi hj0 hj
    have h1 : i.toNat < gfb.height.toNat := by omega
    have h2 : j.toNat < gfb.width.toNat := by omega
    unfold cellAt getI
    rw [if_neg (by omega), List.getElem?_replicate, if_pos h1]
    simp only [Option.some_bind]
    rw [if_neg (by omega), List.getElem?_replicate, if_pos h2]

theorem ToString_foldl (content : List (List Char)) (acc : String) :
    (content.foldl (fun s line => s ++ (String.mk line ++ "\n")) acc).data
      = acc.data ++ frameText content := by
  induction content generalizing acc with
  | nil => simp [frameText]
  | cons row rest ih =>
    rw [List.foldl_cons, ih]
    simp [frameText, String.data_append]

theorem ToString_data (gfb : GameFrameBuffer) : gfb.ToString.data = frameText gfb.content := by
  unfold GameFrameBuffer.ToString
  rw [ToString_foldl]
  rfl

theorem frameText_length (content : List (List Char)) (W : Nat)
    (hrow : ∀ row ∈ content, row.length = W) :
    (frameText content).length = content.length * (W + 1) := by
  induction content with
  | nil => simp [frameText]
  | cons row rest ih =>
    have h1 := hrow row (List.mem_cons_self _ _)
    have h2 := ih (fun r hr => hrow r (List.mem_cons_of_mem _ hr))
    simp only [frameText, List.length_append, List.length_cons, h1, h2]
    ring

theorem frameText_get (content : List (List Char)) (W : Nat)
    (hrow : ∀ row ∈ content, row.length = W) (i j : Nat) (hj : j < W) :
    (frameText content)[i * (W + 1) + j]? = (content[i]?).bind (fun row => row[j]?) := by
  induction content generalizing i with
  | nil => simp [frameText]
  | cons row rest ih =>
    have h1 := hrow row (List.mem_cons_self _ _)
    have h2 := ih (fun r hr => hrow r (List.mem_cons_of_mem _ hr))
    cases i with
    | zero =>
      simp only [frameText, Nat.zero_mul, Nat.zero_add, List.getElem?_cons_zero,
        Option.some_bind]
      rw [List.getElem?_append_left (by omega)]
    | succ n =>
      simp only [frameText, List.getElem?_cons_succ]
      rw [List.getElem?_append_right (by rw [h1]; nlinarith)]
      have h3 : (n + 1) * (W + 1) + j - row.length = (n * (W + 1) + j) + 1 := by
        rw [h1]
        have : (n + 1) * (W + 1) = n * (W + 1) + W + 1 := by ring
        omega
      rw [h3, List.getElem?_cons_succ]
      exact h2 n

theorem frameText_newline (content : List (List Char)) (W : Nat)
    (hrow : ∀ row ∈ content, row.length = W) (i : Nat) (hi : i < content.length) :
    (frameText content)[i * (W + 1) + W]? = some '\n' := by
  induction content generalizing i with
  | nil => simp at hi
  | cons row rest ih =>
    have h1 := hrow row (List.mem_cons_self _ _)
    have h2 := ih (fun r hr => hrow r (List.mem_cons_of_mem _ hr))
    cases i with
    | zero =>
      simp only [frameText, Nat.zero_mul, Nat.zero_add]
      rw [List.getElem?_append_right (by omega), h1]
      simp
    | succ n =>
      simp only [frameText]
      rw [List.getElem?_append_right (by rw [h1]; nlinarith)]
      have h3 : (n + 1) * (W + 1) + W - row.length = (n * (W + 1) + W) + 1 := by
        rw [h1]
        have : (n + 1) * (W + 1) = n * (W + 1) + W + 1 := by ring
        omega
      rw [h3, List.getElem?_cons_succ]
      exact h2 n (by simpa using hi)

/-- The rendered text of a grid shows the rune of row `i`, column `j` at offset
`i * (width + 1) + j`. -/
theorem ToString_cell (gfb : GameFrameBuffer) (hg : gfb.IsGrid) (i j : Int)
    (hi0 : 0 ≤ i) (hj0 : 0 ≤ j) (hj : j < gfb.width) :
    gfb.ToString.data[(i * (gfb.width + 1) + j).toNat]? = cellAt gfb.content i j := by
  obtain ⟨hh0, hw0, hlen, hrow⟩ := hg
  obtain ⟨n, rfl⟩ := Int.eq_ofNat_of_zero_le hi0
  obtain ⟨m, rfl⟩ := Int.eq_ofNat_of_zero_le hj0
  have hw1 : gfb.width = (gfb.width.toNat : Int) := by omega
  have h1 : ((n : Int) * (gfb.width + 1) + (m : Int)).toNat
      = n * (gfb.width.toNat + 1) + m := by
    rw [hw1]
    norm_cast
  rw [h1, ToString_data, frameText_get gfb.content gfb.width.toNat hrow _ _ (by omega),
    cellAt_nat]

/-! ## Well-formed states -/

theorem WellFormed_lt_of_some (s : State) (hwf : s.WellFormed) (e : Nat) (b : GameEntity)
    (he : s.heap e = some b) : e < s.next := by
  by_contra h
  have := hwf.2.1 e (by omega)
  rw [this] at he
  cases he

theorem WellFormed_set (s : State) (hwf : s.WellFormed) (e : Nat) (old new : GameEntity)
    (he : s.heap e = some old) (hnew : new.GetHitBox ≠ none) :
    State.WellFormed { s with heap := s.heap.set e new } := by
  have hlt := WellFormed_lt_of_some s hwf e old he
  refine ⟨?_, ?_, hwf.2.2⟩
  · intro r hr
    by_cases hre : r = e
    · subst hre
      exact ⟨new, Heap_set_same _ _ _, hnew⟩
    · simp only [Heap_set_other _ _ _ _ hre]
      exact hwf.1 r hr
  · intro r hr
    have hre : r ≠ e := by
      intro h
      simp only [] at hr
      omega
    simp only [Heap_set_other _ _ _ _ hre]
    exact hwf.2.1 r hr

theorem WellFormed_entities (s : State) (hwf : s.WellFormed) (l : List Nat)
    (hl : ∀ r ∈ l, r ∈ s.game.entities) (g : Game) (hg : g.entities = l) :
    State.WellFormed { s with game := g } := by
  refine ⟨hwf.1, hwf.2.1, ?_⟩
  intro r hr
  simp only [hg] at hr
  exact hwf.2.2 r (hl r hr)

theorem WellFormed_spawn (s : State) (hwf : s.WellFormed) (v : GameEntity)
    (hv : v.GetHitBox ≠ none) : (s.spawn v).WellFormed := by
  refine ⟨?_, ?_, ?_⟩
  · intro r hr
    simp only [State.spawn, State.new] at hr ⊢
    by_cases hre : r = s.next
    · subst hre
      exact ⟨v, Heap_set_same _ _ _, hv⟩
    · rw [Heap_set_other _ _ _ _ hre]
      exact hwf.1 r (by omega)
  · intro r hr
    simp only [State.spawn, State.new] at hr ⊢
    rw [Heap_set_other _ _ _ _ (by omega)]
    exact hwf.2.1 r (by omega)
  · intro r hr
    simp only [State.spawn, State.new, AddEntity_entities, List.mem_append,
      List.mem_singleton] at hr ⊢
    rcases hr with h | h
    · have := hwf.2.2 r h
      omega
    · omega

theorem WellFormed_hwf (s : State) (hwf : s.WellFormed) (t : GameEntityType) :
    ∀ r ∈ s.game.entities, ∃ b, s.heap r = some b ∧ (b.GetType = t → b.GetHitBox ≠ none) := by
  intro r hr
  obtain ⟨b, hb, hbox⟩ := hwf.1 r (hwf.2.2 r hr)
  exact ⟨b, hb, fun _ => hbox⟩

theorem InitGame_wf (inputHandler : String → Bool) : (InitGame inputHandler).WellFormed := by
  have h0 : State.WellFormed
      { heap := fun _ => none, next := 0,
        game := { frameRate := 60, entities := [], frameBuffer := NewGameFrameBuffer 40 80,
                  inputHandler := inputHandler,
                  globals := setGlobal (setGlobal (fun _ => GameVariable.zero)
                    "score" { Type_ := "integer", StringValue := "", IntValue := 0 })
                    "lives_left" { Type_ := "integer", StringValue := "", IntValue := 3 } } } := by
    refine ⟨?_, ?_, ?_⟩
    · intro r hr; simp only [] at hr; omega
    · intro r _; rfl
    · intro r hr; simp only [List.not_mem_nil] at hr
  have henemy : ∀ y x, (GameEntity.Enemy (NewEnemyEntity y x)).GetHitBox ≠ none := by
    intro y x
    simp [GameEntity.GetHitBox, NewEnemyEntity, spriteHitBox]
  have hfold : ∀ (l : List Nat) (s : State), s.WellFormed →
      (l.foldl (fun s i => s.spawn (.Enemy (NewEnemyEntity 0 ((i : Int) * 7)))) s).WellFormed := by
    intro l
    induction l with
    | nil => intro s hs; exact hs
    | cons a l ih =>
      intro s hs
      exact ih _ (WellFormed_spawn s hs _ (henemy _ _))
  unfold InitGame
  apply hfold
  apply WellFormed_spawn _ _ _ (henemy _ _)
  apply WellFormed_spawn _ _ _ (henemy _ _)
  apply WellFormed_spawn _ _ _ (henemy _ _)
  apply WellFormed_spawn _ _ _ (by simp [GameEntity.GetHitBox])
  apply WellFormed_spawn _ _ _ (by simp [GameEntity.GetHitBox, NewMyGameEntity, spriteHitBox])
  exact h0

theorem WellFormed_of_fields (s s1 : State) (hwf : s.WellFormed)
    (hheap : s1.heap = s.heap) (hnext : s1.next = s.next)
    (hent : ∀ r ∈ s1.game.entities, r ∈ s.game.entities) : s1.WellFormed := by
  refine ⟨?_, ?_, ?_⟩
  · intro r hr
    rw [hheap]
    exact hwf.1 r (by omega)
  · intro r hr
    rw [hheap]
    exact hwf.2.1 r (by omega)
  · intro r hr
    rw [hnext]
    exact hwf.2.2 r (hent r hr)

theorem mem_of_mem_eraseIdx {α : Type} (l : List α) (i : Nat) (x : α)
    (h : x ∈ l.eraseIdx i) : x ∈ l := by
  rw [List.mem_eraseIdx_iff_getElem?] at h
  obtain ⟨j, _, hj⟩ := h
  exact List.mem_iff_getElem?.mpr ⟨j, hj⟩

theorem ProjectileEntity_Tick_wf (s : State) (hwf : s.WellFormed) (e : Nat)
    (p : ProjectileEntity) (he : s.heap e = some (.Projectile p)) :
    ∃ s1, ProjectileEntity.Tick e s = some s1 ∧ s1.WellFormed := by
  obtain ⟨s1, ht, hheap, hnext, hcases⟩ :=
    ProjectileEntity_Tick_core s e p he (WellFormed_hwf s hwf .ENEMY)
  refine ⟨s1, ht, ?_⟩
  have hw1 := WellFormed_set s hwf e _ (.Projectile p.moved) he (by simp [GameEntity.GetHitBox])
  apply WellFormed_of_fields _ s1 hw1 hheap hnext
  rcases hcases with ⟨_, hg⟩ | ⟨i, r, _, _, _, hg⟩
  · intro r hr; rw [hg] at hr; exact hr
  · intro r0 hr
    rw [hg] at hr
    exact mem_of_mem_eraseIdx _ _ _ hr

theorem EnemyProjectileEntity_Tick_wf (s : State) (hwf : s.WellFormed) (e : Nat)
    (p : EnemyProjectileEntity) (he : s.heap e = some (.EnemyProjectile p)) :
    ∃ s1, EnemyProjectileEntity.Tick e s = some s1 ∧ s1.WellFormed := by
  obtain ⟨s1, ht, hheap, hnext, hcases⟩ :=
    EnemyProjectileEntity_Tick_core s e p he (WellFormed_hwf s hwf .PLAYER)
  refine ⟨s1, ht, ?_⟩
  have hw1 := WellFormed_set s hwf e _ (.EnemyProjectile p.moved) he
    (by simp [GameEntity.GetHitBox])
  apply WellFormed_of_fields _ s1 hw1 hheap hnext
  rcases hcases with ⟨_, hg⟩ | ⟨i, r, hi, _, _, hg⟩
  · intro r hr; rw [hg] at hr; exact hr
  · intro r0 hr
    rw [hg] at hr
    have hmem : r ∈ s.game.entities := List.mem_iff_getElem?.mpr ⟨i, hi⟩
    split at hr
    · simp only [List.mem_append, List.mem_singleton] at hr
      rcases hr with h | h
      · exact mem_of_mem_eraseIdx _ _ _ h
      · rw [h]; exact hmem
    · exact mem_of_mem_eraseIdx _ _ _ hr

theorem ScoreBoardEntity_Tick_wf (s : State) (hwf : s.WellFormed) (e : Nat)
    (sb : ScoreBoardEntity) (he : s.heap e = some (.ScoreBoard sb)) :
    ∃ s1, ScoreBoardEntity.Tick e s = some s1 ∧ s1.WellFormed := by
  simp only [ScoreBoardEntity.Tick, he]
  refine ⟨_, rfl, ?_⟩
  exact WellFormed_set s hwf e _ _ he (by simp [GameEntity.GetHitBox])

theorem WellFormed_spawn_after (s : State) (hwf : s.WellFormed) (v : GameEntity)
    (hv : v.GetHitBox ≠ none) :
    State.WellFormed { heap := s.heap.set s.next v, next := s.next + 1,
                       game := s.game.AddEntity s.next } :=
  WellFormed_spawn s hwf v hv

theorem PlayerEntity_Tick_wf (s : State) (hwf : s.WellFormed) (e : Nat)
    (p : PlayerEntity) (he : s.heap e = some (.Player p)) :
    ∃ s1, PlayerEntity.Tick e s = some s1 ∧ s1.WellFormed := by
  obtain ⟨b, hb, hbox⟩ := hwf.1 e (WellFormed_lt_of_some s hwf e _ he)
  rw [he] at hb
  cases hb
  have hboxc : ∀ c : GameEntityCoordinates,
      (GameEntity.Player { coords := c, sprite := p.sprite }).GetHitBox ≠ none := fun _ => hbox
  have hset : ∀ c : GameEntityCoordinates, State.WellFormed
      { s with heap := s.heap.set e (.Player { coords := c, sprite := p.sprite }) } :=
    fun c => WellFormed_set s hwf e _ _ he (hboxc c)
  have hproj : ∀ q : ProjectileEntity, (GameEntity.Projectile q).GetHitBox ≠ none := by
    intro q
    simp [GameEntity.GetHitBox]
  unfold PlayerEntity.Tick
  simp only [he]
  by_cases hr : s.game.inputHandler "right" = true <;>
  by_cases hl : s.game.inputHandler "left" = true <;>
  by_cases hf : s.game.inputHandler " " = true <;>
  simp only [hr, hl, hf, if_true, if_false, Bool.false_eq_true, State.new] <;>
  first
  | exact ⟨_, rfl, hset _⟩
  | exact ⟨_, rfl, WellFormed_spawn_after _ (hset _) _ (hproj _)⟩

theorem EnemyEntity_Tick_wf (s : State) (hwf : s.WellFormed) (e : Nat)
    (en : EnemyEntity) (he : s.heap e = some (.Enemy en)) (draw : Int) :
    ∃ s1, EnemyEntity.Tick e draw s = some s1 ∧ s1.WellFormed := by
  have hlt := WellFormed_lt_of_some s hwf e _ he
  obtain ⟨b, hb, hbox⟩ := hwf.1 e hlt
  rw [he] at hb
  cases hb
  obtain ⟨row, rest, hs⟩ : ∃ row rest, en.sprite = row :: rest := by
    cases hsp : en.sprite with
    | nil => simp [GameEntity.GetHitBox, spriteHitBox, hsp] at hbox
    | cons row rest => exact ⟨row, rest, rfl⟩
  have hboxc : ∀ (c : GameEntityCoordinates) (v k : Int),
      (GameEntity.Enemy { coords := c, sprite := en.sprite, velocity := v, counter := k
        }).GetHitBox ≠ none := fun _ _ _ => hbox
  have hset : ∀ (c : GameEntityCoordinates) (v k : Int), State.WellFormed
      { s with heap := s.heap.set e (.Enemy ⟨c, en.sprite, v, k⟩) } :=
    fun c v k => WellFormed_set s hwf e _ _ he (hboxc c v k)
  have hfinal : ∀ (s2 : State) (old : GameEntity) (en4 : EnemyEntity), s2.WellFormed →
      s2.heap e = some old → en4.sprite = en.sprite →
      State.WellFormed { s2 with heap := s2.heap.set e (.Enemy en4) } := by
    intro s2 old en4 h2 hold hsp
    apply WellFormed_set s2 h2 e old _ hold
    simp [GameEntity.GetHitBox, hsp, hs, spriteHitBox]
  have hfr : firstRowLen en.sprite = some (row.length : Int) := by
    simp [firstRowLen, hs]
  unfold EnemyEntity.Tick
  simp only [he]
  by_cases hc : en.counter + 1 < 10
  · rw [if_pos hc]
    exact ⟨_, rfl, hset _ _ _⟩
  · rw [if_neg hc]
    simp only [hfr, State.new]
    by_cases hd : draw = 1
    · simp only [hd, if_true]
      refine ⟨_, rfl, ?_⟩
      refine hfinal ⟨_, _, _⟩ (.Enemy { en with counter := en.counter + 1 }) _
        (WellFormed_spawn_after _ (hset _ _ _) _ (by simp [GameEntity.GetHitBox])) ?_ ?_
      · exact (Heap_set_other _ s.next e _ (by omega)).trans (Heap_set_same _ _ _)
      · split_ifs <;> rfl
    · simp only [hd, if_false]
      refine ⟨_, rfl, ?_⟩
      refine hfinal ⟨_, _, _⟩ (.Enemy { en with counter := en.counter + 1 }) _
        (hset _ _ _) ?_ ?_
      · exact Heap_set_same _ _ _
      · split_ifs <;> rfl

theorem GameEntity_Tick_wf (s : State) (hwf : s.WellFormed) (e : Nat) (he : e < s.next)
    (draw : Int) : ∃ s1, GameEntity.Tick e draw s = some s1 ∧ s1.WellFormed := by
  obtain ⟨b, hb, _⟩ := hwf.1 e he
  unfold GameEntity.Tick
  cases b with
  | Player p => simp only [hb]; exact PlayerEntity_Tick_wf s hwf e p hb
  | Projectile p => simp only [hb]; exact ProjectileEntity_Tick_wf s hwf e p hb
  | Enemy p => simp only [hb]; exact EnemyEntity_Tick_wf s hwf e p hb draw
  | EnemyProjectile p => simp only [hb]; exact EnemyProjectileEntity_Tick_wf s hwf e p hb
  | ScoreBoard p => simp only [hb]; exact ScoreBoardEntity_Tick_wf s hwf e p hb

theorem GameEntity_Tick_some_lt (s s1 : State) (hwf : s.WellFormed) (e : Nat) (draw : Int)
    (h : GameEntity.Tick e draw s = some s1) : e < s.next := by
  by_contra hge
  have hnone := hwf.2.1 e (by omega)
  simp [GameEntity.Tick, hnone] at h

theorem GameEntity_Draw_wf (s s1 : State) (hwf : s.WellFormed) (e : Nat)
    (out : Int × Int × GameSprite) (h : GameEntity.Draw e s = some (out, s1)) :
    s1.WellFormed := by
  unfold GameEntity.Draw at h
  split at h
  · cases h
  · cases h; exact hwf
  · cases h; exact hwf
  · cases h; exact hwf
  · cases h; exact hwf
  · rename_i sb0 hsb0
    unfold ScoreBoardEntity.Draw at h
    split at h
    · rename_i sb hsb
      split at h
      · cases h
      · cases h
        exact WellFormed_set s hwf e _ _ hsb (by simp [GameEntity.GetHitBox])
    · cases h

theorem drawEntities_wf : ∀ (l : List Nat) (s s1 : State), s.WellFormed →
    Game.drawEntities l s = some s1 → s1.WellFormed := by
  intro l
  induction l with
  | nil => intro s s1 hwf h; simp only [Game.drawEntities] at h; cases h; exact hwf
  | cons a l ih =>
    intro s s1 hwf h
    simp only [Game.drawEntities] at h
    split at h
    · cases h
    · rename_i y x sprite s2 hd
      have hw2 := GameEntity_Draw_wf _ _ hwf _ _ hd
      split at h
      · cases h
      · refine ih _ _ ?_ h
        exact WellFormed_entities s2 hw2 _ (fun _ hr => hr) _ rfl

theorem Game_Draw_wf (s s1 : State) (txt : String) (hwf : s.WellFormed)
    (h : Game.Draw s = some (txt, s1)) : s1.WellFormed := by
  unfold Game.Draw at h
  split at h
  · cases h
  · split at h
    · cases h
    · rename_i s2 hs2
      cases h
      refine drawEntities_wf _ _ _ ?_ hs2
      exact WellFormed_entities s hwf _ (fun _ hr => hr) _ rfl

/-- Every reachable state is well formed. -/
theorem Reachable_wf (s : State) (hs : Reachable s) : s.WellFormed := by
  induction hs with
  | init inputHandler => exact InitGame_wf inputHandler
  | tick e draw _ ht ih =>
    obtain ⟨s2, h2, hw2⟩ := GameEntity_Tick_wf _ ih e (GameEntity_Tick_some_lt _ _ ih e draw ht) draw
    rw [ht] at h2
    cases h2
    exact hw2
  | draw txt _ hd ih => exact Game_Draw_wf _ _ txt ih hd
  | input inputHandler _ ih => exact WellFormed_entities _ ih _ (fun _ hr => hr) _ rfl

/-! ## Claims on the projectile ticks -/

/-- C1.  The tick of a player projectile, in a state whose registry entries all exist
and whose enemies have a sprite with a first row (so that their hit box can be read),
moves it up one row in the same column; when some enemy of the registry overlaps it at
the new position, the first such enemy in registry order, and nothing else, is removed
and `score` grows by one; when no enemy overlaps it, registry and `score` are
unchanged.  At most one entity is removed, only an enemy, and never the projectile. -/
theorem ProjectileEntity_Tick_contract (s : State) (e : Nat) (p : ProjectileEntity)
    (he : s.heap e = some (.Projectile p))
    (hwf : ∀ r ∈ s.game.entities,
      ∃ b, s.heap r = some b ∧ (b.GetType = .ENEMY → b.GetHitBox ≠ none)) :
    ∃ s1, ProjectileEntity.Tick e s = some s1
      ∧ s1.heap = s.heap.set e (.Projectile p.moved)
      ∧ p.moved.coords.Y = p.coords.Y - 1 ∧ p.moved.coords.X = p.coords.X
      ∧ ((∃ r ∈ s.game.entities, hits s.heap .ENEMY (.Projectile p.moved) r = true) →
          ∃ i r, s.game.entities[i]? = some r
            ∧ hits s.heap .ENEMY (.Projectile p.moved) r = true
            ∧ (∀ j r1, j < i → s.game.entities[j]? = some r1 →
                hits s.heap .ENEMY (.Projectile p.moved) r1 = false)
            ∧ s1.game.entities = s.game.entities.eraseIdx i
            ∧ s1.score = s.score + 1)
      ∧ ((∀ r ∈ s.game.entities, hits s.heap .ENEMY (.Projectile p.moved) r = false) →
          s1.game.entities = s.game.entities ∧ s1.score = s.score)
      ∧ (s1.game.entities = s.game.entities
          ∨ ∃ i r b, s.game.entities[i]? = some r ∧ s.heap r = some b ∧ b.GetType = .ENEMY
              ∧ s1.game.entities = s.game.entities.eraseIdx i)
      ∧ (e ∈ s.game.entities → e ∈ s1.game.entities) := by
  obtain ⟨s1, ht, hheap, _, hcases⟩ := ProjectileEntity_Tick_core s e p he hwf
  refine ⟨s1, ht, hheap, rfl, rfl, ?_, ?_, ?_, ?_⟩
  · rintro ⟨r, hr, hhit⟩
    rcases hcases with ⟨hno, _⟩ | ⟨i, r0, h1, h2, h3, hg⟩
    · rw [hno r hr] at hhit
      cases hhit
    · exact ⟨i, r0, h1, h2, h3, by rw [hg], by simp [State.score, hg, setGlobal]⟩
  · intro hall
    rcases hcases with ⟨_, hg⟩ | ⟨i, r0, h1, h2, _, _⟩
    · exact ⟨by rw [hg], by simp [State.score, hg]⟩
    · rw [hall r0 (List.mem_iff_getElem?.mpr ⟨i, h1⟩)] at h2
      cases h2
  · rcases hcases with ⟨_, hg⟩ | ⟨i, r0, h1, h2, _, hg⟩
    · left; rw [hg]
    · right
      obtain ⟨b, hb, hty, _⟩ := (hits_iff _ _ _ _).mp h2
      exact ⟨i, r0, b, h1, hb, hty, by rw [hg]⟩
  · intro hmem
    rcases hcases with ⟨_, hg⟩ | ⟨i, r0, h1, h2, _, hg⟩
    · rw [hg]; exact hmem
    · rw [hg]
      obtain ⟨b, hb, hty, _⟩ := (hits_iff _ _ _ _).mp h2
      refine mem_eraseIdx_of_ne _ _ _ _ h1 ?_ hmem
      rintro rfl
      rw [he] at hb
      cases hb
      simp [GameEntity.GetType] at hty

/-- Witness for C1: the projectile at row 11, column 10 of scenario 1 moves to row 10,
the enemy is removed and `score` becomes 1. -/
theorem ProjectileEntity_Tick_contract_witness :
    ∃ s1, ProjectileEntity.Tick 0 (scenario1 11 10) = some s1
      ∧ s1.heap 0 = some (.Projectile (NewProjectileEntity 10 10))
      ∧ s1.game.entities = [0] ∧ s1.score = 1 := by
  have hwf : ∀ r ∈ (scenario1 11 10).game.entities,
      ∃ b, (scenario1 11 10).heap r = some b ∧ (b.GetType = .ENEMY → b.GetHitBox ≠ none) := by
    intro r hr
    have h01 : r = 0 ∨ r = 1 := by
      simpa [scenario1, emptyGame, State.spawn, State.new, Game.AddEntity] using hr
    rcases h01 with rfl | rfl
    · exact ⟨_, rfl, by decide⟩
    · exact ⟨_, rfl, by decide⟩
  obtain ⟨s1, ht, hheap, _, _, hhit, _, _, _⟩ :=
    ProjectileEntity_Tick_contract (scenario1 11 10) 0 (NewProjectileEntity 11 10) rfl hwf
  obtain ⟨i, r, h1, h2, h3, h4, h5⟩ := hhit ⟨1, by decide, by decide⟩
  have hi : i = 1 := by
    have hlt : i < 2 := (List.getElem?_eq_some.mp h1).1
    rcases Nat.lt_or_ge i 1 with h | h
    · have hi0 : i = 0 := by omega
      subst hi0
      have hr0 : r = 0 := by
        have : (scenario1 11 10).game.entities[0]? = some 0 := rfl
        rw [this] at h1
        exact (Option.some.inj h1).symm
      subst hr0
      revert h2
      decide
    · omega
  subst hi
  refine ⟨s1, ht, ?_, ?_, ?_⟩
  · rw [hheap]; rfl
  · rw [h4]; rfl
  · rw [h5]; rfl

theorem scenario1_hits_enemy (y x : Int) :
    hits (scenario1 y x).heap .ENEMY (.Projectile (NewProjectileEntity y x).moved) 1
      = decide (11 ≤ y ∧ y ≤ 13 ∧ 9 ≤ x ∧ x ≤ 13) := by
  have h1 : (scenario1 y x).heap 1 = some (.Enemy (NewEnemyEntity 10 9)) := rfl
  have hc := IsCollide_eq_boxes (.Projectile (NewProjectileEntity y x).moved)
    (.Enemy (NewEnemyEntity 10 9)) ⟨1, 1⟩ ⟨5, 3⟩ rfl rfl
  rw [Bool.eq_iff_iff, hits_iff]
  simp only [h1, Option.some.injEq, exists_eq_left', hc, decide_eq_true_eq, GameEntity.GetType,
    true_and, IsCollideBoxes_iff, IsNumBetween_iff]
  simp only [GameEntity.GetCoords, NewEnemyEntity, NewProjectileEntity, ProjectileEntity.moved]
  omega

theorem scenario1_hits_self (y x : Int) (q : GameEntity) :
    hits (scenario1 y x).heap .ENEMY q 0 = false := by
  have h0 : (scenario1 y x).heap 0 = some (.Projectile (NewProjectileEntity y x)) := rfl
  simp [hits, h0, GameEntity.GetType]

theorem scenario1_wf (y x : Int) : ∀ r ∈ (scenario1 y x).game.entities,
    ∃ b, (scenario1 y x).heap r = some b ∧ (b.GetType = .ENEMY → b.GetHitBox ≠ none) := by
  intro r hr
  have h01 : r = 0 ∨ r = 1 := by
    simpa [scenario1, emptyGame, State.spawn, State.new, Game.AddEntity] using hr
  rcases h01 with rfl | rfl
  · exact ⟨_, rfl, by simp [GameEntity.GetType]⟩
  · exact ⟨_, rfl, by simp [GameEntity.GetHitBox, NewEnemyEntity, spriteHitBox]⟩

/-- C2, as the code behaves.  In scenario 1 the tick first moves the projectile up one
row and then tests it: started at row `y`, column `x`, it removes the enemy and makes
`score` 1 exactly when `11 ≤ y ≤ 13` and `9 ≤ x ≤ 13`; otherwise (in particular from
row 10, column 10, which the move takes to row 9, above the enemy) the enemy stays
in the registry and `score` stays 0. -/
theorem scenario1_tick (y x : Int) :
    ∃ s1, ProjectileEntity.Tick 0 (scenario1 y x) = some s1
      ∧ s1.heap 0 = some (.Projectile (NewProjectileEntity (y - 1) x))
      ∧ if 11 ≤ y ∧ y ≤ 13 ∧ 9 ≤ x ∧ x ≤ 13
        then s1.game.entities = [0] ∧ s1.score = 1
        else s1.game.entities = [0, 1] ∧ s1.score = 0 := by
  obtain ⟨s1, ht, hheap, _, hcases⟩ := ProjectileEntity_Tick_core (scenario1 y x) 0
    (NewProjectileEntity y x) rfl (scenario1_wf y x)
  refine ⟨s1, ht, by rw [hheap]; rfl, ?_⟩
  have hent : (scenario1 y x).game.entities = [0, 1] := rfl
  by_cases hc : 11 ≤ y ∧ y ≤ 13 ∧ 9 ≤ x ∧ x ≤ 13
  · rw [if_pos hc]
    rcases hcases with ⟨hno, _⟩ | ⟨i, r, h1, h2, h3, hg⟩
    · have := hno 1 (by rw [hent]; simp)
      rw [scenario1_hits_enemy, decide_eq_false_iff_not] at this
      exact absurd hc this
    · have hi : i = 1 := by
        have hlt : i < 2 := (List.getElem?_eq_some.mp h1).1
        rcases Nat.lt_or_ge i 1 with h | h
        · have hi0 : i = 0 := by omega
          subst hi0
          rw [hent] at h1
          have hr0 : r = 0 := (Option.some.inj h1).symm
          subst hr0
          rw [scenario1_hits_self] at h2
          cases h2
        · omega
      subst hi
      exact ⟨by rw [hg]; rfl, by simp only [State.score, hg]; rfl⟩
  · rw [if_neg hc]
    rcases hcases with ⟨_, hg⟩ | ⟨i, r, h1, h2, _, _⟩
    · exact ⟨by rw [hg]; rfl, by simp only [State.score, hg]; rfl⟩
    · have hlt : i < 2 := (List.getElem?_eq_some.mp h1).1
      rw [hent] at h1
      rcases Nat.lt_or_ge i 1 with h | h
      · have hi0 : i = 0 := by omega
        subst hi0
        have hr0 : r = 0 := (Option.some.inj h1).symm
        subst hr0
        rw [scenario1_hits_self] at h2
        cases h2
      · have hi1 : i = 1 := by omega
        subst hi1
        have hr1 : r = 1 := (Option.some.inj h1).symm
        subst hr1
        rw [scenario1_hits_enemy, decide_eq_true_eq] at h2
        exact absurd h2 hc

/-- C2 as stated fails: from row 10, column 10 the tick succeeds, the enemy (pointer 1)
is still in the registry and `score` is still 0. -/
theorem scenario1_as_stated_fails :
    ¬ (∃ s1, ProjectileEntity.Tick 0 (scenario1 10 10) = some s1
        ∧ 1 ∉ s1.game.entities ∧ s1.score = 1)
    ∧ (ProjectileEntity.Tick 0 (scenario1 10 10)).map (fun s1 => (s1.game.entities, s1.score))
        = some ([0, 1], 0) := by
  constructor
  · rintro ⟨s1, ht, hmem, hscore⟩
    have h : (ProjectileEntity.Tick 0 (scenario1 10 10)).map (fun s1 => s1.score) = some 0 := by
      decide
    rw [ht] at h
    simp only [Option.map_some', Option.some.injEq] at h
    omega
  · decide

theorem scenario2_wf (lives : Int) : ∀ r ∈ (scenario2 lives).game.entities,
    ∃ b, (scenario2 lives).heap r = some b ∧ (b.GetType = .PLAYER → b.GetHitBox ≠ none) := by
  intro r hr
  have h01 : r = 0 ∨ r = 1 := by
    simpa [scenario2, emptyGame, State.spawn, State.new, Game.AddEntity] using hr
  rcases h01 with rfl | rfl
  · exact ⟨_, rfl, by simp [GameEntity.GetType]⟩
  · exact ⟨_, rfl, by simp [GameEntity.GetHitBox, NewMyGameEntity, spriteHitBox]⟩

/-- C3 (scenario 2).  In a state whose registry entries all exist, the players among
them having a sprite with a first row: when the registry holds a player that the enemy
projectile overlaps after its move one row down, and `lives_left` is `n ≥ 1`, the tick
leaves the registry with the same length and the same entities (a permutation), that
player is still in it with its state untouched, and `lives_left` becomes `n - 1`. -/
theorem EnemyProjectileEntity_Tick_respawn (s : State) (e : Nat) (p : EnemyProjectileEntity)
    (he : s.heap e = some (.EnemyProjectile p))
    (hwf : ∀ r ∈ s.game.entities,
      ∃ b, s.heap r = some b ∧ (b.GetType = .PLAYER → b.GetHitBox ≠ none))
    (r : Nat) (b : GameEntity) (hr : r ∈ s.game.entities) (hb : s.heap r = some b)
    (hty : b.GetType = .PLAYER)
    (hcol : IsCollide (.EnemyProjectile p.moved) b = some true)
    (hl : 1 ≤ s.livesLeft) :
    ∃ s1, EnemyProjectileEntity.Tick e s = some s1
      ∧ p.moved.coords.Y = p.coords.Y + 1 ∧ p.moved.coords.X = p.coords.X
      ∧ s1.game.entities.length = s.game.entities.length
      ∧ r ∈ s1.game.entities
      ∧ s1.heap r = some b
      ∧ s1.game.entities.Perm s.game.entities
      ∧ s1.livesLeft = s.livesLeft - 1 := by
  obtain ⟨s1, ht, hheap, _, hcases⟩ := EnemyProjectileEntity_Tick_core s e p he hwf
  have hhit : hits s.heap .PLAYER (.EnemyProjectile p.moved) r = true :=
    (hits_iff _ _ _ _).mpr ⟨b, hb, hty, hcol⟩
  have hre : r ≠ e := by
    rintro rfl
    rw [he] at hb
    cases hb
    simp [GameEntity.GetType] at hty
  have hl0 : (s.game.globals "lives_left").IntValue ≠ 0 := by
    simp only [State.livesLeft] at hl
    omega
  rcases hcases with ⟨hno, _⟩ | ⟨i, r0, h1, _, _, hg⟩
  · rw [hno r hr] at hhit
    cases hhit
  · rw [if_pos hl0] at hg
    have hperm : (s.game.entities.eraseIdx i ++ [r0]).Perm s.game.entities :=
      eraseIdx_append_perm _ _ _ h1
    refine ⟨s1, ht, rfl, rfl, ?_, ?_, ?_, ?_, ?_⟩
    · rw [hg]; exact hperm.length_eq
    · rw [hg]; exact hperm.symm.subset hr
    · rw [hheap, Heap_set_other _ _ _ _ hre]; exact hb
    · rw [hg]; exact hperm
    · simp [State.livesLeft, hg, setGlobal]


/-- Witness for C3: scenario 2 with one life left. -/
theorem EnemyProjectileEntity_Tick_respawn_witness :
    ∃ s1, EnemyProjectileEntity.Tick 0 (scenario2 1) = some s1
      ∧ s1.game.entities.length = 2 ∧ 1 ∈ s1.game.entities
      ∧ s1.heap 1 = some (.Player (NewMyGameEntity 33 40)) ∧ s1.livesLeft = 0 := by
  obtain ⟨s1, ht, _, _, hlen, hmem, hheap, _, hlives⟩ :=
    EnemyProjectileEntity_Tick_respawn (scenario2 1) 0 (NewEnemyProjectileEntity 33 41) rfl
      (scenario2_wf 1) 1 (.Player (NewMyGameEntity 33 40)) (by decide) rfl rfl (by decide)
      (by decide)
  exact ⟨s1, ht, hlen, hmem, hheap, hlives⟩

/-- C4 (scenario 3).  In a state as in C3: when `lives_left` is 0 and the player at
index `i` is the first player of the registry that the enemy projectile overlaps after
its move, the tick removes exactly that element and does not add it back: the registry
is the old one without index `i`, one shorter, the player is no longer in it (the
registry holding each pointer once), and `lives_left` is still 0. -/
theorem EnemyProjectileEntity_Tick_game_over (s : State) (e : Nat) (p : EnemyProjectileEntity)
    (he : s.heap e = some (.EnemyProjectile p))
    (hwf : ∀ r ∈ s.game.entities,
      ∃ b, s.heap r = some b ∧ (b.GetType = .PLAYER → b.GetHitBox ≠ none))
    (i : Nat) (r : Nat) (b : GameEntity) (hi : s.game.entities[i]? = some r)
    (hb : s.heap r = some b) (hty : b.GetType = .PLAYER)
    (hcol : IsCollide (.EnemyProjectile p.moved) b = some true)
    (hfirst : ∀ j r1, j < i → s.game.entities[j]? = some r1 →
      hits s.heap .PLAYER (.EnemyProjectile p.moved) r1 = false)
    (hl : s.livesLeft = 0) :
    ∃ s1, EnemyProjectileEntity.Tick e s = some s1
      ∧ s1.game.entities = s.game.entities.eraseIdx i
      ∧ s1.game.entities.length + 1 = s.game.entities.length
      ∧ (s.game.entities.Nodup → r ∉ s1.game.entities)
      ∧ s1.livesLeft = 0 := by
  obtain ⟨s1, ht, _, _, hcases⟩ := EnemyProjectileEntity_Tick_core s e p he hwf
  have hhit : hits s.heap .PLAYER (.EnemyProjectile p.moved) r = true :=
    (hits_iff _ _ _ _).mpr ⟨b, hb, hty, hcol⟩
  have hlt : i < s.game.entities.length := (List.getElem?_eq_some.mp hi).1
  have hl0 : ¬ (s.game.globals "lives_left").IntValue ≠ 0 := by
    simp only [State.livesLeft] at hl
    simp [hl]
  rcases hcases with ⟨hno, _⟩ | ⟨i0, r0, h1, h2, h3, hg⟩
  · rw [hno r (List.mem_iff_getElem?.mpr ⟨i, hi⟩)] at hhit
    cases hhit
  · rw [if_neg hl0] at hg
    have hii : i0 = i := by
      rcases Nat.lt_trichotomy i0 i with hlt | heq | hgt
      · rw [hfirst i0 r0 hlt h1] at h2
        cases h2
      · exact heq
      · rw [h3 i r hgt hi] at hhit
        cases hhit
    subst hii
    have hent : s1.game.entities = s.game.entities.eraseIdx i0 := by rw [hg]
    refine ⟨s1, ht, hent, ?_, ?_, ?_⟩
    · rw [hent, List.length_eraseIdx, if_pos hlt]
      omega
    · intro hnd hmem
      rw [hent, List.mem_eraseIdx_iff_getElem?] at hmem
      obtain ⟨j, hj, hjr⟩ := hmem
      have hjlt : j < s.game.entities.length := (List.getElem?_eq_some.mp hjr).1
      have h5 : s.game.entities[j] = s.game.entities[i0] := by
        rw [(List.getElem?_eq_some.mp hjr).2, (List.getElem?_eq_some.mp hi).2]
      exact hj ((List.Nodup.getElem_inj_iff hnd).mp h5)
    · simp only [State.livesLeft, hg]
      exact hl

/-- Witness for C4: scenario 3, the player of scenario 2 with no life left. -/
theorem EnemyProjectileEntity_Tick_game_over_witness :
    ∃ s1, EnemyProjectileEntity.Tick 0 (scenario2 0) = some s1
      ∧ s1.game.entities = [0] ∧ 1 ∉ s1.game.entities ∧ s1.livesLeft = 0 := by
  obtain ⟨s1, ht, hent, _, hnot, hlives⟩ :=
    EnemyProjectileEntity_Tick_game_over (scenario2 0) 0 (NewEnemyProjectileEntity 33 41) rfl
      (scenario2_wf 0) 1 1 (.Player (NewMyGameEntity 33 40)) rfl rfl rfl (by decide)
      (by
        intro j r1 hj h
        have hj0 : j = 0 := by omega
        subst hj0
        have hr1 : r1 = 0 := (Option.some.inj h).symm
        subst hr1
        decide)
      rfl
  exact ⟨s1, ht, by rw [hent]; rfl, hnot (by decide), hlives⟩

/-! ## The global `lives_left` -/

theorem RemoveEntity_globals (g g1 : Game) (i : Int) (h : g.RemoveEntity i = some g1) :
    g1.globals = g.globals := by
  unfold Game.RemoveEntity at h
  split at h
  · cases h; rfl
  · cases h

theorem PlayerEntity_Tick_globals (s s1 : State) (e : Nat)
    (h : PlayerEntity.Tick e s = some s1) : s1.game.globals = s.game.globals := by
  unfold PlayerEntity.Tick at h
  split at h
  · simp only [State.new] at h
    split at h
    · cases h; exact AddEntity_globals _ _
    · cases h; rfl
  · cases h

theorem ScoreBoardEntity_Tick_globals (s s1 : State) (e : Nat)
    (h : ScoreBoardEntity.Tick e s = some s1) : s1.game.globals = s.game.globals := by
  unfold ScoreBoardEntity.Tick at h
  split at h
  · cases h; rfl
  · cases h

theorem EnemyEntity_Tick_globals (s s1 : State) (e : Nat) (draw : Int)
    (h : EnemyEntity.Tick e draw s = some s1) : s1.game.globals = s.game.globals := by
  unfold EnemyEntity.Tick at h
  split at h
  · simp only [State.new] at h
    split at h
    · cases h; rfl
    · split at h
      · cases h
      · rename_i s2 hs2
        have h2 : s2.game.globals = s.game.globals := by
          split at hs2
          · split at hs2
            · cases hs2
            · cases hs2; exact AddEntity_globals _ _
          · cases hs2; rfl
        split at h
        · cases h
        · cases h; exact h2
  · cases h

theorem ProjectileEntity_Tick_livesLeft (s s1 : State) (e : Nat)
    (h : ProjectileEntity.Tick e s = some s1) : s1.livesLeft = s.livesLeft := by
  unfold ProjectileEntity.Tick at h
  split at h
  · simp only [] at h
    split at h
    · cases h
    · cases h; rfl
    · split at h
      · cases h
      · rename_i g1 hg1
        cases h
        have := RemoveEntity_globals _ _ _ hg1
        simp only [State.livesLeft, setGlobal, this]
        rfl
  · cases h

theorem EnemyProjectileEntity_Tick_livesLeft (s s1 : State) (e : Nat)
    (h : EnemyProjectileEntity.Tick e s = some s1) :
    s1.livesLeft = s.livesLeft ∨ (s.livesLeft ≠ 0 ∧ s1.livesLeft = s.livesLeft - 1) := by
  unfold EnemyProjectileEntity.Tick at h
  split at h
  · simp only [] at h
    split at h
    · cases h
    · cases h; left; rfl
    · split at h
      · cases h
      · rename_i g1 hg1
        have hgl := RemoveEntity_globals _ _ _ hg1
        simp only [] at hgl
        split at h
        · rename_i hne
          cases h
          right
          rw [hgl] at hne
          refine ⟨hne, ?_⟩
          simp [State.livesLeft, setGlobal, AddEntity_globals, hgl]
        · cases h
          left
          simp only [State.livesLeft, hgl]
  · cases h

theorem GameEntity_Tick_livesLeft (s s1 : State) (e : Nat) (draw : Int)
    (h : GameEntity.Tick e draw s = some s1) :
    s1.livesLeft = s.livesLeft ∨ (s.livesLeft ≠ 0 ∧ s1.livesLeft = s.livesLeft - 1) := by
  unfold GameEntity.Tick at h
  split at h
  · cases h
  · left; simp only [State.livesLeft, PlayerEntity_Tick_globals _ _ _ h]
  · left; exact ProjectileEntity_Tick_livesLeft _ _ _ h
  · left; simp only [State.livesLeft, EnemyEntity_Tick_globals _ _ _ _ h]
  · exact EnemyProjectileEntity_Tick_livesLeft _ _ _ h
  · left; simp only [State.livesLeft, ScoreBoardEntity_Tick_globals _ _ _ h]

theorem GameEntity_Draw_game (s s1 : State) (e : Nat) (out : Int × Int × GameSprite)
    (h : GameEntity.Draw e s = some (out, s1)) : s1.game = s.game := by
  unfold GameEntity.Draw at h
  split at h
  · cases h
  · cases h; rfl
  · cases h; rfl
  · cases h; rfl
  · cases h; rfl
  · unfold ScoreBoardEntity.Draw at h
    split at h
    · split at h
      · cases h
      · cases h; rfl
    · cases h

theorem drawEntities_globals : ∀ (l : List Nat) (s s1 : State),
    Game.drawEntities l s = some s1 → s1.game.globals = s.game.globals := by
  intro l
  induction l with
  | nil => intro s s1 h; simp only [Game.drawEntities] at h; cases h; rfl
  | cons a l ih =>
    intro s s1 h
    simp only [Game.drawEntities] at h
    split at h
    · cases h
    · rename_i y x sprite s2 hd
      have hg := GameEntity_Draw_game _ _ _ _ hd
      split at h
      · cases h
      · rw [ih _ _ h]
        simp only [hg]

theorem Game_Draw_globals (s s1 : State) (txt : String)
    (h : Game.Draw s = some (txt, s1)) : s1.game.globals = s.game.globals := by
  unfold Game.Draw at h
  split at h
  · cases h
  · split at h
    · cases h
    · rename_i s2 hs2
      cases h
      rw [drawEntities_globals _ _ _ hs2]

theorem spawn_globals (s : State) (v : GameEntity) :
    (s.spawn v).game.globals = s.game.globals := by
  simp only [State.spawn, State.new, AddEntity_globals]

theorem InitGame_livesLeft (inputHandler : String → Bool) :
    (InitGame inputHandler).livesLeft = 3 := by
  have hfold : ∀ (l : List Nat) (s : State),
      (l.foldl (fun (s : State) (i : Nat) =>
        s.spawn (.Enemy (NewEnemyEntity 0 ((i : Int) * 7)))) s).game.globals
        = s.game.globals := by
    intro l
    induction l with
    | nil => intro s; rfl
    | cons a l ih => intro s; rw [List.foldl_cons, ih, spawn_globals]
  unfold InitGame
  simp only [State.livesLeft, hfold, spawn_globals]
  rfl

/-- C5.  `lives_left` never goes negative: the tick of an entity of any variant,
whatever the random draw, keeps `0 ≤ lives_left`; `InitGame` sets it to 3; so it is
non-negative in every state reachable from `InitGame` by ticks (and draws and key
changes); and in such a state the tick of every entity of the registry does run to
its end, into a state with `0 ≤ lives_left`. -/
theorem livesLeft_nonneg :
    (∀ (s s1 : State) (e : Nat) (draw : Int),
        0 ≤ s.livesLeft → GameEntity.Tick e draw s = some s1 → 0 ≤ s1.livesLeft)
    ∧ (∀ inputHandler, (InitGame inputHandler).livesLeft = 3)
    ∧ (∀ s, Reachable s → 0 ≤ s.livesLeft)
    ∧ (∀ s, Reachable s → ∀ e ∈ s.game.entities, ∀ draw : Int,
        ∃ s1, GameEntity.Tick e draw s = some s1 ∧ 0 ≤ s1.livesLeft) := by
  have hstep : ∀ (s s1 : State) (e : Nat) (draw : Int),
      0 ≤ s.livesLeft → GameEntity.Tick e draw s = some s1 → 0 ≤ s1.livesLeft := by
    intro s s1 e draw h0 h
    rcases GameEntity_Tick_livesLeft s s1 e draw h with h1 | ⟨h1, h2⟩
    · rw [h1]; exact h0
    · rw [h2]; omega
  have hreach : ∀ s, Reachable s → 0 ≤ s.livesLeft := by
    intro s hs
    induction hs with
    | init inputHandler => rw [InitGame_livesLeft]; decide
    | tick e draw _ ht ih => exact hstep _ _ e draw ih ht
    | draw txt _ hd ih =>
      simp only [State.livesLeft, Game_Draw_globals _ _ _ hd]
      exact ih
    | input inputHandler _ ih => exact ih
  refine ⟨hstep, InitGame_livesLeft, hreach, ?_⟩
  intro s hs e he draw
  have hwf := Reachable_wf s hs
  obtain ⟨s1, ht, _⟩ := GameEntity_Tick_wf s hwf e (hwf.2.2 e he) draw
  exact ⟨s1, ht, hstep s s1 e draw (hreach s hs) ht⟩

/-- Witness for C5: the enemy projectile of scenario 2 takes the last life; after its
tick `lives_left` is 0, not negative. -/
theorem livesLeft_nonneg_witness :
    0 ≤ (scenario2 1).livesLeft
      ∧ ∃ s1, GameEntity.Tick 0 0 (scenario2 1) = some s1 ∧ 0 ≤ s1.livesLeft := by
  have hsome : (GameEntity.Tick 0 0 (scenario2 1)).isSome = true := by decide
  obtain ⟨s1, hs1⟩ := Option.isSome_iff_exists.mp hsome
  exact ⟨by decide, s1, hs1, livesLeft_nonneg.1 (scenario2 1) s1 0 0 (by decide) hs1⟩

/-! ## Claims on the frame buffer -/

/-- C6.  Compositing a sprite all of whose cells fall inside a `height` by `width`
grid: `Add` succeeds; the cell `(y + r, x + c)` then holds the sprite rune of row `r`,
column `c`; every cell that no sprite cell aims at keeps its rune; and the text of
`ToString` shows the sprite runes at the offsets of those rows and columns (row `i`,
column `j` is rune number `i * (width + 1) + j`) and is unchanged at the others. -/
theorem Add_in_bounds (gfb : GameFrameBuffer) (hg : gfb.IsGrid) (y x : Int)
    (sprite : List (List Char))
    (hin : ∀ r c ch, cellAt sprite r c = some ch →
      0 ≤ y + r ∧ y + r < gfb.height ∧ 0 ≤ x + c ∧ x + c < gfb.width) :
    ∃ g1, gfb.Add y x sprite = some g1
      ∧ (∀ r c ch, cellAt sprite r c = some ch → cellAt g1.content (y + r) (x + c) = some ch)
      ∧ (∀ i j, cellAt sprite (i - y) (j - x) = none →
          cellAt g1.content i j = cellAt gfb.content i j)
      ∧ (∀ r c ch, cellAt sprite r c = some ch →
          g1.ToString.data[((y + r) * (gfb.width + 1) + (x + c)).toNat]? = some ch)
      ∧ (∀ i j, 0 ≤ i → 0 ≤ j → j < gfb.width → cellAt sprite (i - y) (j - x) = none →
          g1.ToString.data[(i * (gfb.width + 1) + j).toNat]?
            = gfb.ToString.data[(i * (gfb.width + 1) + j).toNat]?) := by
  obtain ⟨g1, hadd, hh, hw, hg1, hcell⟩ := Add_spec gfb hg y x sprite
  have hwritten : ∀ r c ch, cellAt sprite r c = some ch →
      cellAt g1.content (y + r) (x + c) = some ch := by
    intro r c ch hs
    obtain ⟨h1, h2, h3, h4⟩ := hin r c ch hs
    obtain ⟨old, hold⟩ := cellAt_rect_some gfb.content gfb.height.toNat gfb.width.toNat
      hg.2.2.1 hg.2.2.2 (y + r) (x + c) h1 (by omega) h3 (by omega)
    have e1 : y + r - y = r := by omega
    have e2 : x + c - x = c := by omega
    rw [hcell, hold, e1, e2, hs]
    rfl
  have hkept : ∀ i j, cellAt sprite (i - y) (j - x) = none →
      cellAt g1.content i j = cellAt gfb.content i j := by
    intro i j hs
    rw [hcell, hs]
    cases cellAt gfb.content i j <;> rfl
  refine ⟨g1, hadd, hwritten, hkept, ?_, ?_⟩
  · intro r c ch hs
    obtain ⟨h1, h2, h3, h4⟩ := hin r c ch hs
    rw [← hw, ToString_cell g1 hg1 (y + r) (x + c) h1 h3 (by omega)]
    exact hwritten r c ch hs
  · intro i j hi0 hj0 hj hs
    rw [ToString_cell gfb hg i j hi0 hj0 hj, ← hw,
      ToString_cell g1 hg1 i j hi0 hj0 (by omega)]
    exact hkept i j hs

/-- Witness for C6: the sprite `ab` over `c` put at row 0, column 1 of the sample
3 by 4 buffer. -/
theorem Add_in_bounds_witness :
    ∃ g1, sampleBuffer.Add 0 1 ["ab".toList, "c".toList] = some g1
      ∧ cellAt g1.content 0 2 = some 'b' ∧ cellAt g1.content 1 1 = some 'c'
      ∧ cellAt g1.content 1 2 = some 'y'
      ∧ g1.ToString.data[6]? = some 'c' := by
  have hin : ∀ r c ch, cellAt ["ab".toList, "c".toList] r c = some ch →
      0 ≤ 0 + r ∧ 0 + r < sampleBuffer.height ∧ 0 ≤ 1 + c ∧ 1 + c < sampleBuffer.width := by
    intro r c ch h
    obtain ⟨h1, h2, h3, row, hmem, h4⟩ := cellAt_some_bounds _ _ _ _ h
    have hrow : row.length ≤ 2 := by
      simp only [List.mem_cons, List.mem_singleton, List.not_mem_nil, or_false] at hmem
      rcases hmem with rfl | rfl <;> decide
    have hH : sampleBuffer.height = 3 := rfl
    have hW : sampleBuffer.width = 4 := rfl
    have hlen : (["ab".toList, "c".toList] : List (List Char)).length = 2 := rfl
    rw [hlen] at h2
    rw [hH, hW]
    omega
  obtain ⟨g1, hadd, hwritten, hkept, htext, _⟩ :=
    Add_in_bounds sampleBuffer (by decide) 0 1 ["ab".toList, "c".toList] hin
  refine ⟨g1, hadd, ?_, ?_, ?_, ?_⟩
  · exact hwritten 0 1 'b' (by decide)
  · exact hwritten 1 0 'c' (by decide)
  · rw [hkept 1 2 (by decide)]
    decide
  · exact htext 1 0 'c' (by decide)

/-- C7.  Compositing with clipping, on a `height` by `width` grid (such as `Clear`
makes of the buffer), for every origin and every sprite: `Add` succeeds and keeps
the dimensions; a sprite cell whose target `(y + r, x + c)` is inside the grid is
written there, one whose target is outside is written nowhere (there is no such
cell, and all cells that no sprite cell aims at keep their rune); a sprite lying
fully outside leaves the content as it was. -/
theorem Add_clips (gfb : GameFrameBuffer) (hg : gfb.IsGrid) (y x : Int)
    (sprite : List (List Char)) :
    (∃ g0, gfb.Clear = some g0 ∧ g0.IsGrid ∧ g0.height = gfb.height ∧ g0.width = gfb.width)
    ∧ ∃ g1, gfb.Add y x sprite = some g1
      ∧ g1.height = gfb.height ∧ g1.width = gfb.width ∧ g1.IsGrid
      ∧ (∀ r c ch, cellAt sprite r c = some ch →
          ((0 ≤ y + r ∧ y + r < gfb.height ∧ 0 ≤ x + c ∧ x + c < gfb.width) →
            cellAt g1.content (y + r) (x + c) = some ch)
          ∧ (¬ (0 ≤ y + r ∧ y + r < gfb.height ∧ 0 ≤ x + c ∧ x + c < gfb.width) →
            cellAt g1.content (y + r) (x + c) = none))
      ∧ (∀ i j, cellAt sprite (i - y) (j - x) = none →
          cellAt g1.content i j = cellAt gfb.content i j)
      ∧ ((∀ r c ch, cellAt sprite r c = some ch →
            ¬ (0 ≤ y + r ∧ y + r < gfb.height ∧ 0 ≤ x + c ∧ x + c < gfb.width)) →
          g1.content = gfb.content) := by
  obtain ⟨g1, hadd, hh, hw, hg1, hcell⟩ := Add_spec gfb hg y x sprite
  have hkept : ∀ i j, cellAt sprite (i - y) (j - x) = none →
      cellAt g1.content i j = cellAt gfb.content i j := by
    intro i j hs
    rw [hcell, hs]
    cases cellAt gfb.content i j <;> rfl
  obtain ⟨g0, hclear, hh0, hw0, hg0, _⟩ := Clear_spec gfb hg.1 hg.2.1
  refine ⟨⟨g0, hclear, hg0, hh0, hw0⟩, g1, hadd, hh, hw, hg1, ?_, hkept, ?_⟩
  · intro r c ch hs
    have e1 : y + r - y = r := by omega
    have e2 : x + c - x = c := by omega
    constructor
    · rintro ⟨h1, h2, h3, h4⟩
      obtain ⟨old, hold⟩ := cellAt_rect_some gfb.content gfb.height.toNat gfb.width.toNat
        hg.2.2.1 hg.2.2.2 (y + r) (x + c) h1 (by omega) h3 (by omega)
      rw [hcell, hold, e1, e2, hs]
      rfl
    · intro hout
      have hnone := cellAt_rect_none gfb.content gfb.height.toNat gfb.width.toNat
        hg.2.2.1 hg.2.2.2 (y + r) (x + c) (by have := hg.1; have := hg.2.1; omega)
      rw [hcell, hnone]
      rfl
  · intro hout
    apply content_ext g1.content gfb.content gfb.height.toNat gfb.width.toNat
      (by rw [hg1.2.2.1, hh]) (by intro row hm; rw [hg1.2.2.2 row hm, hw]) hg.2.2.1 hg.2.2.2
    intro i j
    cases hs : cellAt sprite (i - y) (j - x) with
    | none => exact hkept i j hs
    | some ch =>
      have hno := hout (i - y) (j - x) ch hs
      have e1 : y + (i - y) = i := by omega
      have e2 : x + (j - x) = j := by omega
      rw [e1, e2] at hno
      have hnone := cellAt_rect_none gfb.content gfb.height.toNat gfb.width.toNat
        hg.2.2.1 hg.2.2.2 i j (by have := hg.1; have := hg.2.1; omega)
      rw [hcell, hnone]
      rfl

/-- Witness for C7: a ragged sprite hanging over the top right corner of the sample
buffer; only its rune `c` lands, at row 0, column 3. -/
theorem Add_clips_witness :
    ∃ g1, sampleBuffer.Add (-1) 3 ["ab".toList, "cd".toList, []] = some g1
      ∧ g1.IsGrid ∧ cellAt g1.content 0 3 = some 'c' ∧ cellAt g1.content 0 4 = none
      ∧ cellAt g1.content 1 1 = some 'x' := by
  obtain ⟨_, g1, hadd, _, _, hg1, hcells, hkept, _⟩ :=
    Add_clips sampleBuffer (by decide) (-1) 3 ["ab".toList, "cd".toList, []]
  refine ⟨g1, hadd, hg1, ?_, ?_, ?_⟩
  · exact (hcells 1 0 'c' (by decide)).1 (by decide)
  · exact (hcells 1 1 'd' (by decide)).2 (by decide)
  · rw [hkept 1 1 (by decide)]
    decide

/-! ## Claims on `Game.Draw` -/

theorem Heap_set_ne_none (h : Heap) (e r : Nat) (v : GameEntity) (hr : h r ≠ none) :
    h.set e v r ≠ none := by
  unfold Heap.set
  split
  · simp
  · exact hr

theorem GameEntity_Draw_total (s : State) (e : Nat) (he : s.heap e ≠ none)
    (hw : 0 ≤ s.game.frameBuffer.width) :
    ∃ out s1, GameEntity.Draw e s = some (out, s1) ∧ s1.game = s.game
      ∧ ∀ r, s.heap r ≠ none → s1.heap r ≠ none := by
  unfold GameEntity.Draw
  cases h : s.heap e with
  | none => exact absurd h he
  | some b =>
    cases b with
    | Player p => exact ⟨_, s, rfl, rfl, fun _ hr => hr⟩
    | Projectile p => exact ⟨_, s, rfl, rfl, fun _ hr => hr⟩
    | Enemy p => exact ⟨_, s, rfl, rfl, fun _ hr => hr⟩
    | EnemyProjectile p => exact ⟨_, s, rfl, rfl, fun _ hr => hr⟩
    | ScoreBoard sb =>
      simp only [ScoreBoardEntity.Draw, h, repeatRune]
      rw [if_neg (by omega)]
      exact ⟨_, _, rfl, rfl, fun r hr => Heap_set_ne_none _ _ _ _ hr⟩

theorem drawEntities_grid : ∀ (l : List Nat) (s : State), s.game.frameBuffer.IsGrid →
    (∀ r ∈ l, s.heap r ≠ none) →
    ∃ s1, Game.drawEntities l s = some s1 ∧ s1.game.frameBuffer.IsGrid
      ∧ s1.game.frameBuffer.height = s.game.frameBuffer.height
      ∧ s1.game.frameBuffer.width = s.game.frameBuffer.width
      ∧ s1.game.entities = s.game.entities := by
  intro l
  induction l with
  | nil => intro s hg _; exact ⟨s, rfl, hg, rfl, rfl, rfl⟩
  | cons a l ih =>
    intro s hg hwf
    obtain ⟨out, s2, hd, hgame, hheap⟩ :=
      GameEntity_Draw_total s a (hwf a (List.mem_cons_self _ _)) hg.2.1
    obtain ⟨y, x, sprite⟩ := out
    have hg2 : s2.game.frameBuffer.IsGrid := by rw [hgame]; exact hg
    obtain ⟨fb, hadd, hh, hw, hfb, _⟩ := Add_spec s2.game.frameBuffer hg2 y x sprite
    obtain ⟨s1, hs1, hg1, hh1, hw1, he1⟩ :=
      ih { s2 with game := { s2.game with frameBuffer := fb } } hfb
        (fun r hr => hheap r (hwf r (List.mem_cons_of_mem _ hr)))
    refine ⟨s1, ?_, hg1, ?_, ?_, ?_⟩
    · simp only [Game.drawEntities, hd, hadd]
      exact hs1
    · rw [hh1]; simp only []; rw [hh, hgame]
    · rw [hw1]; simp only []; rw [hw, hgame]
    · rw [he1]; simp only []; rw [hgame]

/-- C8.  Size of the rendered frame: when the frame buffer has height `h ≥ 0` and
width `w ≥ 0`, whatever its content and whatever the entities that the registry
points to (their positions and sprites), `Game.Draw` returns a text made of exactly `h` lines, each of
exactly `w` runes followed by a line terminator, so `h * (w + 1)` runes in all; the
buffer is afterwards an `h` by `w` grid with the height, width and registry it had. -/
theorem Game_Draw_size (s : State)
    (hh : 0 ≤ s.game.frameBuffer.height) (hw : 0 ≤ s.game.frameBuffer.width)
    (hwf : ∀ r ∈ s.game.entities, s.heap r ≠ none) :
    ∃ txt s1, Game.Draw s = some (txt, s1)
      ∧ s1.game.frameBuffer.height = s.game.frameBuffer.height
      ∧ s1.game.frameBuffer.width = s.game.frameBuffer.width
      ∧ s1.game.frameBuffer.IsGrid
      ∧ s1.game.entities = s.game.entities
      ∧ (∃ rows : List (List Char), rows.length = s.game.frameBuffer.height.toNat
          ∧ (∀ row ∈ rows, row.length = s.game.frameBuffer.width.toNat)
          ∧ txt.data = frameText rows)
      ∧ txt.length
          = s.game.frameBuffer.height.toNat * (s.game.frameBuffer.width.toNat + 1) := by
  obtain ⟨g0, hclear, hh0, hw0, hg0, _⟩ := Clear_spec s.game.frameBuffer hh hw
  obtain ⟨s1, hs1, hg1, hh1, hw1, he1⟩ :=
    drawEntities_grid s.game.entities { s with game := { s.game with frameBuffer := g0 } }
      hg0 hwf
  simp only [] at hh1 hw1 he1
  refine ⟨s1.game.frameBuffer.ToString, s1, ?_, by rw [hh1, hh0], by rw [hw1, hw0], hg1, he1,
    ⟨s1.game.frameBuffer.content, ?_, ?_, ToString_data _⟩, ?_⟩
  · simp only [Game.Draw, hclear, hs1]
  · rw [hg1.2.2.1, hh1, hh0]
  · intro row hm
    rw [hg1.2.2.2 row hm, hw1, hw0]
  · have hrow : ∀ row ∈ s1.game.frameBuffer.content,
        row.length = s.game.frameBuffer.width.toNat := by
      intro row hm
      rw [hg1.2.2.2 row hm, hw1, hw0]
    rw [String.length, ToString_data, frameText_length _ _ hrow, hg1.2.2.1, hh1, hh0]

/-- Witness for C8: the first frame of the game after `InitGame`, 40 lines of 80 runes
and a line terminator each. -/
theorem Game_Draw_size_witness :
    ∃ txt s1, Game.Draw (InitGame (fun _ => false)) = some (txt, s1) ∧ txt.length = 3240
      ∧ s1.game.frameBuffer.IsGrid := by
  have hwf : ∀ r ∈ (InitGame (fun _ => false)).game.entities,
      (InitGame (fun _ => false)).heap r ≠ none := by decide
  obtain ⟨txt, s1, hd, _, _, hg, _, _, hlen⟩ :=
    Game_Draw_size (InitGame (fun _ => false)) (by decide) (by decide) hwf
  exact ⟨txt, s1, hd, hlen, hg⟩

/-! ## Claims on the collision test -/

/-- C9.  `IsCollide` only looks at the edges of its first argument: when the edges of
`b` fall strictly inside the span of `a` on the horizontal axis, or on the vertical
axis, `IsCollide(a, b)` is false, over `Int` and in the 64-bit arithmetic of the
program, on boxes of non-negative size whose edge sums do not overflow and so on all
such entities; yet for the 10 by 10 box `a` at (0, 0) and the 3 by 3 box `b` at
(2, 2), which are such boxes, `IsCollide(b, a)` is true: the test is not symmetric. -/
theorem IsCollide_asymmetric :
    (∀ (aC : GameEntityCoordinates) (aH : GameEntityHitBox)
        (bC : GameEntityCoordinates) (bH : GameEntityHitBox),
        0 ≤ aH.Width → 0 ≤ aH.Height → 0 ≤ bH.Width → 0 ≤ bH.Height →
        NoOverflow aC aH → NoOverflow bC bH →
        ((aC.X < bC.X ∧ bC.X + bH.Width < aC.X + aH.Width)
          ∨ (aC.Y < bC.Y ∧ bC.Y + bH.Height < aC.Y + aH.Height)) →
        IsCollideBoxes aC aH bC bH = false ∧ IsCollideBoxes64 aC aH bC bH = false)
    ∧ (∀ (a b : GameEntity) (aH bH : GameEntityHitBox),
        a.GetHitBox = some aH → b.GetHitBox = some bH →
        NoOverflow a.GetCoords aH → NoOverflow b.GetCoords bH →
        ((a.GetCoords.X < b.GetCoords.X ∧ b.GetCoords.X + bH.Width < a.GetCoords.X + aH.Width)
          ∨ (a.GetCoords.Y < b.GetCoords.Y
              ∧ b.GetCoords.Y + bH.Height < a.GetCoords.Y + aH.Height)) →
        IsCollide a b = some false ∧ IsCollide64 a b = some false)
    ∧ (∃ a b : GameEntity,
        a.GetCoords = ⟨0, 0⟩ ∧ a.GetHitBox = some ⟨10, 10⟩
        ∧ b.GetCoords = ⟨2, 2⟩ ∧ b.GetHitBox = some ⟨3, 3⟩
        ∧ IsCollide a b = some false ∧ IsCollide b a = some true
        ∧ IsCollide64 a b = some false ∧ IsCollide64 b a = some true) := by
  refine ⟨?_, ?_, ?_⟩
  · intro aC aH bC bH _ _ hbw hbh hna hnb h
    have hf := IsCollideBoxes_inside_false aC aH bC bH hbw hbh h
    exact ⟨hf, by rw [IsCollideBoxes64_eq _ _ _ _ hna hnb, hf]⟩
  · intro a b aH bH ha hb hna hnb h
    have hbn := hitBox_nonneg b bH hb
    have hf : IsCollide a b = some false := by
      rw [IsCollide_eq_boxes a b aH bH ha hb,
        IsCollideBoxes_inside_false _ _ _ _ hbn.1 hbn.2 h]
    exact ⟨hf, by rw [IsCollide64_eq a b aH bH ha hb hna hnb, hf]⟩
  · refine ⟨.Player ⟨⟨0, 0⟩, List.replicate 10 (List.replicate 10 'a')⟩,
      .Player ⟨⟨2, 2⟩, List.replicate 3 (List.replicate 3 'b')⟩, rfl, rfl, rfl, rfl,
      ?_, ?_, ?_, ?_⟩ <;> decide

/-- Witness for C9: the boxes of the claim, `b` inside `a` on both axes. -/
theorem IsCollide_asymmetric_witness :
    (IsCollideBoxes ⟨0, 0⟩ ⟨10, 10⟩ ⟨2, 2⟩ ⟨3, 3⟩ = false
        ∧ IsCollideBoxes64 ⟨0, 0⟩ ⟨10, 10⟩ ⟨2, 2⟩ ⟨3, 3⟩ = false)
      ∧ IsCollideBoxes ⟨2, 2⟩ ⟨3, 3⟩ ⟨0, 0⟩ ⟨10, 10⟩ = true
      ∧ IsCollideBoxes64 ⟨2, 2⟩ ⟨3, 3⟩ ⟨0, 0⟩ ⟨10, 10⟩ = true :=
  ⟨IsCollide_asymmetric.1 ⟨0, 0⟩ ⟨10, 10⟩ ⟨2, 2⟩ ⟨3, 3⟩ (by decide) (by decide) (by decide)
    (by decide) (by decide) (by decide) (Or.inl ⟨by decide, by decide⟩),
    by decide, by decide⟩

/-- C10.  Boxes of non-negative size that touch along an edge, the far edge of one
being the near edge of the other on some axis, do not collide: `IsCollide(a, b)` is
false, over `Int` and in the 64-bit arithmetic of the program, on boxes whose edge
sums do not overflow and so on all such entities. -/
theorem IsCollide_touching_false :
    (∀ (aC : GameEntityCoordinates) (aH : GameEntityHitBox)
        (bC : GameEntityCoordinates) (bH : GameEntityHitBox),
        0 ≤ aH.Width → 0 ≤ aH.Height → 0 ≤ bH.Width → 0 ≤ bH.Height →
        NoOverflow aC aH → NoOverflow bC bH →
        (aC.X + aH.Width = bC.X ∨ bC.X + bH.Width = aC.X
          ∨ aC.Y + aH.Height = bC.Y ∨ bC.Y + bH.Height = aC.Y) →
        IsCollideBoxes aC aH bC bH = false ∧ IsCollideBoxes64 aC aH bC bH = false)
    ∧ (∀ (a b : GameEntity) (aH bH : GameEntityHitBox),
        a.GetHitBox = some aH → b.GetHitBox = some bH →
        NoOverflow a.GetCoords aH → NoOverflow b.GetCoords bH →
        (a.GetCoords.X + aH.Width = b.GetCoords.X ∨ b.GetCoords.X + bH.Width = a.GetCoords.X
          ∨ a.GetCoords.Y + aH.Height = b.GetCoords.Y
          ∨ b.GetCoords.Y + bH.Height = a.GetCoords.Y) →
        IsCollide a b = some false ∧ IsCollide64 a b = some false) := by
  refine ⟨?_, ?_⟩
  · intro aC aH bC bH haw hah hbw hbh hna hnb h
    have hf := IsCollideBoxes_touch_false aC aH bC bH haw hah hbw hbh h
    exact ⟨hf, by rw [IsCollideBoxes64_eq _ _ _ _ hna hnb, hf]⟩
  · intro a b aH bH ha hb hna hnb h
    have han := hitBox_nonneg a aH ha
    have hbn := hitBox_nonneg b bH hb
    have hf : IsCollide a b = some false := by
      rw [IsCollide_eq_boxes a b aH bH ha hb,
        IsCollideBoxes_touch_false _ _ _ _ han.1 han.2 hbn.1 hbn.2 h]
    exact ⟨hf, by rw [IsCollide64_eq a b aH bH ha hb hna hnb, hf]⟩

/-- Witness for C10: an enemy projectile in the cell just left of the player's sprite
and the player made by `NewMyGameEntity(33, 40)`. -/
theorem IsCollide_touching_false_witness :
    IsCollide (.EnemyProjectile (NewEnemyProjectileEntity 34 39))
        (.Player (NewMyGameEntity 33 40)) = some false
      ∧ IsCollide64 (.EnemyProjectile (NewEnemyProjectileEntity 34 39))
        (.Player (NewMyGameEntity 33 40)) = some false :=
  IsCollide_touching_false.2 (.EnemyProjectile (NewEnemyProjectileEntity 34 39))
    (.Player (NewMyGameEntity 33 40)) ⟨1, 1⟩ ⟨5, 3⟩ rfl rfl (by decide) (by decide)
    (Or.inl (by decide))

/-! ## More claims on the collision test -/

theorem IsCollideBoxes_zero_target (aC : GameEntityCoordinates) (aH : GameEntityHitBox)
    (bC : GameEntityCoordinates) (bH : GameEntityHitBox)
    (h : bH.Width = 0 ∨ bH.Height = 0) : IsCollideBoxes aC aH bC bH = false := by
  rw [Bool.eq_false_iff]
  intro hc
  rw [IsCollideBoxes_iff] at hc
  simp only [IsNumBetween_iff] at hc
  omega

theorem IsCollideBoxes64_zero_target (aC : GameEntityCoordinates) (aH : GameEntityHitBox)
    (bC : GameEntityCoordinates) (bH : GameEntityHitBox)
    (hx : InInt64 bC.X) (hy : InInt64 bC.Y)
    (h : bH.Width = 0 ∨ bH.Height = 0) : IsCollideBoxes64 aC aH bC bH = false := by
  rw [Bool.eq_false_iff]
  intro hc
  simp only [IsCollideBoxes64, Bool.and_eq_true, Bool.or_eq_true, IsNumBetween_iff] at hc
  rcases h with h | h
  · rw [h, Int.add_zero, wrap64_of_in _ hx] at hc
    omega
  · rw [h, Int.add_zero, wrap64_of_in _ hy] at hc
    omega

/-- C11, as the code behaves.  A box of zero width or zero height is never hit:
`IsCollide(a, b)` is false whenever the hit box of `b` has zero width or zero height,
on boxes and so on all entities, and so whenever `b` is the scoreboard; it is so in
the 64-bit arithmetic of the program too, whatever the sums of `a` do.  A zero-size
`a` is tested as a point: with a 0 by 0 hit box of `a` and a box `b` of non-negative
size whose edge sums do not overflow, `IsCollide(a, b)` is true exactly when the
position of `a` is strictly inside the span of `b` on both axes. -/
theorem IsCollide_zero_size :
    (∀ (aC : GameEntityCoordinates) (aH : GameEntityHitBox)
        (bC : GameEntityCoordinates) (bH : GameEntityHitBox),
        (bH.Width = 0 ∨ bH.Height = 0) → IsCollideBoxes aC aH bC bH = false)
    ∧ (∀ (a b : GameEntity) (aH bH : GameEntityHitBox),
        a.GetHitBox = some aH → b.GetHitBox = some bH →
        (bH.Width = 0 ∨ bH.Height = 0) → IsCollide a b = some false)
    ∧ (∀ (a : GameEntity) (aH : GameEntityHitBox) (sb : ScoreBoardEntity),
        a.GetHitBox = some aH → IsCollide a (.ScoreBoard sb) = some false)
    ∧ (∀ (aC : GameEntityCoordinates) (aH : GameEntityHitBox)
        (bC : GameEntityCoordinates) (bH : GameEntityHitBox),
        InInt64 bC.X → InInt64 bC.Y →
        (bH.Width = 0 ∨ bH.Height = 0) → IsCollideBoxes64 aC aH bC bH = false)
    ∧ (∀ (a b : GameEntity) (aH bH : GameEntityHitBox),
        a.GetHitBox = some aH → b.GetHitBox = some bH →
        InInt64 b.GetCoords.X → InInt64 b.GetCoords.Y →
        (bH.Width = 0 ∨ bH.Height = 0) → IsCollide64 a b = some false)
    ∧ (∀ (aC bC : GameEntityCoordinates) (bH : GameEntityHitBox),
        0 ≤ bH.Width → 0 ≤ bH.Height →
        NoOverflow aC ⟨0, 0⟩ → NoOverflow bC bH →
        (IsCollideBoxes aC ⟨0, 0⟩ bC bH = true ↔
          bC.X < aC.X ∧ aC.X < bC.X + bH.Width ∧ bC.Y < aC.Y ∧ aC.Y < bC.Y + bH.Height)
        ∧ (IsCollideBoxes64 aC ⟨0, 0⟩ bC bH = true ↔
          bC.X < aC.X ∧ aC.X < bC.X + bH.Width ∧ bC.Y < aC.Y
            ∧ aC.Y < bC.Y + bH.Height)) := by
  refine ⟨IsCollideBoxes_zero_target, ?_, ?_, IsCollideBoxes64_zero_target, ?_, ?_⟩
  · intro a b aH bH ha hb h
    rw [IsCollide_eq_boxes a b aH bH ha hb, IsCollideBoxes_zero_target _ _ _ _ h]
  · intro a aH sb ha
    rw [IsCollide_eq_boxes a (.ScoreBoard sb) aH ⟨0, 0⟩ ha rfl,
      IsCollideBoxes_zero_target _ _ _ _ (Or.inl rfl)]
  · intro a b aH bH ha hb hx hy h
    simp only [IsCollide64, ha, hb, IsCollideBoxes64_zero_target _ _ _ _ hx hy h]
  · intro aC bC bH hw hh hna hnb
    have hp : IsCollideBoxes aC ⟨0, 0⟩ bC bH = true ↔
        bC.X < aC.X ∧ aC.X < bC.X + bH.Width ∧ bC.Y < aC.Y ∧ aC.Y < bC.Y + bH.Height := by
      rw [IsCollideBoxes_iff]
      simp only [IsNumBetween_iff]
      omega
    exact ⟨hp, by rw [IsCollideBoxes64_eq _ _ _ _ hna hnb]; exact hp⟩

/-- Witness for C11: the player's projectile against the scoreboard. -/
theorem IsCollide_zero_size_witness :
    IsCollide64 (.Projectile (NewProjectileEntity 0 0))
      (.ScoreBoard { sprite := [], coords := { Y := 0, X := 0 } }) = some false :=
  IsCollide_zero_size.2.2.2.2.1 (.Projectile (NewProjectileEntity 0 0))
    (.ScoreBoard { sprite := [], coords := { Y := 0, X := 0 } }) ⟨1, 1⟩ ⟨0, 0⟩ rfl rfl
    (by decide) (by decide) (Or.inl rfl)

/-- C11 as stated fails: the scoreboard, whose hit box is 0 by 0, put at row 1,
column 2, collides as `a` with the enemy made by `NewEnemyEntity(0, 0)`, over `Int`
and in the 64-bit arithmetic of the program. -/
theorem IsCollide_zero_size_as_stated_fails :
    (GameEntity.ScoreBoard { sprite := [], coords := { Y := 1, X := 2 } }).GetHitBox
        = some ⟨0, 0⟩
    ∧ IsCollide (.ScoreBoard { sprite := [], coords := { Y := 1, X := 2 } })
        (.Enemy (NewEnemyEntity 0 0)) = some true
    ∧ IsCollide64 (.ScoreBoard { sprite := [], coords := { Y := 1, X := 2 } })
        (.Enemy (NewEnemyEntity 0 0)) = some true := by
  refine ⟨rfl, ?_, ?_⟩ <;> decide

/-- C17.  A 1 by 1 box, as both projectile variants have, is tested as a point in a
rectangle, over `Int` and in the 64-bit arithmetic of the program, where the edge
sums of the two boxes do not overflow: against a box `b` of width and height at least
2, `IsCollide(a, b)` is true exactly when the cell of `a` is one of the cells of `b`;
against a box of width 1 or of height 1, such as another projectile, it is false
wherever the boxes are. -/
theorem IsCollide_unit_point_in_rectangle :
    (∀ p : ProjectileEntity, (GameEntity.Projectile p).GetHitBox = some ⟨1, 1⟩)
    ∧ (∀ p : EnemyProjectileEntity, (GameEntity.EnemyProjectile p).GetHitBox = some ⟨1, 1⟩)
    ∧ (∀ (aC bC : GameEntityCoordinates) (bH : GameEntityHitBox),
        2 ≤ bH.Width → 2 ≤ bH.Height →
        NoOverflow aC ⟨1, 1⟩ → NoOverflow bC bH →
        (IsCollideBoxes aC ⟨1, 1⟩ bC bH = true ↔
          bC.X ≤ aC.X ∧ aC.X ≤ bC.X + bH.Width - 1
            ∧ bC.Y ≤ aC.Y ∧ aC.Y ≤ bC.Y + bH.Height - 1)
        ∧ (IsCollideBoxes64 aC ⟨1, 1⟩ bC bH = true ↔
          bC.X ≤ aC.X ∧ aC.X ≤ bC.X + bH.Width - 1
            ∧ bC.Y ≤ aC.Y ∧ aC.Y ≤ bC.Y + bH.Height - 1))
    ∧ (∀ (aC bC : GameEntityCoordinates) (bH : GameEntityHitBox),
        NoOverflow aC ⟨1, 1⟩ → NoOverflow bC bH →
        (bH.Width = 1 ∨ bH.Height = 1) →
        IsCollideBoxes aC ⟨1, 1⟩ bC bH = false ∧ IsCollideBoxes64 aC ⟨1, 1⟩ bC bH = false)
    ∧ (∀ (a b : GameEntity) (bH : GameEntityHitBox),
        a.GetHitBox = some ⟨1, 1⟩ → b.GetHitBox = some bH →
        NoOverflow a.GetCoords ⟨1, 1⟩ → NoOverflow b.GetCoords bH →
        (2 ≤ bH.Width → 2 ≤ bH.Height →
          (IsCollide a b = some true ↔
            b.GetCoords.X ≤ a.GetCoords.X ∧ a.GetCoords.X ≤ b.GetCoords.X + bH.Width - 1
              ∧ b.GetCoords.Y ≤ a.GetCoords.Y
              ∧ a.GetCoords.Y ≤ b.GetCoords.Y + bH.Height - 1)
          ∧ (IsCollide64 a b = some true ↔
            b.GetCoords.X ≤ a.GetCoords.X ∧ a.GetCoords.X ≤ b.GetCoords.X + bH.Width - 1
              ∧ b.GetCoords.Y ≤ a.GetCoords.Y
              ∧ a.GetCoords.Y ≤ b.GetCoords.Y + bH.Height - 1))
        ∧ ((bH.Width = 1 ∨ bH.Height = 1) →
            IsCollide a b = some false ∧ IsCollide64 a b = some false)) := by
  have hpoint : ∀ (aC bC : GameEntityCoordinates) (bH : GameEntityHitBox),
      2 ≤ bH.Width → 2 ≤ bH.Height →
      (IsCollideBoxes aC ⟨1, 1⟩ bC bH = true ↔
        bC.X ≤ aC.X ∧ aC.X ≤ bC.X + bH.Width - 1
          ∧ bC.Y ≤ aC.Y ∧ aC.Y ≤ bC.Y + bH.Height - 1) := by
    intro aC bC bH hw hh
    rw [IsCollideBoxes_iff]
    simp only [IsNumBetween_iff]
    omega
  have hthin : ∀ (aC bC : GameEntityCoordinates) (bH : GameEntityHitBox),
      (bH.Width = 1 ∨ bH.Height = 1) → IsCollideBoxes aC ⟨1, 1⟩ bC bH = false := by
    intro aC bC bH h
    rw [Bool.eq_false_iff]
    intro hc
    rw [IsCollideBoxes_iff] at hc
    simp only [IsNumBetween_iff] at hc
    omega
  refine ⟨fun _ => rfl, fun _ => rfl, ?_, ?_, ?_⟩
  · intro aC bC bH hw hh hna hnb
    exact ⟨hpoint _ _ _ hw hh,
      by rw [IsCollideBoxes64_eq _ _ _ _ hna hnb]; exact hpoint _ _ _ hw hh⟩
  · intro aC bC bH hna hnb h
    exact ⟨hthin _ _ _ h, by rw [IsCollideBoxes64_eq _ _ _ _ hna hnb]; exact hthin _ _ _ h⟩
  · intro a b bH ha hb hna hnb
    rw [IsCollide64_eq a b ⟨1, 1⟩ bH ha hb hna hnb, IsCollide_eq_boxes a b ⟨1, 1⟩ bH ha hb]
    constructor
    · intro hw hh
      rw [Option.some.injEq]
      exact ⟨hpoint _ _ _ hw hh, hpoint _ _ _ hw hh⟩
    · intro h
      rw [hthin _ _ _ h]
      exact ⟨rfl, rfl⟩

/-- Witness for C17: an enemy projectile on the last cell of the top row of the
player made by `NewMyGameEntity(33, 40)`, and the same projectile against a player
projectile in its own cell. -/
theorem IsCollide_unit_point_in_rectangle_witness :
    IsCollide64 (.EnemyProjectile (NewEnemyProjectileEntity 33 44))
        (.Player (NewMyGameEntity 33 40)) = some true
    ∧ IsCollide64 (.EnemyProjectile (NewEnemyProjectileEntity 33 44))
        (.Projectile (NewProjectileEntity 33 44)) = some false :=
  ⟨(((IsCollide_unit_point_in_rectangle.2.2.2.2
      (.EnemyProjectile (NewEnemyProjectileEntity 33 44)) (.Player (NewMyGameEntity 33 40))
      ⟨5, 3⟩ rfl rfl (by decide) (by decide)).1 (by decide) (by decide)).2).mpr (by decide),
   ((IsCollide_unit_point_in_rectangle.2.2.2.2
      (.EnemyProjectile (NewEnemyProjectileEntity 33 44))
      (.Projectile (NewProjectileEntity 33 44)) ⟨1, 1⟩ rfl rfl (by decide) (by decide)).2
      (Or.inl rfl)).2⟩

/-! ## Claim on the registry mutators -/

/-- C16.  `AddEntity(e)` yields the registry with `e` appended as its last element,
the earlier elements unchanged and the length one more; for `0 ≤ i < len`,
`RemoveEntity(i)` yields the registry without its element of index `i`: elements
before `i` stay, elements after `i` move down by one, and the length is one less.
Neither touches the globals or the frame buffer; an index out of range panics. -/
theorem registry_mutators :
    (∀ (g : Game) (e : Nat),
        (g.AddEntity e).entities = g.entities ++ [e]
        ∧ (g.AddEntity e).entities.length = g.entities.length + 1
        ∧ (∀ j, j < g.entities.length → (g.AddEntity e).entities[j]? = g.entities[j]?)
        ∧ (g.AddEntity e).entities[g.entities.length]? = some e
        ∧ (g.AddEntity e).globals = g.globals
        ∧ (g.AddEntity e).frameBuffer = g.frameBuffer)
    ∧ (∀ (g : Game) (i : Int), 0 ≤ i → i < g.entities.length →
        ∃ g1, g.RemoveEntity i = some g1
          ∧ g1.entities = g.entities.eraseIdx i.toNat
          ∧ g1.entities.length + 1 = g.entities.length
          ∧ (∀ j, j < i.toNat → g1.entities[j]? = g.entities[j]?)
          ∧ (∀ j, i.toNat ≤ j → g1.entities[j]? = g.entities[j + 1]?)
          ∧ g1.globals = g.globals
          ∧ g1.frameBuffer = g.frameBuffer)
    ∧ (∀ (g : Game) (i : Int), (i < 0 ∨ (g.entities.length : Int) ≤ i) →
        g.RemoveEntity i = none) := by
  refine ⟨?_, ?_, ?_⟩
  · intro g e
    refine ⟨AddEntity_entities g e, ?_, ?_, ?_, AddEntity_globals g e,
      AddEntity_frameBuffer g e⟩
    · rw [AddEntity_entities]; simp
    · intro j hj
      rw [AddEntity_entities, List.getElem?_append_left hj]
    · rw [AddEntity_entities, List.getElem?_append_right (Nat.le_refl _)]
      simp
  · intro g i h0 hi
    obtain ⟨n, rfl⟩ := Int.eq_ofNat_of_zero_le h0
    have hn : n < g.entities.length := by omega
    refine ⟨_, RemoveEntity_index g n hn, rfl, ?_, ?_, ?_, rfl, rfl⟩
    · simp only [List.length_eraseIdx, hn, if_true]
      omega
    · intro j hj
      simp only [Int.toNat_ofNat] at hj
      simp only [List.getElem?_eraseIdx, hj, if_true]
    · intro j hj
      simp only [Int.toNat_ofNat] at hj
      have : ¬ j < n := by omega
      simp only [List.getElem?_eraseIdx, this, if_false]
  · intro g i h
    unfold Game.RemoveEntity
    rw [if_neg (by omega)]

/-- Witness for C16: removing index 1 of the registry 5, 6, 7. -/
theorem registry_mutators_witness :
    ∃ g1, Game.RemoveEntity { (emptyGame 3).game with entities := [5, 6, 7] } 1 = some g1
      ∧ g1.entities = [5, 7] := by
  obtain ⟨g1, h1, h2, _⟩ := registry_mutators.2.1
    { (emptyGame 3).game with entities := [5, 6, 7] } 1 (by decide) (by decide)
  exact ⟨g1, h1, by rw [h2]; rfl⟩

/-! ## Claims on the scoreboard -/

theorem toString_decimal (n : Int) : (toString n).toList = decimal n := by
  cases n with
  | ofNat m =>
    have h : ¬ ((Int.ofNat m) < 0) := by simp
    simp only [decimal, h, if_false]
    rfl
  | negSucc m =>
    have h : (Int.negSucc m) < 0 := Int.negSucc_lt_zero m
    simp only [decimal, h, if_true]
    rfl

/-- C12.  For every `score`, `lives_left` and buffer width `w ≥ 0`, the `Draw` of a
scoreboard returns, at its own coordinates, a sprite of exactly 4 rows: `w` runes `#`,
then `# Score: ` followed by the decimal form of `score`, then `# Lives Remaining: `
followed by the decimal form of `lives_left`, then `w` runes `#` again; the sprite
is also stored in the scoreboard, and nothing else changes. -/
theorem ScoreBoardEntity_Draw_banner (s : State) (e : Nat) (sb : ScoreBoardEntity)
    (he : s.heap e = some (.ScoreBoard sb)) (hw : 0 ≤ s.game.frameBuffer.width) :
    ∃ sprite s1, ScoreBoardEntity.Draw e s = some ((sb.coords.Y, sb.coords.X, sprite), s1)
      ∧ GameEntity.Draw e s = some ((sb.coords.Y, sb.coords.X, sprite), s1)
      ∧ sprite.length = 4
      ∧ sprite =
          [List.replicate s.game.frameBuffer.width.toNat '#',
           "# Score: ".toList ++ decimal s.score,
           "# Lives Remaining: ".toList ++ decimal s.livesLeft,
           List.replicate s.game.frameBuffer.width.toNat '#']
      ∧ s1.heap = s.heap.set e (.ScoreBoard { sb with sprite := sprite })
      ∧ s1.game = s.game := by
  have hdraw : ScoreBoardEntity.Draw e s = some ((sb.coords.Y, sb.coords.X,
      [List.replicate s.game.frameBuffer.width.toNat '#',
       ("# Score: " ++ toString s.score).toList,
       ("# Lives Remaining: " ++ toString s.livesLeft).toList,
       List.replicate s.game.frameBuffer.width.toNat '#']),
      { s with heap := s.heap.set e (.ScoreBoard { sb with sprite :=
        [List.replicate s.game.frameBuffer.width.toNat '#',
         ("# Score: " ++ toString s.score).toList,
         ("# Lives Remaining: " ++ toString s.livesLeft).toList,
         List.replicate s.game.frameBuffer.width.toNat '#'] }) }) := by
    simp only [ScoreBoardEntity.Draw, he, repeatRune]
    rw [if_neg (by omega)]
    rfl
  have hrow : ∀ (t : String) (n : Int), (t ++ toString n).toList = t.toList ++ decimal n := by
    intro t n
    rw [← toString_decimal]
    exact String.data_append t (toString n)
  rw [hrow, hrow] at hdraw
  refine ⟨_, _, hdraw, ?_, rfl, rfl, rfl, rfl⟩
  simp only [GameEntity.Draw, he]
  exact hdraw

/-- Witness for C12: `score` 4, `lives_left` 2, width 80. -/
theorem ScoreBoardEntity_Draw_banner_witness :
    ∃ s1, ScoreBoardEntity.Draw 0 (scoreboardState 4 2)
      = some ((0, 0, [List.replicate 80 '#', "# Score: 4".toList,
          "# Lives Remaining: 2".toList, List.replicate 80 '#']), s1) := by
  obtain ⟨sprite, s1, hd, _, _, hs, _, _⟩ :=
    ScoreBoardEntity_Draw_banner (scoreboardState 4 2) 0
      { sprite := [], coords := { Y := 0, X := 0 } } rfl (by decide)
  refine ⟨s1, ?_⟩
  rw [hd, hs]
  rfl

/-- The tick of a scoreboard puts it at row `height - len(sprite)`, the sprite being
the one its last `Draw` stored (none before the first `Draw`). -/
theorem ScoreBoardEntity_Tick_row (s : State) (e : Nat) (sb : ScoreBoardEntity)
    (he : s.heap e = some (.ScoreBoard sb)) :
    ScoreBoardEntity.Tick e s = some { s with heap := s.heap.set e (.ScoreBoard
      { sb with coords := { Y := s.game.frameBuffer.height - sb.sprite.length,
                            X := sb.coords.X } }) } := by
  simp only [ScoreBoardEntity.Tick, he]

set_option maxRecDepth 8000 in
/-- C15 at its failing input.  The scoreboard that `InitGame` creates (pointer 1, no
sprite yet) is put by its first tick at row 40 of the 40-row buffer, not at row 36;
a `Draw` after that tick leaves all 40 rows of the buffer blank, the banner being cut
off entirely; only a tick that follows a `Draw` puts the scoreboard at row 36. -/
theorem ScoreBoardEntity_Tick_fresh :
    (InitGame (fun _ => false)).heap 1
        = some (.ScoreBoard { sprite := [], coords := { Y := 0, X := 0 } })
    ∧ (InitGame (fun _ => false)).game.frameBuffer.height = 40
    ∧ (ScoreBoardEntity.Tick 1 (InitGame (fun _ => false))).bind (fun s1 => s1.heap 1)
        = some (.ScoreBoard { sprite := [], coords := { Y := 40, X := 0 } })
    ∧ ((ScoreBoardEntity.Tick 0 (scoreboardState 0 3)).bind Game.Draw).map
          (fun r => r.2.game.frameBuffer.content)
        = some (List.replicate 40 (List.replicate 80 ' '))
    ∧ (((Game.Draw (scoreboardState 0 3)).bind (fun r => ScoreBoardEntity.Tick 0 r.2)).bind
          (fun s1 => s1.heap 0)).map GameEntity.GetCoords
        = some { Y := 36, X := 0 } := by
  refine ⟨by decide, by decide, by decide, by decide, by decide⟩

/-! ## Claims on the enemy -/

/-- The tick of an enemy with a non-empty sprite, in full. -/
theorem EnemyEntity_Tick_core (s : State) (e : Nat) (en : EnemyEntity) (draw : Int)
    (row : List Char) (rest : List (List Char))
    (he : s.heap e = some (.Enemy en)) (hs : en.sprite = row :: rest) :
    ∃ s1, EnemyEntity.Tick e draw s = some s1
      ∧ s1.heap e = some (.Enemy (en.advanced s.game.frameBuffer.width))
      ∧ s1.game.frameBuffer = s.game.frameBuffer
      ∧ s1.game.globals = s.game.globals
      ∧ s1.game.inputHandler = s.game.inputHandler
      ∧ ((¬ en.counter + 1 < 10 ∧ draw = 1) →
          s1.next = s.next + 1 ∧ s1.game = s.game.AddEntity s.next
          ∧ (e ≠ s.next → s1.heap s.next = some (.EnemyProjectile (NewEnemyProjectileEntity
              (en.coords.Y + en.sprite.length + 1)
              (en.coords.X + Int.tdiv (row.length : Int) 2))))
          ∧ ∀ r, r ≠ e → r ≠ s.next → s1.heap r = s.heap r)
      ∧ (¬ (¬ en.counter + 1 < 10 ∧ draw = 1) →
          s1.next = s.next ∧ s1.game = s.game ∧ ∀ r, r ≠ e → s1.heap r = s.heap r) := by
  have hfr : firstRowLen en.sprite = some (row.length : Int) := by
    simp [firstRowLen, hs]
  have hhead : ((en.sprite.headD []).length : Int) = (row.length : Int) := by
    simp [hs]
  unfold EnemyEntity.Tick
  simp only [he]
  by_cases hc : en.counter + 1 < 10
  · rw [if_pos hc]
    refine ⟨_, rfl, ?_, rfl, rfl, rfl, ?_, ?_⟩
    · simp only [Heap_set_same, EnemyEntity.advanced, hc, if_true]
    · intro h; exact absurd hc h.1
    · intro _
      exact ⟨rfl, rfl, fun r hr => Heap_set_other _ _ _ _ hr⟩
  · rw [if_neg hc]
    simp only [hfr, State.new]
    by_cases hd : draw = 1
    · subst hd
      rw [if_pos rfl]
      refine ⟨_, rfl, ?_, AddEntity_frameBuffer _ _, AddEntity_globals _ _,
        AddEntity_inputHandler _ _, ?_, ?_⟩
      · simp only [Heap_set_same, EnemyEntity.advanced, hc, if_false, hhead,
          AddEntity_frameBuffer]
      · intro _
        refine ⟨rfl, rfl, ?_, ?_⟩
        · intro hne
          simp only []
          rw [Heap_set_other _ _ _ _ (Ne.symm hne), Heap_set_same]
        · intro r hre hrn
          simp only []
          rw [Heap_set_other _ _ _ _ hre, Heap_set_other _ _ _ _ hrn,
            Heap_set_other _ _ _ _ hre]
      · intro h
        exact absurd ⟨hc, rfl⟩ h
    · rw [if_neg hd]
      refine ⟨_, rfl, ?_, rfl, rfl, rfl, ?_, ?_⟩
      · simp only [Heap_set_same, EnemyEntity.advanced, hc, if_false, hhead]
      · intro h; exact absurd h.2 hd
      · intro _
        refine ⟨rfl, rfl, ?_⟩
        intro r hre
        simp only []
        rw [Heap_set_other _ _ _ _ hre, Heap_set_other _ _ _ _ hre]

/-- C13.  Enemy bounce: an enemy at column 0 heading left (velocity -1) whose counter
is 9, with a non-empty sprite no wider than the buffer, has after its tick, whatever
the random draw, velocity +1 and a row larger by the height of its sprite plus one
(4 for the sprite of `NewEnemyEntity`); it stands at column -1 and its counter is 0. -/
theorem EnemyEntity_Tick_bounce (s : State) (e : Nat) (en : EnemyEntity) (draw : Int)
    (row : List Char) (rest : List (List Char))
    (he : s.heap e = some (.Enemy en)) (hs : en.sprite = row :: rest)
    (hx : en.coords.X = 0) (hv : en.velocity = -1) (hc : en.counter = 9)
    (hw : (row.length : Int) ≤ s.game.frameBuffer.width) :
    ∃ s1 en1, EnemyEntity.Tick e draw s = some s1 ∧ s1.heap e = some (.Enemy en1)
      ∧ en1.velocity = 1
      ∧ en1.coords.Y = en.coords.Y + (en.sprite.length + 1)
      ∧ (en.sprite = (NewEnemyEntity 0 0).sprite → en1.coords.Y = en.coords.Y + 4)
      ∧ en1.coords.X = -1 ∧ en1.counter = 0 ∧ en1.sprite = en.sprite := by
  obtain ⟨s1, ht, hheap, _⟩ := EnemyEntity_Tick_core s e en draw row rest he hs
  have hadv : en.advanced s.game.frameBuffer.width
      = { coords := { Y := en.coords.Y + (en.sprite.length + 1), X := -1 },
          sprite := en.sprite, velocity := 1, counter := 0 } := by
    have h1 : ¬ ((9 : Int) + 1 < 10) := by decide
    have h2 : ¬ ((0 : Int) + -1 ≥ s.game.frameBuffer.width - (row.length : Int)) := by omega
    have h3 : (0 : Int) + -1 ≤ 0 := by decide
    simp only [EnemyEntity.advanced, hc, hx, hv, h1, if_false, hs, List.headD_cons, h2, h3,
      if_true]
    rfl
  refine ⟨s1, _, ht, hheap, ?_, ?_, ?_, ?_, ?_, ?_⟩ <;> rw [hadv]
  intro hsp
  simp only [hsp, NewEnemyEntity]
  rfl

/-- Witness for C13: the bounce scenario with a draw that also fires. -/
theorem EnemyEntity_Tick_bounce_witness :
    ∃ s1 en1, EnemyEntity.Tick 0 1 bounceState = some s1 ∧ s1.heap 0 = some (.Enemy en1)
      ∧ en1.velocity = 1 ∧ en1.coords.Y = 12 := by
  obtain ⟨s1, en1, ht, hheap, hv, _, hy, _⟩ :=
    EnemyEntity_Tick_bounce bounceState 0
      { NewEnemyEntity 8 0 with velocity := -1, counter := 9 } 1
      " ^ ^ ".toList ["(000)".toList, "/! !\\".toList] rfl rfl rfl rfl rfl (by decide)
  exact ⟨s1, en1, ht, hheap, hv, hy rfl⟩

theorem EnemyEntity_advanced_inBounds (W : Int) (en : EnemyEntity) (hW : 5 < W)
    (h : en.InBounds W) :
    (en.advanced W).InBounds W ∧ en.coords.Y ≤ (en.advanced W).coords.Y
      ∧ (en.advanced W).coords.Y ≤ en.coords.Y + 4 := by
  obtain ⟨hs, hv, hx0, hx1, h0, h1⟩ := h
  have hlen : ((en.sprite.headD []).length : Int) = 5 := by
    rw [hs]; rfl
  have hrows : (en.sprite.length : Int) = 3 := by
    rw [hs]; rfl
  unfold EnemyEntity.advanced
  by_cases hc : en.counter + 1 < 10
  · rw [if_pos hc]
    exact ⟨⟨hs, hv, hx0, hx1, h0, h1⟩, Int.le_refl _, by dsimp only; omega⟩
  · rw [if_neg hc]
    simp only [hlen, hrows]
    rcases hv with hv | hv
    · have hxlt : en.coords.X < W - 5 := by
        by_contra hcon
        have := h1 (by omega)
        omega
      by_cases ht : en.coords.X + en.velocity ≥ W - 5
      · have hn : ¬ (en.coords.X + en.velocity ≤ 0) := by omega
        simp only [ht, if_true, hn, if_false]
        refine ⟨⟨hs, Or.inr rfl, ?_, ?_, ?_, ?_⟩, ?_, ?_⟩ <;> (try dsimp only) <;> omega
      · have hn : ¬ (en.coords.X + en.velocity ≤ 0) := by omega
        simp only [ht, if_false, hn]
        refine ⟨⟨hs, Or.inl hv, ?_, ?_, ?_, ?_⟩, ?_, ?_⟩ <;> (try dsimp only) <;> omega
    · have hxpos : 0 < en.coords.X := by
        by_contra hcon
        have := h0 (by omega)
        omega
      have ht : ¬ (en.coords.X + en.velocity ≥ W - 5) := by omega
      by_cases hz : en.coords.X + en.velocity ≤ 0
      · simp only [ht, if_false, hz, if_true]
        refine ⟨⟨hs, Or.inl rfl, ?_, ?_, ?_, ?_⟩, ?_, ?_⟩ <;> (try dsimp only) <;> omega
      · simp only [ht, if_false, hz]
        refine ⟨⟨hs, Or.inr hv, ?_, ?_, ?_, ?_⟩, ?_, ?_⟩ <;> (try dsimp only) <;> omega

theorem spawn_frameBuffer (s : State) (v : GameEntity) :
    (s.spawn v).game.frameBuffer = s.game.frameBuffer := by
  simp only [State.spawn, State.new, AddEntity_frameBuffer]

theorem InitGame_frameBuffer (inputHandler : String → Bool) :
    (InitGame inputHandler).game.frameBuffer = NewGameFrameBuffer 40 80 := by
  have hfold : ∀ (l : List Nat) (s : State),
      (l.foldl (fun (s : State) (i : Nat) =>
        s.spawn (.Enemy (NewEnemyEntity 0 ((i : Int) * 7)))) s).game.frameBuffer
        = s.game.frameBuffer := by
    intro l
    induction l with
    | nil => intro s; rfl
    | cons a l ih => intro s; rw [List.foldl_cons, ih, spawn_frameBuffer]
  unfold InitGame
  simp only [hfold, spawn_frameBuffer]

theorem EnemyEntity_Ticks_invariant : ∀ (draws : List Int) (s : State) (e : Nat)
    (en : EnemyEntity), s.heap e = some (.Enemy en) → 5 < s.game.frameBuffer.width →
    en.InBounds s.game.frameBuffer.width →
    ∃ s1 en1, EnemyEntity.Ticks e draws s = some s1 ∧ s1.heap e = some (.Enemy en1)
      ∧ en1.InBounds s.game.frameBuffer.width ∧ en.coords.Y ≤ en1.coords.Y
      ∧ en1.coords.Y ≤ en.coords.Y + 4 * draws.length
      ∧ s1.game.frameBuffer = s.game.frameBuffer := by
  intro draws
  induction draws with
  | nil =>
    intro s e en he _ hin
    exact ⟨s, en, rfl, he, hin, Int.le_refl _, by simp, rfl⟩
  | cons draw rest ih =>
    intro s e en he hW hin
    obtain ⟨s1, ht, hheap, hfb, _⟩ := EnemyEntity_Tick_core s e en draw " ^ ^ ".toList
      ["(000)".toList, "/! !\\".toList] he hin.1
    obtain ⟨hin1, hy1, hup1⟩ := EnemyEntity_advanced_inBounds _ en hW hin
    obtain ⟨s2, en2, ht2, hheap2, hin2, hy2, hup2, hfb2⟩ :=
      ih s1 e _ hheap (by rw [hfb]; exact hW) (by rw [hfb]; exact hin1)
    refine ⟨s2, en2, ?_, hheap2, ?_, Int.le_trans hy1 hy2, ?_, by rw [hfb2, hfb]⟩
    · simp only [EnemyEntity.Ticks, ht]
      exact ht2
    · rw [hfb] at hin2; exact hin2
    · simp only [List.length_cons, Nat.cast_add, Nat.cast_one]
      omega

/-- C18.  In a buffer of width `W > 5`, an enemy made by `NewEnemyEntity(y, x)` with
`0 ≤ x < W - 5`, as are all the enemies of `InitGame` for its width 80, is in bounds;
and an enemy in bounds is so again after any number of its ticks, whatever the
random draws: its velocity is 1 or -1, its column is from 0 to `W - 5`, and, when
its row plus 4 for each tick is still a value of an `int` (a tick adds 4 to the row
at most, so that no addition to the row overflows), its row has not decreased and
is a value of an `int`. -/
theorem EnemyEntity_Ticks_in_bounds :
    (∀ (W y x : Int), 5 < W → 0 ≤ x → x < W - 5 → (NewEnemyEntity y x).InBounds W)
    ∧ (∀ (s : State) (e : Nat) (en : EnemyEntity) (draws : List Int),
        s.heap e = some (.Enemy en) → 5 < s.game.frameBuffer.width →
        en.InBounds s.game.frameBuffer.width →
        ∃ s1 en1, EnemyEntity.Ticks e draws s = some s1 ∧ s1.heap e = some (.Enemy en1)
          ∧ (en1.velocity = 1 ∨ en1.velocity = -1)
          ∧ 0 ≤ en1.coords.X ∧ en1.coords.X ≤ s.game.frameBuffer.width - 5
          ∧ (en.coords.Y + 4 * draws.length ≤ MaxInt64 →
              en.coords.Y ≤ en1.coords.Y ∧ en1.coords.Y ≤ en.coords.Y + 4 * draws.length
              ∧ en1.coords.Y ≤ MaxInt64)
          ∧ en1.InBounds s1.game.frameBuffer.width)
    ∧ (∀ (inputHandler : String → Bool) (r : Nat) (en : EnemyEntity),
        (InitGame inputHandler).heap r = some (.Enemy en) →
        (InitGame inputHandler).game.frameBuffer.width = 80
        ∧ ∃ x, en = NewEnemyEntity 0 x ∧ 0 ≤ x ∧ x < 80 - 5) := by
  refine ⟨?_, ?_, ?_⟩
  · intro W y x hW hx0 hx1
    refine ⟨rfl, Or.inl rfl, hx0, ?_, fun _ => rfl, ?_⟩
    · show x ≤ W - 5
      omega
    · intro h
      have : x = W - 5 := h
      omega
  · intro s e en draws he hW hin
    obtain ⟨s1, en1, ht, hheap, hin1, hy, hup, hfb⟩ :=
      EnemyEntity_Ticks_invariant draws s e en he hW hin
    exact ⟨s1, en1, ht, hheap, hin1.2.1, hin1.2.2.1, hin1.2.2.2.1,
      fun hb => ⟨hy, hup, Int.le_trans hup hb⟩, by rw [hfb]; exact hin1⟩
  · intro inputHandler r en hr
    have hwf := InitGame_wf inputHandler
    have hnext : (InitGame inputHandler).next = 15 := rfl
    have hlt : r < 15 := by
      rw [← hnext]
      exact WellFormed_lt_of_some _ hwf r _ hr
    refine ⟨by rw [InitGame_frameBuffer]; rfl, ?_⟩
    interval_cases r
    · rw [show (InitGame inputHandler).heap 0
          = some (.Player (NewMyGameEntity 33 40)) from rfl] at hr
      cases hr
    · rw [show (InitGame inputHandler).heap 1
          = some (.ScoreBoard { sprite := [], coords := { Y := 0, X := 0 } }) from rfl] at hr
      cases hr
    all_goals first
      | exact ⟨0, (GameEntity.Enemy.inj (Option.some.inj hr)).symm, by decide, by decide⟩
      | exact ⟨7, (GameEntity.Enemy.inj (Option.some.inj hr)).symm, by decide, by decide⟩
      | exact ⟨14, (GameEntity.Enemy.inj (Option.some.inj hr)).symm, by decide, by decide⟩
      | exact ⟨21, (GameEntity.Enemy.inj (Option.some.inj hr)).symm, by decide, by decide⟩
      | exact ⟨28, (GameEntity.Enemy.inj (Option.some.inj hr)).symm, by decide, by decide⟩
      | exact ⟨35, (GameEntity.Enemy.inj (Option.some.inj hr)).symm, by decide, by decide⟩
      | exact ⟨42, (GameEntity.Enemy.inj (Option.some.inj hr)).symm, by decide, by decide⟩
      | exact ⟨49, (GameEntity.Enemy.inj (Option.some.inj hr)).symm, by decide, by decide⟩
      | exact ⟨56, (GameEntity.Enemy.inj (Option.some.inj hr)).symm, by decide, by decide⟩
      | exact ⟨63, (GameEntity.Enemy.inj (Option.some.inj hr)).symm, by decide, by decide⟩

/-- Witness for C18: the enemy of the bounce scenario put at column 74 heading right,
ticked twenty times with a draw that fires every time. -/
theorem EnemyEntity_Ticks_in_bounds_witness :
    ∃ s1 en1, EnemyEntity.Ticks 0 (List.replicate 20 1)
        ((emptyGame 3).spawn (.Enemy (NewEnemyEntity 0 74))) = some s1
      ∧ s1.heap 0 = some (.Enemy en1)
      ∧ (en1.velocity = 1 ∨ en1.velocity = -1)
      ∧ 0 ≤ en1.coords.X ∧ en1.coords.X ≤ 75 ∧ 0 ≤ en1.coords.Y ∧ en1.coords.Y ≤ 80 := by
  obtain ⟨s1, en1, ht, hheap, hv, hx0, hx1, hy, _⟩ :=
    EnemyEntity_Ticks_in_bounds.2.1 ((emptyGame 3).spawn (.Enemy (NewEnemyEntity 0 74))) 0
      (NewEnemyEntity 0 74) (List.replicate 20 1) rfl (by decide) (by decide)
  obtain ⟨hy0, hy1, _⟩ := hy (by decide)
  exact ⟨s1, en1, ht, hheap, hv, hx0, hx1, hy0, hy1⟩

/-! ## Claim on the player -/

/-- The tick of a player, in full. -/
theorem PlayerEntity_Tick_core (s : State) (e : Nat) (p : PlayerEntity)
    (he : s.heap e = some (.Player p)) :
    PlayerEntity.Tick e s
      = if s.game.inputHandler " " = true then
          some { heap := (s.heap.set e (.Player (p.moved (s.game.inputHandler "right")
                    (s.game.inputHandler "left")))).set s.next
                  (.Projectile (NewProjectileEntity (p.coords.Y - 1)
                    ((p.moved (s.game.inputHandler "right")
                      (s.game.inputHandler "left")).coords.X + 2))),
                 next := s.next + 1,
                 game := s.game.AddEntity s.next }
        else
          some { s with heap := s.heap.set e (.Player (p.moved (s.game.inputHandler "right")
            (s.game.inputHandler "left"))) } := by
  have hm : (if s.game.inputHandler "left" = true then
        ({ (if s.game.inputHandler "right" = true then
              ({ p with coords := { p.coords with X := p.coords.X + 2 } } : PlayerEntity)
            else p) with
          coords := { (if s.game.inputHandler "right" = true then
              ({ p with coords := { p.coords with X := p.coords.X + 2 } } : PlayerEntity)
            else p).coords with
            X := (if s.game.inputHandler "right" = true then
              ({ p with coords := { p.coords with X := p.coords.X + 2 } } : PlayerEntity)
            else p).coords.X + -2 } } : PlayerEntity)
      else (if s.game.inputHandler "right" = true then
              ({ p with coords := { p.coords with X := p.coords.X + 2 } } : PlayerEntity)
            else p))
      = p.moved (s.game.inputHandler "right") (s.game.inputHandler "left") := by
    cases p with
    | mk coords sprite =>
      cases coords with
      | mk Y X =>
        cases s.game.inputHandler "right" <;> cases s.game.inputHandler "left" <;>
          simp [PlayerEntity.moved]
        omega
  unfold PlayerEntity.Tick
  simp only [he, State.new]
  rw [hm]
  have hy : (p.moved (s.game.inputHandler "right") (s.game.inputHandler "left")).coords.Y
      = p.coords.Y := rfl
  rw [hy]

/-- One tick of a player whose pointer is in use, the pointers from `next` on being
free: what it leaves behind. -/
theorem PlayerEntity_Tick_step (s : State) (e : Nat) (p : PlayerEntity)
    (he : s.heap e = some (.Player p)) (hfree : ∀ r, s.next ≤ r → s.heap r = none) :
    ∃ s1, PlayerEntity.Tick e s = some s1
      ∧ s1.heap e = some (.Player (p.moved (s.game.inputHandler "right")
          (s.game.inputHandler "left")))
      ∧ s1.game.inputHandler = s.game.inputHandler
      ∧ s1.game.globals = s.game.globals
      ∧ s1.game.frameBuffer = s.game.frameBuffer
      ∧ (∀ r, s1.next ≤ r → s1.heap r = none)
      ∧ (s.game.inputHandler " " = true →
          s1.game.entities = s.game.entities ++ [s.next] ∧ s1.next = s.next + 1
          ∧ s1.heap s.next = some (.Projectile (NewProjectileEntity (p.coords.Y - 1)
              ((p.moved (s.game.inputHandler "right")
                (s.game.inputHandler "left")).coords.X + 2)))
          ∧ ∀ r, r ≠ e → r ≠ s.next → s1.heap r = s.heap r)
      ∧ (s.game.inputHandler " " = false →
          s1.game = s.game ∧ s1.next = s.next ∧ ∀ r, r ≠ e → s1.heap r = s.heap r) := by
  have hne : e ≠ s.next := by
    intro h
    rw [hfree e (by omega)] at he
    cases he
  have hlt : e < s.next := by
    by_contra hge
    rw [hfree e (by omega)] at he
    cases he
  rw [PlayerEntity_Tick_core s e p he]
  by_cases hf : s.game.inputHandler " " = true
  · rw [if_pos hf]
    refine ⟨_, rfl, ?_, AddEntity_inputHandler _ _, AddEntity_globals _ _,
      AddEntity_frameBuffer _ _, ?_, ?_, ?_⟩
    · exact (Heap_set_other _ s.next e _ hne).trans (Heap_set_same _ _ _)
    · intro r hr
      have h1 : r ≠ s.next := by
        intro h
        have : s.next + 1 ≤ r := hr
        omega
      have h2 : r ≠ e := by
        intro h
        have : s.next + 1 ≤ r := hr
        omega
      exact (Heap_set_other _ s.next r _ h1).trans
        ((Heap_set_other _ e r _ h2).trans (hfree r (by have : s.next + 1 ≤ r := hr; omega)))
    · intro _
      refine ⟨AddEntity_entities _ _, rfl, Heap_set_same _ _ _, ?_⟩
      intro r hre hrn
      exact (Heap_set_other _ s.next r _ hrn).trans (Heap_set_other _ e r _ hre)
    · intro h
      rw [hf] at h
      cases h
  · rw [if_neg hf]
    refine ⟨_, rfl, Heap_set_same _ _ _, rfl, rfl, rfl, ?_, ?_, ?_⟩
    · intro r hr
      have h2 : r ≠ e := by
        intro h
        have : s.next ≤ r := hr
        omega
      exact (Heap_set_other _ e r _ h2).trans (hfree r hr)
    · intro h
      exact absurd h hf
    · intro _
      exact ⟨rfl, rfl, fun r hre => Heap_set_other _ e r _ hre⟩

/-- C14.  The tick of a player at row `Y`, column `X`, for every key snapshot (the
pointers from `next` on being free, so that an allocation gives a new object): the
row is still `Y`, the column is `X`, plus 2 when `right` is held, minus 2 when `left`
is held; when the fire key is held the registry is the old one followed by exactly
one new pointer, a player projectile whose stored row is `Y - 1` and whose stored
column is the new column of the player plus 2, with the sprite `|`; when it is not
held the registry is unchanged; and a second tick with fire still held appends a
second projectile, at row `Y - 1` and two columns right of the column of the player
after that second tick: there is no cooldown. -/
theorem PlayerEntity_Tick_contract (s : State) (e : Nat) (p : PlayerEntity)
    (he : s.heap e = some (.Player p)) (hfree : ∀ r, s.next ≤ r → s.heap r = none) :
    ∃ s1 p1, PlayerEntity.Tick e s = some s1 ∧ s1.heap e = some (.Player p1)
      ∧ p1.coords.Y = p.coords.Y
      ∧ p1.coords.X = p.coords.X + (if s.game.inputHandler "right" then 2 else 0)
          - (if s.game.inputHandler "left" then 2 else 0)
      ∧ p1.sprite = p.sprite
      ∧ (s.game.inputHandler " " = true →
          s1.game.entities = s.game.entities ++ [s.next]
          ∧ s.heap s.next = none
          ∧ s1.heap s.next
              = some (.Projectile
                  { coords := { Y := p.coords.Y - 1, X := p1.coords.X + 2 },
                    sprite := ["|".toList] })
          ∧ (∀ r, r ≠ e → r ≠ s.next → s1.heap r = s.heap r)
          ∧ ∃ s2, PlayerEntity.Tick e s1 = some s2
              ∧ s2.game.entities = s.game.entities ++ [s.next, s.next + 1]
              ∧ s2.heap (s.next + 1)
                  = some (.Projectile
                      { coords :=
                          { Y := p.coords.Y - 1,
                            X := p1.coords.X + (if s.game.inputHandler "right" then 2 else 0)
                              - (if s.game.inputHandler "left" then 2 else 0) + 2 },
                        sprite := ["|".toList] }))
      ∧ (s.game.inputHandler " " = false →
          s1.game.entities = s.game.entities ∧ ∀ r, r ≠ e → s1.heap r = s.heap r)
      ∧ (s1.game.entities.length = s.game.entities.length + 1
          ↔ s.game.inputHandler " " = true) := by
  obtain ⟨s1, ht, hheap, hih, _, _, hfree1, hfire, hnofire⟩ :=
    PlayerEntity_Tick_step s e p he hfree
  refine ⟨s1, _, ht, hheap, rfl, rfl, rfl, ?_, ?_, ?_⟩
  · intro hf
    obtain ⟨hent, hnext, hproj, hother⟩ := hfire hf
    refine ⟨hent, hfree _ (Nat.le_refl _), hproj, hother, ?_⟩
    obtain ⟨s2, ht2, _, _, _, _, _, hfire2, _⟩ :=
      PlayerEntity_Tick_step s1 e _ hheap hfree1
    obtain ⟨hent2, _, hproj2, _⟩ := hfire2 (by rw [hih]; exact hf)
    refine ⟨s2, ht2, ?_, ?_⟩
    · rw [hent2, hent, hnext]
      simp
    · rw [hnext, hih] at hproj2
      exact hproj2
  · intro hf
    obtain ⟨hg, _, hother⟩ := hnofire hf
    exact ⟨by rw [hg], hother⟩
  · constructor
    · intro hlen
      by_contra hf
      have hf2 : s.game.inputHandler " " = false := by
        cases h : s.game.inputHandler " "
        · rfl
        · exact absurd h hf
      rw [(hnofire hf2).1] at hlen
      omega
    · intro hf
      rw [(hfire hf).1]
      simp

/-- Witness for C14: the player of `InitGame` (pointer 0, at row 33, column 40)
with the fire key held. -/
theorem PlayerEntity_Tick_contract_witness :
    ∃ s1, PlayerEntity.Tick 0 fireState = some s1
      ∧ s1.heap 0 = some (.Player (NewMyGameEntity 33 40))
      ∧ s1.game.entities = fireState.game.entities ++ [15]
      ∧ s1.heap 15
          = some (.Projectile { coords := { Y := 32, X := 42 }, sprite := ["|".toList] }) := by
  have hfree : ∀ r, fireState.next ≤ r → fireState.heap r = none :=
    (InitGame_wf _).2.1
  obtain ⟨s1, p1, ht, hheap, hy, hx, hs, hfire, _, _⟩ :=
    PlayerEntity_Tick_contract fireState 0 (NewMyGameEntity 33 40) rfl hfree
  obtain ⟨hent, _, hproj, _⟩ := hfire rfl
  have hp1 : p1 = NewMyGameEntity 33 40 := by
    cases p1 with
    | mk coords sprite =>
      cases coords with
      | mk Y X =>
        simp only [] at hy hx hs
        subst hy hs
        have hX : X = 40 := by rw [hx]; rfl
        subst hX
        rfl
  subst hp1
  exact ⟨s1, ht, hheap, hent, hproj⟩

/-- Drawing a registry that ends in `r` is drawing the entities before it, then `r`
over them. -/
theorem drawEntities_append (l : List Nat) (r : Nat) : ∀ s : State,
    Game.drawEntities (l ++ [r]) s = (Game.drawEntities l s).bind (Game.drawEntities [r]) := by
  induction l with
  | nil => intro s; rfl
  | cons a l ih =>
    intro s
    simp only [List.cons_append, Game.drawEntities]
    split
    · rfl
    · split
      · rfl
      · exact ih _

/-- The entries of `respawnState` exist, and its player has a hit box. -/
theorem respawnState_wf : ∀ r ∈ respawnState.game.entities,
    ∃ b, respawnState.heap r = some b ∧ (b.GetType = .PLAYER → b.GetHitBox ≠ none) := by
  intro r hr
  have h012 : r = 0 ∨ r = 1 ∨ r = 2 := by
    have hent : respawnState.game.entities = [0, 1, 2] := rfl
    rw [hent] at hr
    simpa using hr
  rcases h012 with rfl | rfl | rfl
  · exact ⟨_, rfl, by simp [GameEntity.GetType]⟩
  · exact ⟨_, rfl, by simp [GameEntity.GetHitBox, NewMyGameEntity, spriteHitBox]⟩
  · exact ⟨_, rfl, by simp [GameEntity.GetType]⟩

/-- C19, as stated, fails: in `respawnState` (registry: enemy projectile 0, player 1,
enemy 2; fire held) the projectile hits the player, which goes to the end of the
registry; the tick of that player then appends its projectile 3 after it, so the
player is not the last entity of the registry from then on. -/
theorem respawn_last_as_stated_fails :
    ((EnemyProjectileEntity.Tick 0 respawnState).map fun s1 => s1.game.entities)
        = some [0, 2, 1]
      ∧ (((EnemyProjectileEntity.Tick 0 respawnState).bind (PlayerEntity.Tick 1)).map
          fun s2 => (s2.game.entities, s2.game.entities.getLast?)) = some ([0, 2, 1, 3], some 3)
      ∧ (((EnemyProjectileEntity.Tick 0 respawnState).bind (PlayerEntity.Tick 1)).map
          fun s2 => s2.heap 3) = some (some (.Projectile (NewProjectileEntity 32 42))) := by
  refine ⟨by rfl, by rfl, by rfl⟩

/-- C19, amended.  In a state as in C3, when the player at index `i` is the first
player of the registry that the enemy projectile overlaps after its move and
`lives_left` is not 0, the registry after the tick is the old one with the element at
index `i` removed and that same player appended as the last element, in the same
backing array; the state of the player is untouched; the player is the last element
of the registry, and a draw of that registry composites every other entity, in the
old order, and then the player over them. -/
theorem EnemyProjectileEntity_Tick_respawn_order (s : State) (e : Nat)
    (p : EnemyProjectileEntity) (he : s.heap e = some (.EnemyProjectile p))
    (hwf : ∀ r ∈ s.game.entities,
      ∃ b, s.heap r = some b ∧ (b.GetType = .PLAYER → b.GetHitBox ≠ none))
    (i : Nat) (r : Nat) (b : GameEntity) (hi : s.game.entities[i]? = some r)
    (hb : s.heap r = some b) (hty : b.GetType = .PLAYER)
    (hcol : IsCollide (.EnemyProjectile p.moved) b = some true)
    (hfirst : ∀ j r1, j < i → s.game.entities[j]? = some r1 →
      hits s.heap .PLAYER (.EnemyProjectile p.moved) r1 = false)
    (hl : s.livesLeft ≠ 0) :
    ∃ s1, EnemyProjectileEntity.Tick e s = some s1
      ∧ s1.game.entities = s.game.entities.take i ++ s.game.entities.drop (i + 1) ++ [r]
      ∧ s1.game.entities.length = s.game.entities.length
      ∧ s1.heap r = some b
      ∧ s1.game.entities.getLast? = some r
      ∧ s1.game.entities.dropLast = s.game.entities.eraseIdx i
      ∧ s1.game.array = s.game.array
      ∧ ∀ t : State, Game.drawEntities s1.game.entities t
          = (Game.drawEntities (s.game.entities.eraseIdx i) t).bind
              (Game.drawEntities [r]) := by
  obtain ⟨s1, ht, hheap, _, hcases⟩ := EnemyProjectileEntity_Tick_core s e p he hwf
  have hhit : hits s.heap .PLAYER (.EnemyProjectile p.moved) r = true :=
    (hits_iff _ _ _ _).mpr ⟨b, hb, hty, hcol⟩
  have hlt : i < s.game.entities.length := (List.getElem?_eq_some.mp hi).1
  have hre : r ≠ e := by
    rintro rfl
    rw [he] at hb
    cases hb
    simp [GameEntity.GetType] at hty
  have hl0 : (s.game.globals "lives_left").IntValue ≠ 0 := hl
  rcases hcases with ⟨hno, _⟩ | ⟨i0, r0, h1, h2, h3, hg⟩
  · rw [hno r (List.mem_iff_getElem?.mpr ⟨i, hi⟩)] at hhit
    cases hhit
  · rw [if_pos hl0] at hg
    have hii : i0 = i := by
      rcases Nat.lt_trichotomy i0 i with hlt | heq | hgt
      · rw [hfirst i0 r0 hlt h1] at h2
        cases h2
      · exact heq
      · rw [h3 i r hgt hi] at hhit
        cases hhit
    subst hii
    have hrr : r0 = r := by
      rw [h1] at hi
      exact Option.some.inj hi
    subst hrr
    have hent : s1.game.entities = s.game.entities.eraseIdx i0 ++ [r0] := by rw [hg]
    refine ⟨s1, ht, ?_, ?_, ?_, ?_, ?_, ?_, ?_⟩
    · rw [hent, List.eraseIdx_eq_take_drop_succ]
    · rw [hent]
      exact (eraseIdx_append_perm _ _ _ h1).length_eq
    · rw [hheap, Heap_set_other _ _ _ _ hre]
      exact hb
    · rw [hent]
      simp
    · rw [hent]
      simp
    · rw [hg]
    · intro t
      rw [hent]
      exact drawEntities_append _ _ t

/-- Witness for C19: in `respawnState` the player hit at index 1 goes behind the
enemy. -/
theorem EnemyProjectileEntity_Tick_respawn_order_witness :
    ∃ s1, EnemyProjectileEntity.Tick 0 respawnState = some s1
      ∧ s1.game.entities = [0, 2, 1]
      ∧ s1.heap 1 = some (.Player (NewMyGameEntity 33 40))
      ∧ s1.game.entities.getLast? = some 1 := by
  obtain ⟨s1, ht, hent, _, hheap, hlast, _⟩ :=
    EnemyProjectileEntity_Tick_respawn_order respawnState 0 (NewEnemyProjectileEntity 33 41)
      rfl respawnState_wf 1 1 (.Player (NewMyGameEntity 33 40)) rfl rfl rfl (by decide)
      (by
        intro j r1 hj h
        have hj0 : j = 0 := by omega
        subst hj0
        have hr1 : r1 = 0 := (Option.some.inj h).symm
        subst hr1
        decide)
      (by decide)
  exact ⟨s1, ht, by rw [hent]; rfl, hheap, hlast⟩

/-- What an advance call does to the registry of a well-formed state: nothing, an
append of the object it allocates, a removal, or a removal followed by an append of
the removed entity. -/
theorem GameEntity_Tick_registry (s : State) (hwf : s.WellFormed) (e : Nat) (he : e < s.next)
    (draw : Int) :
    ∃ s1, GameEntity.Tick e draw s = some s1 ∧ s1.WellFormed
      ∧ ((s1.next = s.next ∧ s1.game.entities = s.game.entities
            ∧ s1.game.spare = s.game.spare ∧ s1.game.array = s.game.array)
        ∨ (s1.next = s.next + 1 ∧ s1.game = s.game.AddEntity s.next)
        ∨ (∃ i r, s.game.entities[i]? = some r ∧ s1.next = s.next
            ∧ s1.game.array = s.game.array
            ∧ ((s1.game.entities = s.game.entities.eraseIdx i
                ∧ s1.game.spare = s.game.entities.getLast? :: s.game.spare)
              ∨ (s1.game.entities = s.game.entities.eraseIdx i ++ [r]
                ∧ s1.game.spare = s.game.spare)))) := by
  obtain ⟨s1, ht, hwf1⟩ := GameEntity_Tick_wf s hwf e he draw
  refine ⟨s1, ht, hwf1, ?_⟩
  obtain ⟨b, hb, hbox⟩ := hwf.1 e he
  unfold GameEntity.Tick at ht
  cases b with
  | Player p =>
    simp only [hb] at ht
    rw [PlayerEntity_Tick_core s e p hb] at ht
    split at ht
    · cases ht
      exact Or.inr (Or.inl ⟨rfl, rfl⟩)
    · cases ht
      exact Or.inl ⟨rfl, rfl, rfl, rfl⟩
  | Projectile p =>
    simp only [hb] at ht
    obtain ⟨s2, ht2, _, hnext, hcases⟩ :=
      ProjectileEntity_Tick_core s e p hb (WellFormed_hwf s hwf .ENEMY)
    rw [ht] at ht2
    cases ht2
    rcases hcases with ⟨_, hg⟩ | ⟨i, r, hi, _, _, hg⟩
    · exact Or.inl ⟨hnext, by rw [hg], by rw [hg], by rw [hg]⟩
    · exact Or.inr (Or.inr ⟨i, r, hi, hnext, by rw [hg], Or.inl ⟨by rw [hg], by rw [hg]⟩⟩)
  | Enemy en =>
    simp only [hb] at ht
    obtain ⟨row, rest, hs⟩ : ∃ row rest, en.sprite = row :: rest := by
      cases hsp : en.sprite with
      | nil => simp [GameEntity.GetHitBox, spriteHitBox, hsp] at hbox
      | cons row rest => exact ⟨row, rest, rfl⟩
    obtain ⟨s2, ht2, _, _, _, _, hspawn, hnospawn⟩ :=
      EnemyEntity_Tick_core s e en draw row rest hb hs
    rw [ht] at ht2
    cases ht2
    by_cases hc : ¬ en.counter + 1 < 10 ∧ draw = 1
    · obtain ⟨hnext, hg, _⟩ := hspawn hc
      exact Or.inr (Or.inl ⟨hnext, hg⟩)
    · obtain ⟨hnext, hg, _⟩ := hnospawn hc
      exact Or.inl ⟨hnext, by rw [hg], by rw [hg], by rw [hg]⟩
  | EnemyProjectile p =>
    simp only [hb] at ht
    obtain ⟨s2, ht2, _, hnext, hcases⟩ :=
      EnemyProjectileEntity_Tick_core s e p hb (WellFormed_hwf s hwf .PLAYER)
    rw [ht] at ht2
    cases ht2
    rcases hcases with ⟨_, hg⟩ | ⟨i, r, hi, _, _, hg⟩
    · exact Or.inl ⟨hnext, by rw [hg], by rw [hg], by rw [hg]⟩
    · refine Or.inr (Or.inr ⟨i, r, hi, hnext, ?_, ?_⟩)
      · rw [hg]
        split <;> rfl
      · split at hg
        · exact Or.inr ⟨by rw [hg], by rw [hg]⟩
        · exact Or.inl ⟨by rw [hg], by rw [hg]⟩
  | ScoreBoard sb =>
    simp only [hb, ScoreBoardEntity.Tick] at ht
    cases ht
    exact Or.inl ⟨rfl, rfl, rfl, rfl⟩

theorem slots_lt (g : Game) (k : Nat) (hk : k < g.entities.length) :
    ∃ r, g.slots[k]? = some (some r) ∧ r ∈ g.entities := by
  refine ⟨g.entities[k], ?_, List.getElem_mem _⟩
  unfold Game.slots
  rw [List.getElem?_append_left (by simpa using hk)]
  simp [List.getElem?_eq_getElem hk]

theorem slots_ge (g : Game) (k : Nat) (hk : g.entities.length ≤ k) :
    g.slots[k]? = g.spare[k - g.entities.length]? := by
  unfold Game.slots
  rw [List.getElem?_append_right (by simpa using hk)]
  simp

theorem AddEntity_spare_cons (g : Game) (e : Nat) (x : Option Nat) (rest : List (Option Nat))
    (h : g.spare = x :: rest) :
    g.AddEntity e = { g with entities := g.entities ++ [e], spare := rest } := by
  simp only [Game.AddEntity, h]

theorem AddEntity_spare_nil (g : Game) (e : Nat) (h : g.spare = []) :
    (g.AddEntity e).array = g.array + 1 := by
  simp only [Game.AddEntity, h]

theorem AddEntity_array_le (g : Game) (e : Nat) : g.array ≤ (g.AddEntity e).array := by
  cases h : g.spare with
  | nil => rw [AddEntity_spare_nil g e h]; omega
  | cons x rest => rw [AddEntity_spare_cons g e x rest h]

/-- An advance call in a well-formed state returns, and the slots of the backing array
it leaves, when the array is still the same one, are each as before or hold an
entity in use. -/
theorem GameEntity_Tick_slots (s : State) (hwf : s.WellFormed) (e : Nat) (he : e < s.next)
    (draw : Int) :
    ∃ s1, GameEntity.Tick e draw s = some s1 ∧ s1.WellFormed
      ∧ s.next ≤ s1.next ∧ s.game.array ≤ s1.game.array
      ∧ (s1.game.array = s.game.array →
          ∀ k : Nat, s1.game.slots[k]? = s.game.slots[k]?
            ∨ ∃ r, s1.game.slots[k]? = some (some r) ∧ r < s1.next) := by
  obtain ⟨s1, ht, hwf1, hclass⟩ := GameEntity_Tick_registry s hwf e he draw
  refine ⟨s1, ht, hwf1, ?_⟩
  rcases hclass with ⟨hnext, hent, hspare, harr⟩ | ⟨hnext, hg⟩ | ⟨i, r, hi, hnext, harr, hcase⟩
  · refine ⟨by omega, by omega, fun _ k => Or.inl ?_⟩
    simp only [Game.slots, hent, hspare]
  · refine ⟨by omega, by rw [hg]; exact AddEntity_array_le _ _, ?_⟩
    intro harr k
    cases hsp : s.game.spare with
    | nil =>
      rw [hg, AddEntity_spare_nil _ _ hsp] at harr
      omega
    | cons x rest =>
      rw [AddEntity_spare_cons _ _ x rest hsp] at hg
      have hent : s1.game.entities = s.game.entities ++ [s.next] := by rw [hg]
      have hspare : s1.game.spare = rest := by rw [hg]
      have hlen : s1.game.entities.length = s.game.entities.length + 1 := by
        rw [hent]; simp
      by_cases hk : k ≤ s.game.entities.length
      · right
        obtain ⟨r, hr, hmem⟩ := slots_lt s1.game k (by omega)
        refine ⟨r, hr, ?_⟩
        rw [hent] at hmem
        simp only [List.mem_append, List.mem_singleton] at hmem
        rcases hmem with h | h
        · have := hwf.2.2 r h
          omega
        · omega
      · left
        rw [slots_ge s1.game k (by omega), slots_ge s.game k (by omega), hspare, hsp, hlen]
        have hk2 : k - s.game.entities.length = (k - (s.game.entities.length + 1)) + 1 := by
          omega
        rw [hk2, List.getElem?_cons_succ]
  · have hlt : i < s.game.entities.length := (List.getElem?_eq_some.mp hi).1
    refine ⟨by omega, by omega, fun _ k => ?_⟩
    have hmemOld : ∀ r0, r0 ∈ s.game.entities → r0 < s1.next := by
      intro r0 h0
      have := hwf.2.2 r0 h0
      omega
    rcases hcase with ⟨hent, hspare⟩ | ⟨hent, hspare⟩
    · have hlen : s1.game.entities.length + 1 = s.game.entities.length := by
        rw [hent, List.length_eraseIdx, if_pos hlt]
        omega
      by_cases hk : k < s1.game.entities.length
      · right
        obtain ⟨r0, hr, hmem⟩ := slots_lt s1.game k hk
        rw [hent] at hmem
        exact ⟨r0, hr, hmemOld r0 (mem_of_mem_eraseIdx _ _ _ hmem)⟩
      · by_cases hk2 : k = s1.game.entities.length
        · right
          have hne : s.game.entities ≠ [] := by
            intro h
            rw [h] at hlt
            simp at hlt
          refine ⟨s.game.entities.getLast hne, ?_, hmemOld _ (List.getLast_mem hne)⟩
          rw [slots_ge s1.game k (by omega), hspare, hk2, Nat.sub_self,
            List.getElem?_cons_zero, List.getLast?_eq_getLast _ hne]
        · left
          rw [slots_ge s1.game k (by omega), slots_ge s.game k (by omega), hspare]
          have hk3 : k - s1.game.entities.length = (k - s.game.entities.length) + 1 := by
            omega
          rw [hk3, List.getElem?_cons_succ]
    · have hlen : s1.game.entities.length = s.game.entities.length := by
        rw [hent]
        exact (eraseIdx_append_perm _ _ _ hi).length_eq
      by_cases hk : k < s1.game.entities.length
      · right
        obtain ⟨r0, hr, hmem⟩ := slots_lt s1.game k hk
        rw [hent] at hmem
        exact ⟨r0, hr, hmemOld r0 ((eraseIdx_append_perm _ _ _ hi).subset hmem)⟩
      · left
        rw [slots_ge s1.game k (by omega), slots_ge s.game k (by omega), hspare, hlen]

/-- The loop of `Game.Tick` in a well-formed state makes every one of its calls: the
slots it has still to read hold entities in use. -/
theorem tickLoop_total (array : Nat) (draws : Nat → Int) :
    ∀ (todo index : Nat) (slots : List (Option Nat)) (s : State), s.WellFormed →
      array ≤ s.game.array → (s.game.array = array → slots = s.game.slots) →
      (∀ k : Nat, k < index + todo → ∃ r, slots[k]? = some (some r) ∧ r < s.next) →
      ∃ calls s2, Game.tickLoop array draws todo index slots s = some (calls, s2)
        ∧ calls.length = todo ∧ s2.WellFormed := by
  intro todo
  induction todo with
  | zero =>
    intro index slots s hwf _ _ _
    exact ⟨[], s, rfl, rfl, hwf⟩
  | succ todo ih =>
    intro index slots s hwf harr hshared hslots
    obtain ⟨r, hr, hlt⟩ := hslots index (by omega)
    obtain ⟨s1, ht, hwf1, hnext, harr1, hstep⟩ :=
      GameEntity_Tick_slots s hwf r hlt (draws index)
    have hinv : ∀ k : Nat, k < (index + 1) + todo →
        ∃ r, (if s1.game.array = array then s1.game.slots else slots)[k]? = some (some r)
          ∧ r < s1.next := by
      intro k hk
      obtain ⟨r0, hr0, hlt0⟩ := hslots k (by omega)
      by_cases hsh : s1.game.array = array
      · rw [if_pos hsh]
        have hs : s.game.array = array := by omega
        rcases hstep (by omega) k with h | h
        · rw [h, ← hshared hs]
          exact ⟨r0, hr0, by omega⟩
        · exact h
      · rw [if_neg hsh]
        exact ⟨r0, hr0, by omega⟩
    obtain ⟨calls, s2, hloop, hlen, hwf2⟩ :=
      ih (index + 1) _ s1 hwf1 (by omega) (by intro h; rw [if_pos h]) hinv
    refine ⟨(r, s1) :: calls, s2, ?_, by simp [hlen], hwf2⟩
    simp only [Game.tickLoop, hr, ht, hloop]

theorem slots_prefix (g : Game) (l extras : List Nat) (h : g.entities = l ++ extras)
    (k : Nat) (hk : k < l.length) : g.slots[k]? = some l[k]? := by
  unfold Game.slots
  rw [h, List.map_append, List.append_assoc,
    List.getElem?_append_left (by simpa using hk), List.getElem?_map,
    List.getElem?_eq_getElem hk]
  rfl

/-- When no call of the loop removes an entity, the loop over the registry `l`
advances the entities of `l`, in order, and leaves `l` followed by objects allocated
from `next0` on. -/
theorem tickLoop_appends (array : Nat) (draws : Nat → Int) (l : List Nat) (next0 : Nat) :
    ∀ (todo index : Nat) (slots : List (Option Nat)) (s : State)
      (calls : List (Nat × State)) (s2 : State), s.WellFormed → index + todo = l.length →
      (∀ k : Nat, k < l.length → slots[k]? = some l[k]?) →
      (∃ extras, s.game.entities = l ++ extras ∧ ∀ r ∈ extras, next0 ≤ r) →
      next0 ≤ s.next →
      Game.tickLoop array draws todo index slots s = some (calls, s2) →
      OnlyAppends s calls →
      calls.map Prod.fst = l.drop index
        ∧ ∃ extras, s2.game.entities = l ++ extras ∧ ∀ r ∈ extras, next0 ≤ r := by
  intro todo
  induction todo with
  | zero =>
    intro index slots s calls s2 _ hidx _ hext _ hloop _
    simp only [Game.tickLoop] at hloop
    cases hloop
    refine ⟨?_, hext⟩
    rw [List.drop_of_length_le (by omega)]
    rfl
  | succ todo ih =>
    intro index slots s calls s2 hwf hidx hslots hext hn0 hloop hoa
    have hilt : index < l.length := by omega
    have hslot : slots[index]? = some (some l[index]) := by
      rw [hslots index hilt, List.getElem?_eq_getElem hilt]
    simp only [Game.tickLoop, hslot] at hloop
    obtain ⟨s1, ht, hwf1, hclass⟩ :=
      GameEntity_Tick_registry s hwf l[index]
        (by
          obtain ⟨extras, he, _⟩ := hext
          apply hwf.2.2
          rw [he]
          exact List.mem_append_left _ (List.getElem_mem _))
        (draws index)
    rw [ht] at hloop
    simp only [] at hloop
    split at hloop
    · cases hloop
    · rename_i calls1 s3 hrec
      injection hloop with hloop
      injection hloop with hc hs
      subst hc hs
      obtain ⟨hpre, hoa1⟩ := hoa
      obtain ⟨extras, he, hfresh⟩ := hext
      have hext1 : ∃ extras1, s1.game.entities = l ++ extras1 ∧ ∀ r ∈ extras1, next0 ≤ r := by
        rcases hclass with ⟨_, hent, _, _⟩ | ⟨_, hg⟩ | ⟨i, r, hi, _, _, hcase⟩
        · exact ⟨extras, by rw [hent, he], hfresh⟩
        · refine ⟨extras ++ [s.next], ?_, ?_⟩
          · rw [hg, AddEntity_entities, he, List.append_assoc]
          · intro r hr
            simp only [List.mem_append, List.mem_singleton] at hr
            rcases hr with h | h
            · exact hfresh r h
            · omega
        · have hlt : i < s.game.entities.length := (List.getElem?_eq_some.mp hi).1
          rcases hcase with ⟨hent, _⟩ | ⟨hent, _⟩
          · have hle := hpre.length_le
            rw [hent, List.length_eraseIdx, if_pos hlt] at hle
            omega
          · have hlen : s1.game.entities.length = s.game.entities.length := by
              rw [hent]
              exact (eraseIdx_append_perm _ _ _ hi).length_eq
            have heq : s.game.entities = s1.game.entities :=
              hpre.eq_of_length hlen.symm
            exact ⟨extras, by rw [← heq, he], hfresh⟩
      have hnext1 : next0 ≤ s1.next := by
        rcases hclass with ⟨h, _⟩ | ⟨h, _⟩ | ⟨_, _, _, h, _⟩ <;> omega
      have hslots1 : ∀ k : Nat, k < l.length →
          (if s1.game.array = array then s1.game.slots else slots)[k]? = some l[k]? := by
        intro k hk
        split
        · obtain ⟨extras1, he1, _⟩ := hext1
          exact slots_prefix _ _ _ he1 k hk
        · exact hslots k hk
      obtain ⟨hvis, hfin⟩ :=
        ih (index + 1) _ s1 calls1 s3 hwf1 (by omega) hslots1 hext1 hnext1 hrec hoa1
      refine ⟨?_, hfin⟩
      simp only [List.map_cons, hvis]
      exact (List.drop_eq_getElem_cons hilt).symm

/-- The loop of `Game.Tick` is a sequence of entity ticks: it stays inside the
reachable states. -/
theorem tickLoop_reachable (array : Nat) (draws : Nat → Int) :
    ∀ (todo index : Nat) (slots : List (Option Nat)) (s : State)
      (calls : List (Nat × State)) (s2 : State), Reachable s →
      Game.tickLoop array draws todo index slots s = some (calls, s2) → Reachable s2 := by
  intro todo
  induction todo with
  | zero =>
    intro index slots s calls s2 hs hloop
    simp only [Game.tickLoop] at hloop
    cases hloop
    exact hs
  | succ todo ih =>
    intro index slots s calls s2 hs hloop
    simp only [Game.tickLoop] at hloop
    split at hloop
    · rename_i entity _
      split at hloop
      · cases hloop
      · rename_i s1 ht
        split at hloop
        · cases hloop
        · rename_i calls1 s3 hrec
          injection hloop with hloop
          injection hloop with _ hs3
          subst hs3
          exact ih _ _ s1 calls1 s3 (Reachable.tick entity (draws index) hs ht) hrec
    · cases hloop

/-- A state that `Game.Tick` returns from a reachable state is reachable, and so
well formed. -/
theorem Game_Tick_reachable (draws : Nat → Int) (s s2 : State) (hs : Reachable s)
    (h : Game.Tick draws s = some s2) : Reachable s2 ∧ s2.WellFormed := by
  simp only [Game.Tick, Option.map_eq_some'] at h
  obtain ⟨⟨calls, s3⟩, hcalls, hs3⟩ := h
  simp only [] at hs3
  subst hs3
  have hr := tickLoop_reachable _ draws _ 0 _ s calls s3 hs hcalls
  exact ⟨hr, Reachable_wf _ hr⟩

set_option maxRecDepth 8000 in
/-- C20, as stated, fails: in `visitState` (registry: the player projectile 0 under the
enemy 1, then the player 2; fire held; pointer 3 not yet allocated) the tick makes
three advance calls, of the entities 0, 2 and 3.  The projectile 0 removes the enemy,
which frees the third slot of the array being iterated; the player appends its new
projectile 3 into that slot, and the third step of the loop advances it in this same
tick, from row 32, where it was made, to row 31. -/
theorem Game_Tick_calls_as_stated_fails :
    visitState.game.entities = [0, 1, 2] ∧ visitState.heap 3 = none
      ∧ Game.TickVisits (fun _ => 0) visitState = some [0, 2, 3]
      ∧ ((Game.Tick (fun _ => 0) visitState).map fun s2 => (s2.game.entities, s2.heap 3))
          = some ([0, 2, 3], some (.Projectile (NewProjectileEntity 31 42))) := by
  refine ⟨by rfl, by rfl, by rfl, by rfl⟩

/-- C20, amended.  In a well-formed state whose registry holds `n` entities,
`Game.Tick` returns after exactly `n` advance calls, whatever those calls append or
remove; and when none of those calls removes an entity (each leaves the registry it
found as the start of the registry it returns), the entities advanced are those of
the registry at the start, in order, and the registry at the end, which the
following draw iterates, is that registry followed by the entities appended during
the tick, none of which existed at the start or was advanced in this tick. -/
theorem Game_Tick_calls (draws : Nat → Int) (s : State) (hwf : s.WellFormed) :
    ∃ calls s2, Game.TickCalls draws s = some (calls, s2) ∧ Game.Tick draws s = some s2
      ∧ Game.TickVisits draws s = some (calls.map Prod.fst)
      ∧ calls.length = s.game.entities.length
      ∧ s2.WellFormed
      ∧ (OnlyAppends s calls →
          calls.map Prod.fst = s.game.entities
          ∧ ∃ extras, s2.game.entities = s.game.entities ++ extras
              ∧ ∀ r ∈ extras, r ∉ calls.map Prod.fst ∧ s.heap r = none) := by
  obtain ⟨calls, s2, hloop, hlen, hwf2⟩ :=
    tickLoop_total s.game.array draws s.game.entities.length 0 s.game.slots s hwf
      (Nat.le_refl _) (fun _ => rfl)
      (by
        intro k hk
        obtain ⟨r, hr, hmem⟩ := slots_lt s.game k (by omega)
        exact ⟨r, hr, hwf.2.2 r hmem⟩)
  have hcalls : Game.TickCalls draws s = some (calls, s2) := hloop
  refine ⟨calls, s2, hcalls, ?_, ?_, hlen, hwf2, ?_⟩
  · simp only [Game.Tick, hcalls, Option.map_some']
  · simp only [Game.TickVisits, hcalls, Option.map_some']
  · intro hoa
    obtain ⟨hvis, extras, hext, hfresh⟩ :=
      tickLoop_appends s.game.array draws s.game.entities s.next s.game.entities.length 0
        s.game.slots s calls s2 hwf (by omega)
        (fun k hk => slots_prefix s.game s.game.entities [] (by simp) k hk)
        ⟨[], by simp, by simp⟩ (Nat.le_refl _) hloop hoa
    rw [List.drop_zero] at hvis
    refine ⟨hvis, extras, hext, ?_⟩
    intro r hr
    have hge := hfresh r hr
    refine ⟨?_, hwf.2.1 r hge⟩
    rw [hvis]
    intro hmem
    have := hwf.2.2 r hmem
    omega

set_option maxRecDepth 8000 in
/-- Witness for C20: the first tick of `InitGame` with the fire key held makes 15
calls, one for each entity of the registry in order, and the projectile of the
player is behind them at the end. -/
theorem Game_Tick_calls_witness :
    ∃ calls s2, Game.TickCalls (fun _ => 0) fireState = some (calls, s2)
      ∧ calls.length = 15
      ∧ calls.map Prod.fst = fireState.game.entities
      ∧ ∃ extras, s2.game.entities = fireState.game.entities ++ extras
          ∧ ∀ r ∈ extras, r ∉ calls.map Prod.fst ∧ fireState.heap r = none := by
  obtain ⟨calls, s2, hc, _, _, hlen, _, himp⟩ :=
    Game_Tick_calls (fun _ => 0) fireState (InitGame_wf _)
  have hdec : ((Game.TickCalls (fun _ => 0) fireState).map
      fun out => decide (OnlyAppends fireState out.1)) = some true := by rfl
  rw [hc] at hdec
  have hoa : OnlyAppends fireState calls := of_decide_eq_true (Option.some.inj hdec)
  obtain ⟨hvis, hext⟩ := himp hoa
  exact ⟨calls, s2, hc, hlen, hvis, hext⟩

end GopherInvaders
